import Mathlib

/-!
Service-mesh onboarding for KnativeServing on OpenShift.

A shallow embedding of `pkg/shared.go` and
`pkg/controller/knativeserving/servicemesh/servicemesh.go`.

* Go strings are `String`; Go maps are association lists read through `mapLookup`.
* The controller-runtime client is a store of typed objects (`Cluster`) driven through
  a `World`: every client call is appended to `World.trace`, and consumes one entry of
  `World.script`, which says whether the API server rejects that call (with which error)
  or serves it from the store.
* Go functions returning `error` return `Except GoError Unit` paired with the world
  they leave behind.  Logging is not modelled.
-/

namespace ServiceMesh

/-! ## Strings and Go maps -/

/-- Go `strings.Contains s substr`: `substr` occurs as a contiguous run inside `s`. -/
def stringsContains (s substr : String) : Bool :=
  decide (substr.data <:+: s.data)

/-- Go `map[string]V` as an association list; the first binding of a key is the live one. -/
abbrev GoMap (V : Type) := List (String × V)

/-- The comma-ok map read `v, ok := m[k]`. -/
def mapLookup {V : Type} (m : GoMap V) (k : String) : Option V :=
  match m with
  | [] => none
  | (k1, v1) :: rest => if k1 = k then some v1 else mapLookup rest k

/-- The map write `m[k] = v`: rebinds `k` in place, or adds the binding. -/
def mapStore {V : Type} (m : GoMap V) (k : String) (v : V) : GoMap V :=
  match m with
  | [] => [(k, v)]
  | (k1, v1) :: rest => if k1 = k then (k, v) :: rest else (k1, v1) :: mapStore rest k v

/-- The plain read `m[k]` on a `map[string]string`: `""` when `k` has no binding. -/
def mapIndex (m : GoMap String) (k : String) : String :=
  (mapLookup m k).getD ""

/-! ## `pkg/shared.go` -/

/-- The type `map[string]map[string]string` of `Spec.Config`; `none` is a nil map. -/
abbrev ConfigData := Option (GoMap (Option (GoMap String)))

structure KnativeServingSpec where
  Config : ConfigData
deriving DecidableEq

/-- The `servingv1alpha1.KnativeServing` fields the code reads and writes. -/
structure KnativeServing where
  Name : String
  Namespace : String
  Spec : KnativeServingSpec
deriving DecidableEq

/-- The inner map `ks.Spec.Config[cm]`; `none` when it is nil (no binding, nil binding,
or nil outer map). -/
def configDomain (c : ConfigData) (cm : String) : Option (GoMap String) :=
  match c with
  | none => none
  | some outer => (mapLookup outer cm).join

/-- The read `ks.Spec.Config[cm][key]` with Go's zero value for missing bindings. -/
def configIndex (c : ConfigData) (cm key : String) : String :=
  match configDomain c cm with
  | none => ""
  | some inner => mapIndex inner key

/-- The comma-ok read of `ks.Spec.Config[cm][key]`: `none` when the key does not exist. -/
def configEntry (c : ConfigData) (cm key : String) : Option String :=
  match configDomain c cm with
  | none => none
  | some inner => mapLookup inner key

/-- `pkg.Configure`: the returned pair is the `bool` result and the mutated `*ks`. -/
def Configure (ks : KnativeServing) (cm key value : String) : Bool × KnativeServing :=
  let outer : GoMap (Option (GoMap String)) :=
    match ks.Spec.Config with
    | none => []
    | some c => c
  if (configIndex (some outer) cm key).length == 0 then
    let inner : GoMap String :=
      match configDomain (some outer) cm with
      | none => []
      | some m => m
    (true, { ks with Spec := { Config := some (mapStore outer cm (some (mapStore inner key value))) } })
  else
    (false, { ks with Spec := { Config := some outer } })

/-! ## `servicemesh.go`: constants and pure helpers -/

def smcpName : String := "basic-install"

def smmrName : String := "default"

def ownerName : String := "serving.knative.openshift.io/ownerName"

def ownerNamespace : String := "serving.knative.openshift.io/ownerNamespace"

def ingressNamespace (servingNamespace : String) : String :=
  servingNamespace ++ "-ingress"

/-- `servicemesh.Configure`: both defaults are attempted, then or-ed. -/
def ConfigureMesh (ks : KnativeServing) : Bool × KnativeServing :=
  let ns := ingressNamespace ks.Namespace
  let r1 := Configure ks "istio" "gateway.knative-ingress-gateway"
    ("istio-ingressgateway." ++ ns ++ ".svc.cluster.local")
  let r2 := Configure r1.2 "istio" "local-gateway.cluster-local-gateway"
    ("cluster-local-gateway." ++ ns ++ ".svc.cluster.local")
  (r1.1 || r2.1, r2.2)

def appendIfAbsent (members : List String) (routeNamespace : String) : List String × Bool :=
  if members.any (fun val => val == routeNamespace) then (members, false)
  else (members ++ [routeNamespace], true)

structure NamespacedName where
  Namespace : String
  Name : String
deriving DecidableEq

structure Request where
  NamespacedName : NamespacedName
deriving DecidableEq

/-- The `ToRequests` function registered by `watchServiceMeshType`, applied to the labels
`a.Meta.GetLabels()` of the changed object. -/
def toRequests (labels : GoMap String) : List Request :=
  if mapIndex labels ownerName == "" || mapIndex labels ownerNamespace == "" then []
  else [{ NamespacedName :=
            { Namespace := mapIndex labels ownerNamespace, Name := mapIndex labels ownerName } }]

/-! ## Objects of the operand API -/

/-- The `client.ObjectKey`; cluster-scoped objects have `Namespace = ""`. -/
structure ObjectKey where
  Namespace : String
  Name : String
deriving DecidableEq

/-- The `v1.Namespace` object, reduced to its name. -/
structure V1Namespace where
  Name : String
deriving DecidableEq

/-- One `maistrav1.Condition`; `Type_` stands for the Go field `Type`. -/
structure Condition where
  Type_ : String
  Status : String
deriving DecidableEq

structure ControlPlaneStatus where
  Conditions : List Condition
deriving DecidableEq

/-- The `maistrav1.ServiceMeshControlPlane`: metadata and status; the spec rendered from
the manifest template is not inspected by this package and is left out. -/
structure ServiceMeshControlPlane where
  Name : String
  Namespace : String
  Labels : GoMap String
  Status : ControlPlaneStatus
deriving DecidableEq

structure ServiceMeshMemberRollSpec where
  Members : List String
deriving DecidableEq

structure ServiceMeshMemberRollStatus where
  ConfiguredMembers : List String
deriving DecidableEq

structure ServiceMeshMemberRoll where
  Name : String
  Namespace : String
  Labels : GoMap String
  Spec : ServiceMeshMemberRollSpec
  Status : ServiceMeshMemberRollStatus
deriving DecidableEq

/-- Modelled from the spec: the constant `maistrav1.ConditionTypeReady`, declared in the
Maistra API package; the spec names the condition type `Ready`. -/
def ConditionTypeReady : String := "Ready"

/-- Modelled from the spec: the constant `maistrav1.ConditionStatusTrue`, declared in the
Maistra API package; the spec names the status value `True`. -/
def ConditionStatusTrue : String := "True"

/-! ## Errors -/

/-- The `metav1.StatusReason` of an API error, as far as the code tells reasons apart. -/
inductive StatusReason where
  | NotFound
  | AlreadyExists
  | Other
deriving DecidableEq

/-- An error answered by the API server (or the transport): a reason and a message. -/
structure ApiError where
  Reason : StatusReason
  Message : String
deriving DecidableEq

/-- A Go `error` value: one passed on from the client, or one built in this package
with `errors.New` or `fmt.Errorf`. -/
inductive GoError where
  | status (e : ApiError)
  | errorString (s : String)
deriving DecidableEq

/-- The method `err.Error()`. -/
def GoError.Error : GoError → String
  | .status e => e.Message
  | .errorString s => s

/-- The test `apierrors.IsNotFound err` on a non-nil error. -/
def IsNotFound : GoError → Bool
  | .status e => e.Reason == StatusReason.NotFound
  | .errorString _ => false

/-! ## The cluster and the client -/

/-- The objects held by the operand API, per kind, in creation order. -/
structure Cluster where
  namespaces : List V1Namespace
  smcps : List ServiceMeshControlPlane
  smmrs : List ServiceMeshMemberRoll
deriving DecidableEq

/-- One call on `client.Client`, with its argument. -/
inductive ApiCall where
  | getNamespace (key : ObjectKey)
  | createNamespace (obj : V1Namespace)
  | deleteNamespace (obj : V1Namespace)
  | getSMCP (key : ObjectKey)
  | createSMCP (obj : ServiceMeshControlPlane)
  | updateSMCP (obj : ServiceMeshControlPlane)
  | getSMMR (key : ObjectKey)
  | createSMMR (obj : ServiceMeshMemberRoll)
  | updateSMMR (obj : ServiceMeshMemberRoll)
deriving DecidableEq

/-- Failures of the manifest library that happen before any object is applied. -/
structure ManifestEnv where
  newManifestErr : Option GoError
  transformErr : Option GoError
deriving DecidableEq

/-- The environment of one run: the cluster, the verdicts the API server will give to the
coming calls (`some e`: the call is rejected with `e` and changes nothing; `none`, or no
entry left: the call is served from the store), the calls made so far, and the manifest
library. -/
structure World where
  cluster : Cluster
  script : List (Option ApiError)
  trace : List ApiCall
  manifest : ManifestEnv
deriving DecidableEq

/-- Record a call and take the server's verdict on it. -/
def World.call (w : World) (c : ApiCall) : Option ApiError × World :=
  match w.script with
  | [] => (none, { w with trace := w.trace ++ [c] })
  | verdict :: rest => (verdict, { w with script := rest, trace := w.trace ++ [c] })

/-- The verdict waiting for the next call: `none` when it will be served. -/
def World.verdict (w : World) : Option ApiError :=
  match w.script with
  | [] => none
  | verdict :: _ => verdict

def storeGet {α : Type} (keyOf : α → ObjectKey) (key : ObjectKey) : List α → Option α
  | [] => none
  | o :: rest => if keyOf o = key then some o else storeGet keyOf key rest

def storeReplace {α : Type} (keyOf : α → ObjectKey) (obj : α) : List α → List α
  | [] => []
  | o :: rest =>
    if keyOf o = keyOf obj then obj :: rest else o :: storeReplace keyOf obj rest

def storeDelete {α : Type} (keyOf : α → ObjectKey) (key : ObjectKey) : List α → List α
  | [] => []
  | o :: rest => if keyOf o = key then rest else o :: storeDelete keyOf key rest

def namespaceKey (o : V1Namespace) : ObjectKey :=
  { Namespace := "", Name := o.Name }

def smcpKey (o : ServiceMeshControlPlane) : ObjectKey :=
  { Namespace := o.Namespace, Name := o.Name }

def smmrKey (o : ServiceMeshMemberRoll) : ObjectKey :=
  { Namespace := o.Namespace, Name := o.Name }

def notFound (resource name : String) : GoError :=
  .status { Reason := .NotFound, Message := resource ++ " " ++ name ++ " not found" }

def alreadyExists (resource name : String) : GoError :=
  .status { Reason := .AlreadyExists, Message := resource ++ " " ++ name ++ " already exists" }

/-- The call `api.Get(ctx, key, ns)` for a `v1.Namespace`. -/
def getNamespace (key : ObjectKey) (w : World) : Except GoError V1Namespace × World :=
  match w.call (.getNamespace key) with
  | (some e, w1) => (.error (.status e), w1)
  | (none, w1) =>
    match storeGet namespaceKey key w1.cluster.namespaces with
    | none => (.error (notFound "namespaces" key.Name), w1)
    | some o => (.ok o, w1)

/-- The call `api.Create(ctx, ns)` for a `v1.Namespace`. -/
def createNamespace (obj : V1Namespace) (w : World) : Except GoError Unit × World :=
  match w.call (.createNamespace obj) with
  | (some e, w1) => (.error (.status e), w1)
  | (none, w1) =>
    match storeGet namespaceKey (namespaceKey obj) w1.cluster.namespaces with
    | some _ => (.error (alreadyExists "namespaces" obj.Name), w1)
    | none =>
      (.ok (), { w1 with cluster := { w1.cluster with namespaces := w1.cluster.namespaces ++ [obj] } })

/-- The call `api.Delete(ctx, ns)` for a `v1.Namespace`: the object leaves the store (what
the server then does to the objects inside the namespace is not modelled). -/
def deleteNamespace (obj : V1Namespace) (w : World) : Except GoError Unit × World :=
  match w.call (.deleteNamespace obj) with
  | (some e, w1) => (.error (.status e), w1)
  | (none, w1) =>
    match storeGet namespaceKey (namespaceKey obj) w1.cluster.namespaces with
    | none => (.error (notFound "namespaces" obj.Name), w1)
    | some _ =>
      (.ok (), { w1 with cluster :=
        { w1.cluster with namespaces := storeDelete namespaceKey (namespaceKey obj) w1.cluster.namespaces } })

def getSMCP (key : ObjectKey) (w : World) : Except GoError ServiceMeshControlPlane × World :=
  match w.call (.getSMCP key) with
  | (some e, w1) => (.error (.status e), w1)
  | (none, w1) =>
    match storeGet smcpKey key w1.cluster.smcps with
    | none => (.error (notFound "servicemeshcontrolplanes.maistra.io" key.Name), w1)
    | some o => (.ok o, w1)

def createSMCP (obj : ServiceMeshControlPlane) (w : World) : Except GoError Unit × World :=
  match w.call (.createSMCP obj) with
  | (some e, w1) => (.error (.status e), w1)
  | (none, w1) =>
    match storeGet smcpKey (smcpKey obj) w1.cluster.smcps with
    | some _ => (.error (alreadyExists "servicemeshcontrolplanes.maistra.io" obj.Name), w1)
    | none =>
      (.ok (), { w1 with cluster := { w1.cluster with smcps := w1.cluster.smcps ++ [obj] } })

def updateSMCP (obj : ServiceMeshControlPlane) (w : World) : Except GoError Unit × World :=
  match w.call (.updateSMCP obj) with
  | (some e, w1) => (.error (.status e), w1)
  | (none, w1) =>
    match storeGet smcpKey (smcpKey obj) w1.cluster.smcps with
    | none => (.error (notFound "servicemeshcontrolplanes.maistra.io" obj.Name), w1)
    | some _ =>
      (.ok (), { w1 with cluster :=
        { w1.cluster with smcps := storeReplace smcpKey obj w1.cluster.smcps } })

def getSMMR (key : ObjectKey) (w : World) : Except GoError ServiceMeshMemberRoll × World :=
  match w.call (.getSMMR key) with
  | (some e, w1) => (.error (.status e), w1)
  | (none, w1) =>
    match storeGet smmrKey key w1.cluster.smmrs with
    | none => (.error (notFound "servicemeshmemberrolls.maistra.io" key.Name), w1)
    | some o => (.ok o, w1)

def createSMMR (obj : ServiceMeshMemberRoll) (w : World) : Except GoError Unit × World :=
  match w.call (.createSMMR obj) with
  | (some e, w1) => (.error (.status e), w1)
  | (none, w1) =>
    match storeGet smmrKey (smmrKey obj) w1.cluster.smmrs with
    | some _ => (.error (alreadyExists "servicemeshmemberrolls.maistra.io" obj.Name), w1)
    | none =>
      (.ok (), { w1 with cluster := { w1.cluster with smmrs := w1.cluster.smmrs ++ [obj] } })

def updateSMMR (obj : ServiceMeshMemberRoll) (w : World) : Except GoError Unit × World :=
  match w.call (.updateSMMR obj) with
  | (some e, w1) => (.error (.status e), w1)
  | (none, w1) =>
    match storeGet smmrKey (smmrKey obj) w1.cluster.smmrs with
    | none => (.error (notFound "servicemeshmemberrolls.maistra.io" obj.Name), w1)
    | some _ =>
      (.ok (), { w1 with cluster :=
        { w1.cluster with smmrs := storeReplace smmrKey obj w1.cluster.smmrs } })

/-! ## `servicemesh.go`: the workflow -/

def createIngressNamespace (servingNamespace : String) (w : World) : Except GoError Unit × World :=
  match getNamespace { Namespace := "", Name := ingressNamespace servingNamespace } w with
  | (.error err, w1) =>
    if IsNotFound err then
      createNamespace { Name := ingressNamespace servingNamespace } w1
    else (.error err, w1)
  | (.ok _, w1) => (.ok (), w1)

def getNamespaceObject (ns : String) (w : World) : Except GoError V1Namespace × World :=
  getNamespace { Namespace := "", Name := ns } w

def RemoveServiceMesh (ks : KnativeServing) (w : World) : Except GoError Unit × World :=
  match getNamespaceObject (ingressNamespace ks.Namespace) w with
  | (.error err, w1) =>
    if IsNotFound err then (.ok (), w1) else (.error err, w1)
  | (.ok ns, w1) => deleteNamespace ns w1

/-- The labels map literal written on every owned object. -/
def ownerLabels (ks : KnativeServing) : GoMap String :=
  [(ownerName, ks.Name), (ownerNamespace, ks.Namespace)]

/-- Modelled from the spec: the manifest template `deploy/resources/servicemesh/smcp.yaml`,
which is not among the sources; the spec has it render the singleton control-plane object
with the fixed name, the ingress namespace injected and the owner labels stamped on. -/
def renderedControlPlane (ks : KnativeServing) : ServiceMeshControlPlane :=
  { Name := smcpName
    Namespace := ingressNamespace ks.Namespace
    Labels := ownerLabels ks
    Status := { Conditions := [] } }

/-- Modelled from the spec: the merge of the rendered labels into the labels of the object
already in the cluster, done by the manifest library when it applies over an existing
object. -/
def mergeLabels (current rendered : GoMap String) : GoMap String :=
  rendered.foldl (fun m kv => mapStore m kv.1 kv.2) current

/-- Modelled from the spec: the call `manifest.ApplyAll()` of the manifest library (not among
the sources) on the one rendered object: create it when it is absent, otherwise merge it
into the existing object, keeping the status, and write it back when that changes it. -/
def manifestApplyAll (rendered : ServiceMeshControlPlane) (w : World) : Except GoError Unit × World :=
  match getSMCP (smcpKey rendered) w with
  | (.error err, w1) =>
    if IsNotFound err then createSMCP rendered w1 else (.error err, w1)
  | (.ok current, w1) =>
    let merged := { current with Labels := mergeLabels current.Labels rendered.Labels }
    if merged = current then (.ok (), w1) else updateSMCP merged w1

def installServiceMeshControlPlane (ks : KnativeServing) (w : World) : Except GoError Unit × World :=
  match w.manifest.newManifestErr with
  | some err => (.error err, w)
  | none =>
    match w.manifest.transformErr with
    | some err => (.error err, w)
    | none => manifestApplyAll (renderedControlPlane ks) w

def isServiceMeshControlPlaneReady (servingNamespace : String) (w : World) : Except GoError Unit × World :=
  match getSMCP { Namespace := ingressNamespace servingNamespace, Name := smcpName } w with
  | (.error err, w1) => (.error err, w1)
  | (.ok smcp, w1) =>
    let ready := smcp.Status.Conditions.any
      (fun cond => cond.Type_ == ConditionTypeReady && cond.Status == ConditionStatusTrue)
    if !ready then (.error (.errorString "SMCP not yet ready"), w1) else (.ok (), w1)

def installServiceMeshMemberRoll (ks : KnativeServing) (w : World) : Except GoError Unit × World :=
  match getSMMR { Namespace := ingressNamespace ks.Namespace, Name := smmrName } w with
  | (.error err, w1) =>
    if IsNotFound err then
      createSMMR
        { Name := smmrName
          Namespace := ingressNamespace ks.Namespace
          Labels := ownerLabels ks
          Spec := { Members := [ks.Namespace] }
          Status := { ConfiguredMembers := [] } } w1
    else (.error err, w1)
  | (.ok smmr, w1) =>
    match appendIfAbsent smmr.Spec.Members ks.Namespace with
    | (newMembers, true) => updateSMMR { smmr with Spec := { Members := newMembers } } w1
    | (_, false) => (.ok (), w1)

def isServiceMeshMemberRollReady (servingNamespace : String) (w : World) : Except GoError Unit × World :=
  match getSMMR { Namespace := ingressNamespace servingNamespace, Name := smmrName } w with
  | (.error err, w1) => (.error err, w1)
  | (.ok smmr, w1) =>
    if smmr.Status.ConfiguredMembers.any (fun member => member == servingNamespace) then (.ok (), w1)
    else (.error (.errorString "SMMR not yet ready"), w1)

/-- The substring of the Maistra admission message that `ApplyServiceMesh` looks for. -/
def conflictSubstring : String :=
  "one or more members are already defined in another ServiceMeshMemberRoll"

/-- The message built by `fmt.Errorf(msg, ns, ns)` in `ApplyServiceMesh`. -/
def conflictMessage (ns : String) : String :=
  "Could not add '" ++ ns ++ "' to ServiceMeshMemberRoll (SMMR) because it's already part of another SMMR, "
    ++ "likely one in 'istio-system' (check with 'oc get smmr --all-namespaces'). "
    ++ "Remove '" ++ ns ++ "' and all namespaces that contain Knative Services from that other SMMR"

def ApplyServiceMesh (ks : KnativeServing) (w : World) : Except GoError Unit × World :=
  match createIngressNamespace ks.Namespace w with
  | (.error err, w1) => (.error err, w1)
  | (.ok _, w1) =>
    match installServiceMeshControlPlane ks w1 with
    | (.error err, w2) => (.error err, w2)
    | (.ok _, w2) =>
      match isServiceMeshControlPlaneReady ks.Namespace w2 with
      | (.error err, w3) => (.error err, w3)
      | (.ok _, w3) =>
        match installServiceMeshMemberRoll ks w3 with
        | (.error err, w4) =>
          if stringsContains err.Error conflictSubstring then
            (.error (.errorString (conflictMessage ks.Namespace)), w4)
          else (.error err, w4)
        | (.ok _, w4) =>
          match isServiceMeshMemberRollReady ks.Namespace w4 with
          | (.error err, w5) => (.error err, w5)
          | (.ok _, w5) => (.ok (), w5)

/-- Run `installServiceMeshMemberRoll` `n` times in a row, stopping at the first failure. -/
def installRepeatedly (ks : KnativeServing) : Nat → World → Except GoError Unit × World
  | 0, w => (.ok (), w)
  | n + 1, w =>
    match installServiceMeshMemberRoll ks w with
    | (.error err, w1) => (.error err, w1)
    | (.ok _, w1) => installRepeatedly ks n w1

/-! ## Vocabulary of the statements -/

/-- A call that reads or writes a ServiceMeshMemberRoll. -/
def ApiCall.onMemberRoll : ApiCall → Bool
  | .getSMMR _ => true
  | .createSMMR _ => true
  | .updateSMMR _ => true
  | _ => false

/-- A call that creates or rewrites an object, or deletes one. -/
def ApiCall.isWrite : ApiCall → Bool
  | .getNamespace _ => false
  | .getSMCP _ => false
  | .getSMMR _ => false
  | _ => true

/-- A call that deletes an object. -/
def ApiCall.isDelete : ApiCall → Bool
  | .deleteNamespace _ => true
  | _ => false

/-- The key of the tenant's ServiceMeshMemberRoll. -/
def memberRollKey (ks : KnativeServing) : ObjectKey :=
  { Namespace := ingressNamespace ks.Namespace, Name := smmrName }

/-- The key of the tenant's ServiceMeshControlPlane. -/
def controlPlaneKey (ks : KnativeServing) : ObjectKey :=
  { Namespace := ingressNamespace ks.Namespace, Name := smcpName }

/-- The readiness test of `isServiceMeshControlPlaneReady` on a fetched object. -/
def reportsReady (smcp : ServiceMeshControlPlane) : Bool :=
  smcp.Status.Conditions.any
    (fun cond => cond.Type_ == ConditionTypeReady && cond.Status == ConditionStatusTrue)

/-- The run from `w` to `v` made no call on a ServiceMeshMemberRoll and left the stored
member rolls as they were. -/
def MemberRollUntouched (w v : World) : Prop :=
  (∃ calls, v.trace = w.trace ++ calls ∧ ∀ c ∈ calls, ApiCall.onMemberRoll c = false) ∧
  v.cluster.smmrs = w.cluster.smmrs

/-- The failure of the manifest library that stops `installServiceMeshControlPlane` before
it applies anything, if there is one. -/
def manifestFailure (m : ManifestEnv) : Option GoError :=
  match m.newManifestErr with
  | some err => some err
  | none => m.transformErr

/-- The outcome of `isServiceMeshMemberRollReady` on a fetched member roll. -/
def memberRollVerdict (ns : String) (smmr : ServiceMeshMemberRoll) : Except GoError Unit :=
  if smmr.Status.ConfiguredMembers.any (fun member => member == ns) then .ok ()
  else .error (.errorString "SMMR not yet ready")

/-- The member roll that `installServiceMeshMemberRoll` creates when there is none. -/
def freshMemberRoll (ks : KnativeServing) : ServiceMeshMemberRoll :=
  { Name := smmrName
    Namespace := ingressNamespace ks.Namespace
    Labels := ownerLabels ks
    Spec := { Members := [ks.Namespace] }
    Status := { ConfiguredMembers := [] } }

/-! ## Vocabulary for runs against an unchanged API server -/

/-- The world after a call has been recorded and its verdict taken. -/
def World.next (w : World) (c : ApiCall) : World :=
  { w with script := w.script.tail, trace := w.trace ++ [c] }

/-- The calls made between world `w` and a later world `v`. -/
def callsSince (w v : World) : List ApiCall :=
  v.trace.drop w.trace.length

/-- The script answers the calls, in order, as the policy `p` does: an API server whose
verdict on a call depends on the call only (its kind, key and payload), not on when the
call is made. -/
def obeys (p : ApiCall → Option ApiError) : List (Option ApiError) → List ApiCall → Bool
  | _, [] => true
  | [], c :: cs => decide (p c = none) && obeys p [] cs
  | verdict :: rest, c :: cs => decide (verdict = p c) && obeys p rest cs

/-- The lookup of the object that a call writes; a lookup is its own lookup. -/
def lookupOf : ApiCall → ApiCall
  | .createNamespace obj => .getNamespace (namespaceKey obj)
  | .deleteNamespace obj => .getNamespace (namespaceKey obj)
  | .createSMCP obj => .getSMCP (smcpKey obj)
  | .updateSMCP obj => .getSMCP (smcpKey obj)
  | .createSMMR obj => .getSMMR (smmrKey obj)
  | .updateSMMR obj => .getSMMR (smmrKey obj)
  | c => c

/-- A step of the workflow. -/
abbrev Step := World → Except GoError Unit × World

/-- Run `f`, and `g` after it when `f` succeeds. -/
def andThen (f g : Step) : Step := fun w =>
  match f w with
  | (.error err, w1) => (.error err, w1)
  | (.ok _, w1) => g w1

/-- A step only appends calls to the trace, consumes one verdict per call, and leaves the
manifest environment alone. -/
def Shaped (f : Step) : Prop :=
  ∀ w, (∃ cs, (f w).2.trace = w.trace ++ cs ∧ (f w).2.script = w.script.drop cs.length) ∧
    (f w).2.manifest = w.manifest

/-- The server answered the calls of the run of `f` from `w` as the policy `p` does. -/
def Conforms (p : ApiCall → Option ApiError) (f : Step) (w : World) : Prop :=
  obeys p w.script (callsSince w (f w).2) = true

/-- A write that the server does not serve, or whose lookup it did not serve. -/
def Unserved (p : ApiCall → Option ApiError) (c : ApiCall) : Prop :=
  p c ≠ none ∨ p (lookupOf c) ≠ none

/-- A run of `f` from any world with cluster `c` and manifest environment `m`, answered
as `p` does, leaves the cluster as it is and issues only writes that are not served. -/
def InertAt (p : ApiCall → Option ApiError) (f : Step) (c : Cluster) (m : ManifestEnv) : Prop :=
  ∀ u : World, u.cluster = c → u.manifest = m → Conforms p f u →
    (f u).2.cluster = u.cluster ∧
    ∀ call ∈ callsSince u (f u).2, ApiCall.isWrite call = true → Unserved p call

/-- After one run answered as `p` does, `f` is inert at the cluster it has left. -/
def Idem (p : ApiCall → Option ApiError) (f : Step) : Prop :=
  ∀ w, Conforms p f w → InertAt p f (f w).2.cluster w.manifest

/-- What a step does once the verdict on its lookup is known: stop with a result, or
issue one write, whose outcome when it is served is given. -/
inductive Plan where
  | stop (r : Except GoError Unit)
  | write (c : ApiCall) (served : Except GoError Cluster)

/-- The common form of the steps that ensure an object: one lookup `c1`, then what the
plan says. -/
def lookupThenWrite (c1 : ApiCall) (plan : Option ApiError → Cluster → Plan) : Step := fun w =>
  match plan w.verdict w.cluster with
  | .stop r => (r, w.next c1)
  | .write c2 served =>
    match (w.next c1).verdict with
    | some e => (.error (.status e), (w.next c1).next c2)
    | none =>
      match served with
      | .error err => (.error err, (w.next c1).next c2)
      | .ok cl => (.ok (), { (w.next c1).next c2 with cluster := cl })

/-- The outcome of a served `api.Create` of the ingress namespace. -/
def servedCreateNamespace (obj : V1Namespace) (cl : Cluster) : Except GoError Cluster :=
  match storeGet namespaceKey (namespaceKey obj) cl.namespaces with
  | some _ => .error (alreadyExists "namespaces" obj.Name)
  | none => .ok { cl with namespaces := cl.namespaces ++ [obj] }

/-- The plan of `createIngressNamespace`. -/
def ingressNamespacePlan (ns : String) (verdict : Option ApiError) (cl : Cluster) : Plan :=
  match verdict with
  | some e =>
    if e.Reason = .NotFound then
      .write (.createNamespace { Name := ingressNamespace ns })
        (servedCreateNamespace { Name := ingressNamespace ns } cl)
    else .stop (.error (.status e))
  | none =>
    match storeGet namespaceKey { Namespace := "", Name := ingressNamespace ns } cl.namespaces with
    | some _ => .stop (.ok ())
    | none =>
      .write (.createNamespace { Name := ingressNamespace ns })
        (servedCreateNamespace { Name := ingressNamespace ns } cl)

/-- The outcome of a served create of a control plane. -/
def servedCreateSMCP (obj : ServiceMeshControlPlane) (cl : Cluster) : Except GoError Cluster :=
  match storeGet smcpKey (smcpKey obj) cl.smcps with
  | some _ => .error (alreadyExists "servicemeshcontrolplanes.maistra.io" obj.Name)
  | none => .ok { cl with smcps := cl.smcps ++ [obj] }

/-- The outcome of a served update of a control plane. -/
def servedUpdateSMCP (obj : ServiceMeshControlPlane) (cl : Cluster) : Except GoError Cluster :=
  match storeGet smcpKey (smcpKey obj) cl.smcps with
  | none => .error (notFound "servicemeshcontrolplanes.maistra.io" obj.Name)
  | some _ => .ok { cl with smcps := storeReplace smcpKey obj cl.smcps }

/-- The plan of `manifestApplyAll`. -/
def controlPlanePlan (rendered : ServiceMeshControlPlane) (verdict : Option ApiError)
    (cl : Cluster) : Plan :=
  match verdict with
  | some e =>
    if e.Reason = .NotFound then .write (.createSMCP rendered) (servedCreateSMCP rendered cl)
    else .stop (.error (.status e))
  | none =>
    match storeGet smcpKey (smcpKey rendered) cl.smcps with
    | none => .write (.createSMCP rendered) (servedCreateSMCP rendered cl)
    | some current =>
      if ({ current with Labels := mergeLabels current.Labels rendered.Labels }
          : ServiceMeshControlPlane) = current then .stop (.ok ())
      else
        .write (.updateSMCP { current with Labels := mergeLabels current.Labels rendered.Labels })
          (servedUpdateSMCP
            { current with Labels := mergeLabels current.Labels rendered.Labels } cl)

/-- The outcome of a served create of a member roll. -/
def servedCreateSMMR (obj : ServiceMeshMemberRoll) (cl : Cluster) : Except GoError Cluster :=
  match storeGet smmrKey (smmrKey obj) cl.smmrs with
  | some _ => .error (alreadyExists "servicemeshmemberrolls.maistra.io" obj.Name)
  | none => .ok { cl with smmrs := cl.smmrs ++ [obj] }

/-- The outcome of a served update of a member roll. -/
def servedUpdateSMMR (obj : ServiceMeshMemberRoll) (cl : Cluster) : Except GoError Cluster :=
  match storeGet smmrKey (smmrKey obj) cl.smmrs with
  | none => .error (notFound "servicemeshmemberrolls.maistra.io" obj.Name)
  | some _ => .ok { cl with smmrs := storeReplace smmrKey obj cl.smmrs }

/-- The plan of `installServiceMeshMemberRoll`. -/
def memberRollPlan (ks : KnativeServing) (verdict : Option ApiError) (cl : Cluster) : Plan :=
  match verdict with
  | some e =>
    if e.Reason = .NotFound then
      .write (.createSMMR (freshMemberRoll ks)) (servedCreateSMMR (freshMemberRoll ks) cl)
    else .stop (.error (.status e))
  | none =>
    match storeGet smmrKey (memberRollKey ks) cl.smmrs with
    | none =>
      .write (.createSMMR (freshMemberRoll ks)) (servedCreateSMMR (freshMemberRoll ks) cl)
    | some smmr =>
      if ks.Namespace ∈ smmr.Spec.Members then .stop (.ok ())
      else
        .write
          (.updateSMMR { smmr with Spec := { Members := smmr.Spec.Members ++ [ks.Namespace] } })
          (servedUpdateSMMR
            { smmr with Spec := { Members := smmr.Spec.Members ++ [ks.Namespace] } } cl)

/-- The plan of `isServiceMeshControlPlaneReady`: it only looks the object up. -/
def controlPlaneReadyPlan (ns : String) (verdict : Option ApiError) (cl : Cluster) : Plan :=
  .stop
    (match verdict with
      | some e => .error (.status e)
      | none =>
        match storeGet smcpKey { Namespace := ingressNamespace ns, Name := smcpName } cl.smcps with
        | none => .error (notFound "servicemeshcontrolplanes.maistra.io" smcpName)
        | some smcp =>
          if reportsReady smcp then .ok () else .error (.errorString "SMCP not yet ready"))

/-- The plan of `isServiceMeshMemberRollReady`: it only looks the object up. -/
def memberRollReadyPlan (ns : String) (verdict : Option ApiError) (cl : Cluster) : Plan :=
  .stop
    (match verdict with
      | some e => .error (.status e)
      | none =>
        match storeGet smmrKey { Namespace := ingressNamespace ns, Name := smmrName } cl.smmrs with
        | none => .error (notFound "servicemeshmemberrolls.maistra.io" smmrName)
        | some smmr => memberRollVerdict ns smmr)

/-- A lookup-then-write step behind a guard on the manifest environment, with its error
rewritten by `post`: the form of every step of `ApplyServiceMesh`. -/
def guarded (guard : ManifestEnv → Option GoError) (post : GoError → GoError) (f : Step) : Step :=
  fun w =>
    match guard w.manifest with
    | some err => (.error err, w)
    | none =>
      match f w with
      | (.error err, w1) => (.error (post err), w1)
      | (.ok _, w1) => (.ok (), w1)

/-- The rewriting of the error of `installServiceMeshMemberRoll` in `ApplyServiceMesh`. -/
def classifyConflict (ks : KnativeServing) (err : GoError) : GoError :=
  if stringsContains err.Error conflictSubstring then
    .errorString (conflictMessage ks.Namespace)
  else err

/-! ## Concrete inputs -/

/-- A resource whose user left the gateway key bound to the empty string. -/
def servingWithEmptyValue : KnativeServing :=
  { Name := "knative-serving"
    Namespace := "tenant-a"
    Spec := { Config := some [("istio", some [("gateway.knative-ingress-gateway", "")])] } }

/-- A resource whose user chose a gateway. -/
def servingWithUserValue : KnativeServing :=
  { Name := "knative-serving"
    Namespace := "tenant-a"
    Spec := { Config := some [("istio", some [("gateway.knative-ingress-gateway", "my-gateway")])] } }

/-- A resource with no configuration at all. -/
def servingTenantA : KnativeServing :=
  { Name := "knative-serving", Namespace := "tenant-a", Spec := { Config := none } }

/-- Labels that bind both owner keys, the owner name to the empty string. -/
def labelsWithEmptyOwnerName : GoMap String :=
  [(ownerName, ""), (ownerNamespace, "tenant-a")]

/-- Labels stamped by this package for `servingTenantA`. -/
def labelsOfTenantA : GoMap String :=
  [(ownerName, "knative-serving"), (ownerNamespace, "tenant-a")]

/-- No failure of the manifest library. -/
def manifestFine : ManifestEnv :=
  { newManifestErr := none, transformErr := none }

/-- The member roll of tenant-a once registered: desired, not yet configured. -/
def memberRollDesiredOnly : ServiceMeshMemberRoll :=
  { Name := "default"
    Namespace := "tenant-a-ingress"
    Labels := labelsOfTenantA
    Spec := { Members := ["tenant-a"] }
    Status := { ConfiguredMembers := [] } }

/-- A control plane whose second condition is `Ready = True`. -/
def controlPlaneReady : ServiceMeshControlPlane :=
  { Name := "basic-install"
    Namespace := "tenant-a-ingress"
    Labels := labelsOfTenantA
    Status := { Conditions := [{ Type_ := "Installed", Status := "True" },
                               { Type_ := "Ready", Status := "True" }] } }

/-- A control plane that is installed and not ready. -/
def controlPlaneNotReady : ServiceMeshControlPlane :=
  { Name := "basic-install"
    Namespace := "tenant-a-ingress"
    Labels := labelsOfTenantA
    Status := { Conditions := [{ Type_ := "Installed", Status := "True" },
                               { Type_ := "Ready", Status := "False" }] } }

/-- Tenant-a after registration: ready control plane, member roll desired only. -/
def worldDesiredOnly : World :=
  { cluster :=
      { namespaces := [{ Name := "tenant-a-ingress" }]
        smcps := [controlPlaneReady]
        smmrs := [memberRollDesiredOnly] }
    script := []
    trace := []
    manifest := manifestFine }

/-- An empty cluster whose API server is unreachable for the next call. -/
def worldUnreachable : World :=
  { cluster := { namespaces := [], smcps := [], smmrs := [] }
    script := [some { Reason := .Other, Message := "connection refused" }]
    trace := []
    manifest := manifestFine }

/-- A cluster that never saw tenant-a. -/
def worldEmpty : World :=
  { cluster := { namespaces := [], smcps := [], smmrs := [] }
    script := []
    trace := []
    manifest := manifestFine }

/-- The shared member roll with another tenant in it. -/
def memberRollOfOthers : ServiceMeshMemberRoll :=
  { Name := "default"
    Namespace := "tenant-a-ingress"
    Labels := []
    Spec := { Members := ["tenant-x", "tenant-y"] }
    Status := { ConfiguredMembers := ["tenant-x", "tenant-y"] } }

/-- A cluster whose member roll holds other tenants only. -/
def worldOthersOnly : World :=
  { cluster :=
      { namespaces := [{ Name := "tenant-a-ingress" }]
        smcps := [controlPlaneReady]
        smmrs := [memberRollOfOthers] }
    script := []
    trace := []
    manifest := manifestFine }

/-- Tenant-a's cluster with the control plane installed and not ready, and a member roll
that holds other tenants. -/
def worldControlPlaneNotReady : World :=
  { cluster :=
      { namespaces := [{ Name := "tenant-a-ingress" }]
        smcps := [controlPlaneNotReady]
        smmrs := [memberRollOfOthers] }
    script := []
    trace := []
    manifest := manifestFine }

/-- The resource of a second tenant. -/
def servingTenantB : KnativeServing :=
  { Name := "knative-serving", Namespace := "tenant-b", Spec := { Config := none } }

/-- The rejection by the Maistra admission webhook of a member that another member roll
already holds. -/
def rejectionAlreadyMember : ApiError :=
  { Reason := .Other
    Message := "denied: one or more members are already defined in another ServiceMeshMemberRoll" }

/-- A rejection by the API server for another reason. -/
def rejectionForbidden : ApiError :=
  { Reason := .Other, Message := "forbidden" }

/-- The control plane of tenant-b, ready. -/
def controlPlaneOfTenantB : ServiceMeshControlPlane :=
  { Name := "basic-install"
    Namespace := "tenant-b-ingress"
    Labels := [(ownerName, "knative-serving"), (ownerNamespace, "tenant-b")]
    Status := { Conditions := [{ Type_ := "Ready", Status := "True" }] } }

/-- Tenant-b's cluster before registration: ready control plane, no member roll. -/
def clusterOfTenantB : Cluster :=
  { namespaces := [{ Name := "tenant-b-ingress" }]
    smcps := [controlPlaneOfTenantB]
    smmrs := [] }

/-- Tenant-b's cluster with an API server that serves the lookup of the member roll and
rejects its creation, tenant-b being a member of another member roll. -/
def worldRegistrationRejected : World :=
  { cluster := clusterOfTenantB
    script := [none, some rejectionAlreadyMember]
    trace := []
    manifest := manifestFine }

/-- The same cluster seen by `ApplyServiceMesh`: three lookups and the lookup of the
member roll are served, its creation is rejected. -/
def worldApplyRejected : World :=
  { cluster := clusterOfTenantB
    script := [none, none, none, none, some rejectionAlreadyMember]
    trace := []
    manifest := manifestFine }

/-- The same cluster with a creation rejected for another reason. -/
def worldApplyForbidden : World :=
  { cluster := clusterOfTenantB
    script := [none, none, none, none, some rejectionForbidden]
    trace := []
    manifest := manifestFine }

/-- The member roll that `installServiceMeshMemberRoll` builds for tenant-b. -/
def memberRollOfTenantB : ServiceMeshMemberRoll :=
  { Name := "default"
    Namespace := "tenant-b-ingress"
    Labels := [(ownerName, "knative-serving"), (ownerNamespace, "tenant-b")]
    Spec := { Members := ["tenant-b"] }
    Status := { ConfiguredMembers := [] } }

/-- An API server that rejects every creation of a member roll, tenant-b being a member
of another member roll, and serves every other call. -/
def policyRejectMemberRoll : ApiCall → Option ApiError
  | .createSMMR _ => some rejectionAlreadyMember
  | _ => none

/-! # Theorems -/

set_option maxRecDepth 20000

/-! ## Go maps -/

theorem mapLookup_mapStore_self {V : Type} (m : GoMap V) (k : String) (v : V) :
    mapLookup (mapStore m k v) k = some v := by
  induction m with
  | nil => simp [mapStore, mapLookup]
  | cons hd tl ih =>
    obtain ⟨k1, v1⟩ := hd
    by_cases h : k1 = k
    · simp [mapStore, mapLookup, h]
    · simp [mapStore, mapLookup, h, ih]

theorem mapLookup_mapStore_other {V : Type} (m : GoMap V) (k k2 : String) (v : V) (hne : k2 ≠ k) :
    mapLookup (mapStore m k v) k2 = mapLookup m k2 := by
  induction m with
  | nil => simp [mapStore, mapLookup, Ne.symm hne]
  | cons hd tl ih =>
    obtain ⟨k1, v1⟩ := hd
    by_cases h : k1 = k
    · subst h
      simp [mapStore, mapLookup, Ne.symm hne]
    · by_cases h2 : k1 = k2
      · subst h2
        simp [mapStore, mapLookup, hne]
      · simp [mapStore, mapLookup, h, h2, ih]

theorem mapStore_of_mapLookup {V : Type} (m : GoMap V) (k : String) (v : V)
    (h : mapLookup m k = some v) : mapStore m k v = m := by
  induction m with
  | nil => simp [mapLookup] at h
  | cons hd tl ih =>
    obtain ⟨k1, v1⟩ := hd
    by_cases hk : k1 = k
    · simp [mapLookup, hk] at h
      simp [mapStore, hk, h]
    · simp [mapLookup, hk] at h
      simp [mapStore, hk, ih h]

theorem string_length_eq_zero (s : String) : s.length = 0 ↔ s = "" := by
  constructor
  · intro h
    have hd : s.data = [] := List.length_eq_zero.mp h
    cases s
    simp_all
  · rintro rfl
    rfl

theorem mapIndex_eq_empty (m : GoMap String) (k : String) :
    mapIndex m k = "" ↔ mapLookup m k = none ∨ mapLookup m k = some "" := by
  unfold mapIndex
  cases h : mapLookup m k <;> simp

/-! ## `pkg.Configure` -/

theorem configDomain_mapStore_self (outer : GoMap (Option (GoMap String))) (cm : String)
    (inner : GoMap String) :
    configDomain (some (mapStore outer cm (some inner))) cm = some inner := by
  simp [configDomain, mapLookup_mapStore_self]

theorem configDomain_mapStore_other (outer : GoMap (Option (GoMap String))) (cm cm2 : String)
    (inner : Option (GoMap String)) (hne : cm2 ≠ cm) :
    configDomain (some (mapStore outer cm inner)) cm2 = configDomain (some outer) cm2 := by
  simp [configDomain, mapLookup_mapStore_other _ _ _ _ hne]

theorem configDomain_nil (cm : String) :
    configDomain (some []) cm = configDomain none cm := by
  simp [configDomain, mapLookup]

/-- What `Configure` does when the current value is empty or missing. -/
theorem Configure_of_empty (ks : KnativeServing) (cm key value : String)
    (h : configIndex ks.Spec.Config cm key = "") :
    Configure ks cm key value =
      (true, { ks with Spec := { Config := some (mapStore (ks.Spec.Config.getD []) cm
        (some (mapStore ((configDomain ks.Spec.Config cm).getD []) key value))) } }) := by
  obtain ⟨name, ns, ⟨config⟩⟩ := ks
  cases config with
  | none => simp [Configure, configIndex, configDomain, mapLookup]
  | some c =>
    simp only at h
    simp only [Configure, h]
    cases hd : configDomain (some c) cm <;> simp

/-- What `Configure` does when the current value is not empty. -/
theorem Configure_of_nonempty (ks : KnativeServing) (cm key value : String)
    (h : configIndex ks.Spec.Config cm key ≠ "") :
    Configure ks cm key value = (false, ks) := by
  obtain ⟨name, ns, ⟨config⟩⟩ := ks
  cases config with
  | none => simp [configIndex, configDomain] at h
  | some c =>
    simp only at h
    have hlen : ¬ (configIndex (some c) cm key).length = 0 := by
      rw [string_length_eq_zero]
      exact h
    simp [Configure, hlen]

theorem configEntry_after_store (c : ConfigData) (cm key value : String) (cm2 key2 : String) :
    configEntry (some (mapStore (c.getD []) cm
        (some (mapStore ((configDomain c cm).getD []) key value)))) cm2 key2
      = if cm2 = cm ∧ key2 = key then some value else configEntry c cm2 key2 := by
  by_cases hcm : cm2 = cm
  · subst hcm
    by_cases hkey : key2 = key
    · subst hkey
      simp [configEntry, configDomain_mapStore_self, mapLookup_mapStore_self]
    · simp only [configEntry, configDomain_mapStore_self, hkey, and_false, if_false]
      rw [mapLookup_mapStore_other _ _ _ _ hkey]
      cases hd : configDomain c cm2 <;> simp [mapLookup]
  · simp only [hcm, false_and, if_false]
    unfold configEntry
    rw [configDomain_mapStore_other _ _ _ _ hcm]
    cases c with
    | none => simp [configDomain_nil]
    | some outer => simp

theorem configIndex_of_configEntry (c : ConfigData) (cm key : String) :
    configIndex c cm key = (configEntry c cm key).getD "" := by
  unfold configIndex configEntry mapIndex
  cases configDomain c cm <;> simp

/-- C6 (amended): `Configure` leaves the resource as it is and returns false when
`Spec.Config[cm][key]` holds a non-empty value; when that value is empty or the key is
missing it returns true, binds the key to `value`, and leaves every other entry, the name
and the namespace as they were.  For a non-empty `value` the result is true exactly when
the configuration was changed. -/
theorem Configure_sets_only_when_empty (ks : KnativeServing) (cm key value : String) :
    (configIndex ks.Spec.Config cm key ≠ "" → Configure ks cm key value = (false, ks)) ∧
    (configIndex ks.Spec.Config cm key = "" →
      (Configure ks cm key value).1 = true ∧
      configEntry (Configure ks cm key value).2.Spec.Config cm key = some value ∧
      (∀ cm2 key2, (cm2, key2) ≠ (cm, key) →
        configEntry (Configure ks cm key value).2.Spec.Config cm2 key2
          = configEntry ks.Spec.Config cm2 key2) ∧
      (Configure ks cm key value).2.Name = ks.Name ∧
      (Configure ks cm key value).2.Namespace = ks.Namespace) ∧
    (value ≠ "" →
      ((Configure ks cm key value).1 = true ↔
        (Configure ks cm key value).2.Spec.Config ≠ ks.Spec.Config)) := by
  refine ⟨Configure_of_nonempty ks cm key value, ?_, ?_⟩
  · intro h
    rw [Configure_of_empty ks cm key value h]
    refine ⟨rfl, ?_, ?_, rfl, rfl⟩
    · simp [configEntry_after_store]
    · intro cm2 key2 hne
      have hne2 : ¬ (cm2 = cm ∧ key2 = key) := by
        rintro ⟨rfl, rfl⟩
        exact hne rfl
      simp [configEntry_after_store, hne2]
  · intro hv
    by_cases h : configIndex ks.Spec.Config cm key = ""
    · rw [Configure_of_empty ks cm key value h]
      simp only [true_iff]
      intro heq
      have h1 := configEntry_after_store ks.Spec.Config cm key value cm key
      rw [heq] at h1
      rw [configIndex_of_configEntry, h1] at h
      simp at h
      exact hv h
    · rw [Configure_of_nonempty ks cm key value h]
      simp

/-- Witness of C6: a user-chosen gateway is kept, an unconfigured resource gets the
default. -/
theorem Configure_sets_only_when_empty_witness :
    Configure servingWithUserValue "istio" "gateway.knative-ingress-gateway" "default-gateway"
      = (false, servingWithUserValue) ∧
    (Configure servingTenantA "istio" "gateway.knative-ingress-gateway" "default-gateway").1 = true ∧
    configEntry (Configure servingTenantA "istio" "gateway.knative-ingress-gateway"
      "default-gateway").2.Spec.Config "istio" "gateway.knative-ingress-gateway"
      = some "default-gateway" :=
  ⟨(Configure_sets_only_when_empty servingWithUserValue "istio"
      "gateway.knative-ingress-gateway" "default-gateway").1 (by decide),
   ((Configure_sets_only_when_empty servingTenantA "istio"
      "gateway.knative-ingress-gateway" "default-gateway").2.1 (by decide)).1,
   ((Configure_sets_only_when_empty servingTenantA "istio"
      "gateway.knative-ingress-gateway" "default-gateway").2.1 (by decide)).2.1⟩

/-- Counterexample to C6 as stated: the key exists (bound to the empty string), yet
`Configure` overwrites it and returns true; and with an empty `value` it returns true
although the configuration is not changed. -/
theorem Configure_overwrites_empty_value :
    configEntry servingWithEmptyValue.Spec.Config "istio" "gateway.knative-ingress-gateway"
      = some "" ∧
    Configure servingWithEmptyValue "istio" "gateway.knative-ingress-gateway" "default-gateway"
      = (true, { servingWithEmptyValue with Spec :=
          { Config := some [("istio", some [("gateway.knative-ingress-gateway", "default-gateway")])] } }) ∧
    Configure servingWithEmptyValue "istio" "gateway.knative-ingress-gateway" "default-gateway"
      ≠ (false, servingWithEmptyValue) ∧
    Configure servingWithEmptyValue "istio" "gateway.knative-ingress-gateway" ""
      = (true, servingWithEmptyValue) := by
  decide

/-! ## Watch routing -/

/-- C7 (amended): the mapping function emits no request when either owner label is
missing or bound to the empty string, and otherwise exactly one request, named by the
owner labels. -/
theorem toRequests_routes_by_owner_labels (labels : GoMap String) :
    ((mapLookup labels ownerName = none ∨ mapLookup labels ownerName = some "" ∨
      mapLookup labels ownerNamespace = none ∨ mapLookup labels ownerNamespace = some "") →
        toRequests labels = []) ∧
    (∀ name ns, mapLookup labels ownerName = some name →
        mapLookup labels ownerNamespace = some ns → name ≠ "" → ns ≠ "" →
        toRequests labels = [{ NamespacedName := { Namespace := ns, Name := name } }]) := by
  constructor
  · intro h
    have h2 : mapIndex labels ownerName = "" ∨ mapIndex labels ownerNamespace = "" := by
      rw [mapIndex_eq_empty, mapIndex_eq_empty]
      tauto
    unfold toRequests
    rcases h2 with h2 | h2 <;> simp [h2]
  · intro name ns h1 h2 hn hns
    simp [toRequests, mapIndex, h1, h2, hn, hns]

/-- Witness of C7: an object without labels is dropped, an owned object is routed to its
owner. -/
theorem toRequests_routes_by_owner_labels_witness :
    toRequests [] = [] ∧
    toRequests labelsOfTenantA
      = [{ NamespacedName := { Namespace := "tenant-a", Name := "knative-serving" } }] :=
  ⟨(toRequests_routes_by_owner_labels []).1 (Or.inl rfl),
   (toRequests_routes_by_owner_labels labelsOfTenantA).2 "knative-serving" "tenant-a"
     (by decide) (by decide) (by decide) (by decide)⟩

/-- Counterexample to C7 as stated: both owner labels are present in the map, and no
request is emitted, because the owner name is the empty string. -/
theorem toRequests_drops_empty_label :
    mapLookup labelsWithEmptyOwnerName ownerName = some "" ∧
    mapLookup labelsWithEmptyOwnerName ownerNamespace = some "tenant-a" ∧
    toRequests labelsWithEmptyOwnerName = [] := by
  decide

/-! ## The object store -/

section Store
variable {α : Type} (keyOf : α → ObjectKey)

theorem storeGet_key (key : ObjectKey) (s : List α) (o : α)
    (h : storeGet keyOf key s = some o) : keyOf o = key := by
  induction s with
  | nil => simp [storeGet] at h
  | cons hd tl ih =>
    by_cases hk : keyOf hd = key
    · simp [storeGet, hk] at h
      subst h
      exact hk
    · simp [storeGet, hk] at h
      exact ih h

theorem storeGet_append_of_none (key : ObjectKey) (s : List α) (o : α)
    (h : storeGet keyOf key s = none) :
    storeGet keyOf key (s ++ [o]) = if keyOf o = key then some o else none := by
  induction s with
  | nil => simp [storeGet]
  | cons hd tl ih =>
    by_cases hk : keyOf hd = key
    · simp [storeGet, hk] at h
    · simp [storeGet, hk] at h
      simp [storeGet, hk, ih h]

theorem storeGet_append_of_some (key : ObjectKey) (s : List α) (o x : α)
    (h : storeGet keyOf key s = some x) :
    storeGet keyOf key (s ++ [o]) = some x := by
  induction s with
  | nil => simp [storeGet] at h
  | cons hd tl ih =>
    by_cases hk : keyOf hd = key
    · simp [storeGet, hk] at h
      subst h
      simp [storeGet, hk]
    · simp [storeGet, hk] at h
      simp [storeGet, hk, ih h]

theorem storeGet_storeReplace_self (s : List α) (obj x : α)
    (h : storeGet keyOf (keyOf obj) s = some x) :
    storeGet keyOf (keyOf obj) (storeReplace keyOf obj s) = some obj := by
  induction s with
  | nil => simp [storeGet] at h
  | cons hd tl ih =>
    by_cases hk : keyOf hd = keyOf obj
    · simp [storeReplace, storeGet, hk]
    · simp [storeGet, hk] at h
      simp [storeReplace, storeGet, hk, ih h]

theorem storeGet_storeReplace_other (key : ObjectKey) (s : List α) (obj : α)
    (hne : key ≠ keyOf obj) :
    storeGet keyOf key (storeReplace keyOf obj s) = storeGet keyOf key s := by
  induction s with
  | nil => simp [storeReplace, storeGet]
  | cons hd tl ih =>
    by_cases hk : keyOf hd = keyOf obj
    · have hk2 : ¬ keyOf hd = key := fun h => hne (h.symm.trans hk)
      simp [storeReplace, storeGet, hk, hk2, Ne.symm hne]
    · by_cases hk2 : keyOf hd = key
      · simp [storeReplace, storeGet, hk, hk2]
        simp [← hk2, hk, storeGet]
      · simp [storeReplace, storeGet, hk, hk2, ih]

theorem storeReplace_of_storeGet (s : List α) (obj : α)
    (h : storeGet keyOf (keyOf obj) s = some obj) :
    storeReplace keyOf obj s = s := by
  induction s with
  | nil => rfl
  | cons hd tl ih =>
    by_cases hk : keyOf hd = keyOf obj
    · simp [storeGet, hk] at h
      simp [storeReplace, hk, h]
    · simp [storeGet, hk] at h
      simp [storeReplace, hk, ih h]

end Store

/-! ## The client -/

theorem World.call_eq (w : World) (c : ApiCall) :
    w.call c = (w.verdict,
      { w with script := w.script.tail, trace := w.trace ++ [c] }) := by
  obtain ⟨cl, script, tr, mf⟩ := w
  cases script <;> simp [World.call, World.verdict]

theorem getSMMR_ok (key : ObjectKey) (w w1 : World) (o : ServiceMeshMemberRoll)
    (h : getSMMR key w = (.ok o, w1)) :
    storeGet smmrKey key w.cluster.smmrs = some o ∧
    w1 = { w with script := w.script.tail, trace := w.trace ++ [.getSMMR key] } := by
  simp only [getSMMR, World.call_eq] at h
  split at h
  · simp at h
  · rename_i hv
    simp only [Prod.mk.injEq] at hv
    obtain ⟨-, rfl⟩ := hv
    split at h
    · simp at h
    · rename_i o2 hs
      simp only [Prod.mk.injEq, Except.ok.injEq] at h
      obtain ⟨rfl, rfl⟩ := h
      exact ⟨hs, rfl⟩

theorem getSMMR_error (key : ObjectKey) (w w1 : World) (err : GoError)
    (h : getSMMR key w = (.error err, w1)) :
    (∃ e, err = .status e) ∧
    w1 = { w with script := w.script.tail, trace := w.trace ++ [.getSMMR key] } := by
  simp only [getSMMR, World.call_eq] at h
  split at h
  · rename_i e w2 hv
    simp only [Prod.mk.injEq] at hv
    obtain ⟨-, rfl⟩ := hv
    simp only [Prod.mk.injEq, Except.error.injEq] at h
    obtain ⟨rfl, rfl⟩ := h
    exact ⟨⟨e, rfl⟩, rfl⟩
  · rename_i hv
    simp only [Prod.mk.injEq] at hv
    obtain ⟨-, rfl⟩ := hv
    split at h
    · simp only [Prod.mk.injEq, Except.error.injEq] at h
      obtain ⟨rfl, rfl⟩ := h
      exact ⟨⟨_, rfl⟩, rfl⟩
    · simp at h

theorem getSMCP_ok (key : ObjectKey) (w w1 : World) (o : ServiceMeshControlPlane)
    (h : getSMCP key w = (.ok o, w1)) :
    storeGet smcpKey key w.cluster.smcps = some o ∧
    w1 = { w with script := w.script.tail, trace := w.trace ++ [.getSMCP key] } := by
  simp only [getSMCP, World.call_eq] at h
  split at h
  · simp at h
  · rename_i hv
    simp only [Prod.mk.injEq] at hv
    obtain ⟨-, rfl⟩ := hv
    split at h
    · simp at h
    · rename_i o2 hs
      simp only [Prod.mk.injEq, Except.ok.injEq] at h
      obtain ⟨rfl, rfl⟩ := h
      exact ⟨hs, rfl⟩

theorem getSMCP_error (key : ObjectKey) (w w1 : World) (err : GoError)
    (h : getSMCP key w = (.error err, w1)) :
    (∃ e, err = .status e) ∧
    w1 = { w with script := w.script.tail, trace := w.trace ++ [.getSMCP key] } := by
  simp only [getSMCP, World.call_eq] at h
  split at h
  · rename_i e w2 hv
    simp only [Prod.mk.injEq] at hv
    obtain ⟨-, rfl⟩ := hv
    simp only [Prod.mk.injEq, Except.error.injEq] at h
    obtain ⟨rfl, rfl⟩ := h
    exact ⟨⟨e, rfl⟩, rfl⟩
  · rename_i hv
    simp only [Prod.mk.injEq] at hv
    obtain ⟨-, rfl⟩ := hv
    split at h
    · simp only [Prod.mk.injEq, Except.error.injEq] at h
      obtain ⟨rfl, rfl⟩ := h
      exact ⟨⟨_, rfl⟩, rfl⟩
    · simp at h

/-! ## Readiness checks -/

/-- C2: when the lookup of the member roll succeeds, `isServiceMeshMemberRollReady ns`
succeeds if and only if `ns` is among `Status.ConfiguredMembers`, and otherwise returns
`SMMR not yet ready`; two fetched member rolls with the same configured members give the
same result, whatever their `Spec.Members`. -/
theorem isServiceMeshMemberRollReady_iff_configured (ns : String) (w w1 : World)
    (smmr : ServiceMeshMemberRoll)
    (hget : getSMMR { Namespace := ingressNamespace ns, Name := smmrName } w = (.ok smmr, w1)) :
    ((isServiceMeshMemberRollReady ns w).1 = .ok () ↔ ns ∈ smmr.Status.ConfiguredMembers) ∧
    (ns ∉ smmr.Status.ConfiguredMembers →
      (isServiceMeshMemberRollReady ns w).1 = .error (.errorString "SMMR not yet ready")) ∧
    (isServiceMeshMemberRollReady ns w).2 = w1 ∧
    (∀ (v v1 : World) (other : ServiceMeshMemberRoll),
      getSMMR { Namespace := ingressNamespace ns, Name := smmrName } v = (.ok other, v1) →
      other.Status.ConfiguredMembers = smmr.Status.ConfiguredMembers →
      (isServiceMeshMemberRollReady ns v).1 = (isServiceMeshMemberRollReady ns w).1) := by
  have key : ∀ (v v1 : World) (o : ServiceMeshMemberRoll),
      getSMMR { Namespace := ingressNamespace ns, Name := smmrName } v = (.ok o, v1) →
      isServiceMeshMemberRollReady ns v =
        (if ns ∈ o.Status.ConfiguredMembers then .ok ()
          else .error (.errorString "SMMR not yet ready"), v1) := by
    intro v v1 o h
    simp only [isServiceMeshMemberRollReady, h]
    by_cases hm : ns ∈ o.Status.ConfiguredMembers
    · have : (o.Status.ConfiguredMembers.any fun member => member == ns) = true := by
        simp [List.any_eq_true, hm]
      simp [this, hm]
    · have : (o.Status.ConfiguredMembers.any fun member => member == ns) = false := by
        simp [List.any_eq_false, hm]
        intro x hx hxe
        exact hm (hxe ▸ hx)
      simp [this, hm]
  refine ⟨?_, ?_, ?_, ?_⟩
  · rw [key w w1 smmr hget]
    by_cases hm : ns ∈ smmr.Status.ConfiguredMembers <;> simp [hm]
  · intro hm
    rw [key w w1 smmr hget]
    simp [hm]
  · rw [key w w1 smmr hget]
  · intro v v1 other hv hsame
    rw [key w w1 smmr hget, key v v1 other hv, hsame]

/-- Witness of C2: tenant-a is a desired member and not yet a configured one, and the
check answers not ready. -/
theorem isServiceMeshMemberRollReady_iff_configured_witness :
    "tenant-a" ∈ memberRollDesiredOnly.Spec.Members ∧
    (isServiceMeshMemberRollReady "tenant-a" worldDesiredOnly).1
      = .error (.errorString "SMMR not yet ready") :=
  ⟨by decide,
   (isServiceMeshMemberRollReady_iff_configured "tenant-a" worldDesiredOnly
      { worldDesiredOnly with
          trace := [.getSMMR { Namespace := "tenant-a-ingress", Name := "default" }] }
      memberRollDesiredOnly (by rfl)).2.1 (by decide)⟩

/-- C3: when the lookup of the control plane succeeds, `isServiceMeshControlPlaneReady`
succeeds if and only if some condition of the fetched object has type `Ready` and status
`True`, and otherwise returns `SMCP not yet ready`; when the lookup fails, the error of
the lookup is returned, and it is not the `SMCP not yet ready` error. -/
theorem isServiceMeshControlPlaneReady_iff_condition (ns : String) (w : World) :
    (∀ (smcp : ServiceMeshControlPlane) (w1 : World),
      getSMCP { Namespace := ingressNamespace ns, Name := smcpName } w = (.ok smcp, w1) →
      ((isServiceMeshControlPlaneReady ns w).1 = .ok () ↔
        ∃ cond ∈ smcp.Status.Conditions,
          cond.Type_ = ConditionTypeReady ∧ cond.Status = ConditionStatusTrue) ∧
      ((¬ ∃ cond ∈ smcp.Status.Conditions,
          cond.Type_ = ConditionTypeReady ∧ cond.Status = ConditionStatusTrue) →
        (isServiceMeshControlPlaneReady ns w).1 = .error (.errorString "SMCP not yet ready")) ∧
      (isServiceMeshControlPlaneReady ns w).2 = w1) ∧
    (∀ (err : GoError) (w1 : World),
      getSMCP { Namespace := ingressNamespace ns, Name := smcpName } w = (.error err, w1) →
      isServiceMeshControlPlaneReady ns w = (.error err, w1) ∧
      err ≠ .errorString "SMCP not yet ready") := by
  constructor
  · intro smcp w1 hget
    have hany : (smcp.Status.Conditions.any fun cond =>
        cond.Type_ == ConditionTypeReady && cond.Status == ConditionStatusTrue) = true ↔
        ∃ cond ∈ smcp.Status.Conditions,
          cond.Type_ = ConditionTypeReady ∧ cond.Status = ConditionStatusTrue := by
      simp [List.any_eq_true]
    simp only [isServiceMeshControlPlaneReady, hget]
    by_cases hr : (smcp.Status.Conditions.any fun cond =>
        cond.Type_ == ConditionTypeReady && cond.Status == ConditionStatusTrue) = true
    · simp only [hr, Bool.not_true, Bool.false_eq_true, if_false, true_iff, and_true]
      exact ⟨hany.mp hr, fun hno => absurd (hany.mp hr) hno⟩
    · have hno := fun h => hr (hany.mpr h)
      simp only [Bool.not_eq_true] at hr
      simp only [hr, Bool.not_false, if_true, and_true]
      exact ⟨⟨fun h => by simp at h, fun h => absurd h hno⟩, fun _ => trivial⟩
  · intro err w1 hget
    obtain ⟨⟨e, rfl⟩, -⟩ := getSMCP_error _ _ _ _ hget
    simp [isServiceMeshControlPlaneReady, hget]

/-- Witness of C3: a control plane whose second condition is `Ready = True` is ready, and
an unreachable API server gives its own error. -/
theorem isServiceMeshControlPlaneReady_iff_condition_witness :
    (isServiceMeshControlPlaneReady "tenant-a" worldDesiredOnly).1 = .ok () ∧
    (isServiceMeshControlPlaneReady "tenant-a" worldUnreachable).1
      = .error (.status { Reason := .Other, Message := "connection refused" }) :=
  ⟨((isServiceMeshControlPlaneReady_iff_condition "tenant-a" worldDesiredOnly).1
      controlPlaneReady
      { worldDesiredOnly with
          trace := [.getSMCP { Namespace := "tenant-a-ingress", Name := "basic-install" }] }
      (by rfl)).1.mpr ⟨{ Type_ := "Ready", Status := "True" }, by decide, by decide, by decide⟩,
   congrArg Prod.fst
    (((isServiceMeshControlPlaneReady_iff_condition "tenant-a" worldUnreachable).2
      (.status { Reason := .Other, Message := "connection refused" })
      { worldUnreachable with
          script := []
          trace := [.getSMCP { Namespace := "tenant-a-ingress", Name := "basic-install" }] }
      (by rfl)).1)⟩

theorem getNamespace_ok (key : ObjectKey) (w w1 : World) (o : V1Namespace)
    (h : getNamespace key w = (.ok o, w1)) :
    storeGet namespaceKey key w.cluster.namespaces = some o ∧
    w1 = { w with script := w.script.tail, trace := w.trace ++ [.getNamespace key] } := by
  simp only [getNamespace, World.call_eq] at h
  split at h
  · simp at h
  · rename_i hv
    simp only [Prod.mk.injEq] at hv
    obtain ⟨-, rfl⟩ := hv
    split at h
    · simp at h
    · rename_i o2 hs
      simp only [Prod.mk.injEq, Except.ok.injEq] at h
      obtain ⟨rfl, rfl⟩ := h
      exact ⟨hs, rfl⟩

theorem getNamespace_error (key : ObjectKey) (w w1 : World) (err : GoError)
    (h : getNamespace key w = (.error err, w1)) :
    (∃ e, err = .status e) ∧
    w1 = { w with script := w.script.tail, trace := w.trace ++ [.getNamespace key] } := by
  simp only [getNamespace, World.call_eq] at h
  split at h
  · rename_i e w2 hv
    simp only [Prod.mk.injEq] at hv
    obtain ⟨-, rfl⟩ := hv
    simp only [Prod.mk.injEq, Except.error.injEq] at h
    obtain ⟨rfl, rfl⟩ := h
    exact ⟨⟨e, rfl⟩, rfl⟩
  · rename_i hv
    simp only [Prod.mk.injEq] at hv
    obtain ⟨-, rfl⟩ := hv
    split at h
    · simp only [Prod.mk.injEq, Except.error.injEq] at h
      obtain ⟨rfl, rfl⟩ := h
      exact ⟨⟨_, rfl⟩, rfl⟩
    · simp at h

/-- A served lookup of a namespace answers from the store. -/
theorem getNamespace_served (key : ObjectKey) (w : World) (hs : w.verdict = none) :
    getNamespace key w =
      (match storeGet namespaceKey key w.cluster.namespaces with
        | none => .error (notFound "namespaces" key.Name)
        | some o => .ok o,
       { w with script := w.script.tail, trace := w.trace ++ [.getNamespace key] }) := by
  simp only [getNamespace, World.call_eq, hs]
  cases storeGet namespaceKey key w.cluster.namespaces <;> rfl

theorem deleteNamespace_trace (obj : V1Namespace) (w : World) :
    (deleteNamespace obj w).2.trace = w.trace ++ [.deleteNamespace obj] := by
  simp only [deleteNamespace, World.call_eq]
  cases w.verdict with
  | some e => rfl
  | none =>
    simp only
    cases storeGet namespaceKey (namespaceKey obj) w.cluster.namespaces <;> rfl

theorem updateSMMR_trace (obj : ServiceMeshMemberRoll) (w : World) :
    (updateSMMR obj w).2.trace = w.trace ++ [.updateSMMR obj] ∧
    (updateSMMR obj w).2.script = w.script.tail ∧
    (updateSMMR obj w).2.manifest = w.manifest := by
  simp only [updateSMMR, World.call_eq]
  cases w.verdict with
  | some e => exact ⟨rfl, rfl, rfl⟩
  | none =>
    simp only
    cases storeGet smmrKey (smmrKey obj) w.cluster.smmrs <;> exact ⟨rfl, rfl, rfl⟩

/-- An update that succeeds was served, found its object, and replaced it. -/
theorem updateSMMR_ok (obj : ServiceMeshMemberRoll) (w w1 : World)
    (h : updateSMMR obj w = (.ok (), w1)) :
    (∃ x, storeGet smmrKey (smmrKey obj) w.cluster.smmrs = some x) ∧
    w1.cluster = { w.cluster with smmrs := storeReplace smmrKey obj w.cluster.smmrs } := by
  simp only [updateSMMR, World.call_eq] at h
  cases hv : w.verdict with
  | some e => simp [hv] at h
  | none =>
    simp only [hv] at h
    cases hs : storeGet smmrKey (smmrKey obj) w.cluster.smmrs with
    | none => simp [hs] at h
    | some x =>
      simp only [hs, Prod.mk.injEq, true_and] at h
      subst h
      exact ⟨⟨x, rfl⟩, rfl⟩

/-- A served update of an object that is in the store succeeds. -/
theorem updateSMMR_served (obj x : ServiceMeshMemberRoll) (w : World)
    (hs : w.verdict = none)
    (hx : storeGet smmrKey (smmrKey obj) w.cluster.smmrs = some x) :
    (updateSMMR obj w).1 = .ok () := by
  simp [updateSMMR, World.call_eq, hs, hx]

/-- A creation that succeeds was served, found the key free, and added the object. -/
theorem createSMMR_ok (obj : ServiceMeshMemberRoll) (w w1 : World)
    (h : createSMMR obj w = (.ok (), w1)) :
    storeGet smmrKey (smmrKey obj) w.cluster.smmrs = none ∧
    w1.cluster = { w.cluster with smmrs := w.cluster.smmrs ++ [obj] } := by
  simp only [createSMMR, World.call_eq] at h
  cases hv : w.verdict with
  | some e => simp [hv] at h
  | none =>
    simp only [hv] at h
    cases hs : storeGet smmrKey (smmrKey obj) w.cluster.smmrs with
    | some x => simp [hs] at h
    | none =>
      simp only [hs, Prod.mk.injEq, true_and] at h
      subst h
      exact ⟨rfl, rfl⟩

/-! ## Removal -/

/-- A served delete of a namespace that is in the store removes it and succeeds. -/
theorem deleteNamespace_served (obj x : V1Namespace) (w : World) (hv : w.verdict = none)
    (hx : storeGet namespaceKey (namespaceKey obj) w.cluster.namespaces = some x) :
    deleteNamespace obj w =
      (.ok (),
        { cluster := { w.cluster with
            namespaces := storeDelete namespaceKey (namespaceKey obj) w.cluster.namespaces }
          script := w.script.tail
          trace := w.trace ++ [.deleteNamespace obj]
          manifest := w.manifest }) := by
  simp [deleteNamespace, World.call_eq, hv, hx]

/-- A rejected delete returns the rejection and changes nothing. -/
theorem deleteNamespace_rejected (obj : V1Namespace) (w : World) (e : ApiError)
    (hv : w.verdict = some e) :
    deleteNamespace obj w =
      (.error (.status e),
        { w with script := w.script.tail, trace := w.trace ++ [.deleteNamespace obj] }) := by
  simp [deleteNamespace, World.call_eq, hv]

/-- C9: `RemoveServiceMesh` returns success, deletes nothing and changes nothing when the
lookup of the ingress namespace answers not found, as a served lookup does when the
namespace does not exist; any other lookup error is returned, again with no delete and
no change; when the lookup finds the namespace, as a served lookup does when it exists,
the function is the lookup followed by one `api.Delete` of the ingress namespace, whose
outcome it returns: served, the namespace leaves the store and the result is success;
rejected, the rejection is the result and the cluster is as before. -/
theorem RemoveServiceMesh_outcomes (ks : KnativeServing) (w : World) :
    (∀ (err : GoError) (w1 : World),
      getNamespaceObject (ingressNamespace ks.Namespace) w = (.error err, w1) →
      IsNotFound err = true →
      RemoveServiceMesh ks w = (.ok (), w1) ∧ w1.cluster = w.cluster ∧
      w1.trace = w.trace ++ [.getNamespace { Namespace := "", Name := ingressNamespace ks.Namespace }]) ∧
    (∀ (err : GoError) (w1 : World),
      getNamespaceObject (ingressNamespace ks.Namespace) w = (.error err, w1) →
      IsNotFound err = false →
      RemoveServiceMesh ks w = (.error err, w1) ∧ w1.cluster = w.cluster ∧
      w1.trace = w.trace ++ [.getNamespace { Namespace := "", Name := ingressNamespace ks.Namespace }]) ∧
    (∀ (ns : V1Namespace) (w1 : World),
      getNamespaceObject (ingressNamespace ks.Namespace) w = (.ok ns, w1) →
      RemoveServiceMesh ks w = deleteNamespace { Name := ingressNamespace ks.Namespace } w1 ∧
      (RemoveServiceMesh ks w).2.trace = w.trace ++
        [.getNamespace { Namespace := "", Name := ingressNamespace ks.Namespace },
         .deleteNamespace { Name := ingressNamespace ks.Namespace }] ∧
      (w1.verdict = none →
        (RemoveServiceMesh ks w).1 = .ok () ∧
        (RemoveServiceMesh ks w).2.cluster = { w.cluster with
          namespaces := storeDelete namespaceKey
            { Namespace := "", Name := ingressNamespace ks.Namespace } w.cluster.namespaces }) ∧
      (∀ e : ApiError, w1.verdict = some e →
        (RemoveServiceMesh ks w).1 = .error (.status e) ∧
        (RemoveServiceMesh ks w).2.cluster = w.cluster)) ∧
    (storeGet namespaceKey { Namespace := "", Name := ingressNamespace ks.Namespace }
        w.cluster.namespaces = none →
      w.verdict = none →
      RemoveServiceMesh ks w = (.ok (), { w with script := w.script.tail, trace := w.trace ++
        [.getNamespace { Namespace := "", Name := ingressNamespace ks.Namespace }] })) ∧
    (∀ ns : V1Namespace,
      storeGet namespaceKey { Namespace := "", Name := ingressNamespace ks.Namespace }
        w.cluster.namespaces = some ns →
      w.script = [] →
      RemoveServiceMesh ks w =
        (.ok (),
          { cluster := { w.cluster with
              namespaces := storeDelete namespaceKey
                { Namespace := "", Name := ingressNamespace ks.Namespace } w.cluster.namespaces }
            script := []
            trace := w.trace ++
              [.getNamespace { Namespace := "", Name := ingressNamespace ks.Namespace },
               .deleteNamespace { Name := ingressNamespace ks.Namespace }]
            manifest := w.manifest })) := by
  have hkey : namespaceKey { Name := ingressNamespace ks.Namespace }
      = { Namespace := "", Name := ingressNamespace ks.Namespace } := rfl
  have hfound : ∀ (ns : V1Namespace) (w1 : World),
      getNamespaceObject (ingressNamespace ks.Namespace) w = (.ok ns, w1) →
      RemoveServiceMesh ks w = deleteNamespace { Name := ingressNamespace ks.Namespace } w1 ∧
      storeGet namespaceKey { Namespace := "", Name := ingressNamespace ks.Namespace }
        w1.cluster.namespaces = some ns ∧
      w1 = { w with script := w.script.tail, trace := w.trace ++
        [.getNamespace { Namespace := "", Name := ingressNamespace ks.Namespace }] } := by
    intro ns w1 hget
    obtain ⟨hs, hw⟩ := getNamespace_ok _ _ _ _ hget
    have hk := storeGet_key namespaceKey _ _ _ hs
    have hns : ns = { Name := ingressNamespace ks.Namespace } := by
      cases ns
      simp [namespaceKey] at hk
      simp [hk]
    refine ⟨?_, ?_, hw⟩
    · simp only [RemoveServiceMesh, hget]
      rw [hns]
    · subst hw
      exact hs
  refine ⟨?_, ?_, ?_, ?_, ?_⟩
  · intro err w1 hget hnf
    have hw := (getNamespace_error _ _ _ _ hget).2
    simp only [RemoveServiceMesh, hget, hnf, if_true, true_and]
    subst hw
    exact ⟨rfl, rfl⟩
  · intro err w1 hget hnf
    have hw := (getNamespace_error _ _ _ _ hget).2
    simp only [RemoveServiceMesh, hget, hnf, Bool.false_eq_true, if_false, true_and]
    subst hw
    exact ⟨rfl, rfl⟩
  · intro ns w1 hget
    obtain ⟨heq, hs, hw⟩ := hfound ns w1 hget
    refine ⟨heq, ?_, ?_, ?_⟩
    · rw [heq, deleteNamespace_trace]
      subst hw
      simp
    · intro hv
      rw [heq, deleteNamespace_served _ ns w1 hv (by rw [hkey]; exact hs)]
      subst hw
      exact ⟨rfl, rfl⟩
    · intro e hv
      rw [heq, deleteNamespace_rejected _ w1 e hv]
      subst hw
      exact ⟨rfl, rfl⟩
  · intro hnone hserved
    simp [RemoveServiceMesh, getNamespaceObject, getNamespace_served _ _ hserved, hnone,
      notFound, IsNotFound]
  · intro ns hsome hscript
    have hserved : w.verdict = none := by simp [World.verdict, hscript]
    have hget : getNamespaceObject (ingressNamespace ks.Namespace) w
        = (.ok ns, { w with script := w.script.tail, trace := w.trace ++
            [.getNamespace { Namespace := "", Name := ingressNamespace ks.Namespace }] }) := by
      unfold getNamespaceObject
      rw [getNamespace_served _ _ hserved, hsome]
    obtain ⟨heq, hs, -⟩ := hfound ns _ hget
    rw [heq, deleteNamespace_served _ ns _ (by simp [World.verdict, hscript])
      (by rw [hkey]; exact hs)]
    simp [hscript, hkey]

/-- Witness of C9: on a cluster without the ingress namespace nothing is deleted; an
unreachable server gives its error; an existing ingress namespace is deleted, and the
store no longer holds it. -/
theorem RemoveServiceMesh_outcomes_witness :
    RemoveServiceMesh servingTenantA worldEmpty
      = (.ok (), { worldEmpty with
          trace := [.getNamespace { Namespace := "", Name := "tenant-a-ingress" }] }) ∧
    (RemoveServiceMesh servingTenantA worldUnreachable).1
      = .error (.status { Reason := .Other, Message := "connection refused" }) ∧
    (RemoveServiceMesh servingTenantA worldDesiredOnly).1 = .ok () ∧
    (RemoveServiceMesh servingTenantA worldDesiredOnly).2.cluster.namespaces = [] ∧
    (RemoveServiceMesh servingTenantA worldDesiredOnly).2.trace
      = [.getNamespace { Namespace := "", Name := "tenant-a-ingress" },
         .deleteNamespace { Name := "tenant-a-ingress" }] :=
  ⟨(RemoveServiceMesh_outcomes servingTenantA worldEmpty).2.2.2.1 (by rfl) (by rfl),
   congrArg Prod.fst ((RemoveServiceMesh_outcomes servingTenantA worldUnreachable).2.1
      (.status { Reason := .Other, Message := "connection refused" })
      { worldUnreachable with
          script := []
          trace := [.getNamespace { Namespace := "", Name := "tenant-a-ingress" }] }
      (by rfl) (by rfl)).1,
   congrArg Prod.fst ((RemoveServiceMesh_outcomes servingTenantA worldDesiredOnly).2.2.2.2
      { Name := "tenant-a-ingress" } (by rfl) (by rfl)),
   congrArg (fun r => r.2.cluster.namespaces)
    ((RemoveServiceMesh_outcomes servingTenantA worldDesiredOnly).2.2.2.2
      { Name := "tenant-a-ingress" } (by rfl) (by rfl)),
   ((RemoveServiceMesh_outcomes servingTenantA worldDesiredOnly).2.2.1
      { Name := "tenant-a-ingress" }
      { worldDesiredOnly with
          trace := [.getNamespace { Namespace := "", Name := "tenant-a-ingress" }] }
      (by rfl)).2.1⟩

/-! ## Membership registration -/

theorem appendIfAbsent_of_mem (members : List String) (ns : String) (h : ns ∈ members) :
    appendIfAbsent members ns = (members, false) := by
  have hany : (members.any fun val => val == ns) = true := by
    simp [List.any_eq_true, h]
  simp [appendIfAbsent, hany]

theorem appendIfAbsent_of_not_mem (members : List String) (ns : String) (h : ns ∉ members) :
    appendIfAbsent members ns = (members ++ [ns], true) := by
  have hany : (members.any fun val => val == ns) = false := by
    simp [List.any_eq_false]
    intro x hx hxe
    exact h (hxe ▸ hx)
  simp [appendIfAbsent, hany]

theorem appendIfAbsent_mem (members : List String) (ns : String) :
    ns ∈ (appendIfAbsent members ns).1 := by
  by_cases h : ns ∈ members
  · rw [appendIfAbsent_of_mem _ _ h]
    exact h
  · rw [appendIfAbsent_of_not_mem _ _ h]
    simp

theorem World.call_of_nil (w : World) (c : ApiCall) (h : w.script = []) :
    w.call c = (none, { w with trace := w.trace ++ [c] }) := by
  simp [World.call, h]

/-- The calls and the outcome of `installServiceMeshMemberRoll` once the member roll has
been fetched. -/
theorem installServiceMeshMemberRoll_of_found (ks : KnativeServing) (w w1 : World)
    (smmr : ServiceMeshMemberRoll)
    (hget : getSMMR { Namespace := ingressNamespace ks.Namespace, Name := smmrName } w
      = (.ok smmr, w1)) :
    installServiceMeshMemberRoll ks w =
      if ks.Namespace ∈ smmr.Spec.Members then (.ok (), w1)
      else updateSMMR { smmr with Spec := { Members := smmr.Spec.Members ++ [ks.Namespace] } } w1 := by
  simp only [installServiceMeshMemberRoll, hget]
  by_cases hm : ks.Namespace ∈ smmr.Spec.Members
  · simp [appendIfAbsent_of_mem _ _ hm, hm]
  · simp [appendIfAbsent_of_not_mem _ _ hm, hm]

/-- C10: once the existing member roll has been fetched, `installServiceMeshMemberRoll`
makes no further call and changes nothing when the tenant namespace is already among
`Spec.Members`; otherwise it issues exactly one update, of the fetched object with the
tenant namespace appended to its members, which the store holds afterwards when the
update succeeds, as it does when it is served. -/
theorem installServiceMeshMemberRoll_keeps_members (ks : KnativeServing) (w w1 : World)
    (smmr : ServiceMeshMemberRoll)
    (hget : getSMMR (memberRollKey ks) w = (.ok smmr, w1)) :
    (ks.Namespace ∈ smmr.Spec.Members →
      installServiceMeshMemberRoll ks w = (.ok (), w1) ∧
      w1.cluster = w.cluster ∧
      w1.trace = w.trace ++ [.getSMMR (memberRollKey ks)]) ∧
    (ks.Namespace ∉ smmr.Spec.Members →
      (installServiceMeshMemberRoll ks w).2.trace = w.trace ++
        [.getSMMR (memberRollKey ks),
         .updateSMMR { smmr with Spec := { Members := smmr.Spec.Members ++ [ks.Namespace] } }] ∧
      ((installServiceMeshMemberRoll ks w).1 = .ok () →
        storeGet smmrKey (memberRollKey ks) (installServiceMeshMemberRoll ks w).2.cluster.smmrs
          = some { smmr with Spec := { Members := smmr.Spec.Members ++ [ks.Namespace] } }) ∧
      (w1.verdict = none → (installServiceMeshMemberRoll ks w).1 = .ok ())) := by
  unfold memberRollKey at hget ⊢
  obtain ⟨hs, hw⟩ := getSMMR_ok _ _ _ _ hget
  have hk := storeGet_key smmrKey _ _ _ hs
  rw [installServiceMeshMemberRoll_of_found ks w w1 smmr hget]
  constructor
  · intro hm
    simp only [hm, if_true, true_and]
    subst hw
    exact ⟨rfl, rfl⟩
  · intro hm
    simp only [hm, if_false]
    have hk2 : smmrKey { smmr with Spec := { Members := smmr.Spec.Members ++ [ks.Namespace] } }
        = { Namespace := ingressNamespace ks.Namespace, Name := smmrName } := hk
    refine ⟨?_, ?_, ?_⟩
    · rw [(updateSMMR_trace _ _).1]
      subst hw
      simp
    · intro hok
      obtain ⟨⟨x, hx⟩, hc⟩ := updateSMMR_ok _ _ _ (Prod.ext hok rfl)
      rw [hc]
      rw [hk2] at hx
      have := storeGet_storeReplace_self smmrKey w1.cluster.smmrs
        { smmr with Spec := { Members := smmr.Spec.Members ++ [ks.Namespace] } } x
        (by rw [hk2]; exact hx)
      rw [hk2] at this
      exact this
    · intro hserved
      apply updateSMMR_served _ smmr _ hserved
      rw [hk2]
      subst hw
      exact hs

/-- Witness of C10: tenant-a joins a member roll that holds two other tenants, and the
one update carries all three, the others first. -/
theorem installServiceMeshMemberRoll_keeps_members_witness :
    (installServiceMeshMemberRoll servingTenantA worldOthersOnly).2.trace
      = [.getSMMR { Namespace := "tenant-a-ingress", Name := "default" },
         .updateSMMR { memberRollOfOthers with
            Spec := { Members := ["tenant-x", "tenant-y", "tenant-a"] } }] ∧
    installServiceMeshMemberRoll servingTenantA worldDesiredOnly
      = (.ok (), { worldDesiredOnly with
          trace := [.getSMMR { Namespace := "tenant-a-ingress", Name := "default" }] }) :=
  ⟨((installServiceMeshMemberRoll_keeps_members servingTenantA worldOthersOnly
      { worldOthersOnly with
          trace := [.getSMMR { Namespace := "tenant-a-ingress", Name := "default" }] }
      memberRollOfOthers (by rfl)).2 (by decide)).1,
   ((installServiceMeshMemberRoll_keeps_members servingTenantA worldDesiredOnly
      { worldDesiredOnly with
          trace := [.getSMMR { Namespace := "tenant-a-ingress", Name := "default" }] }
      memberRollDesiredOnly (by rfl)).1 (by decide)).1⟩

/-- One successful registration leaves the tenant namespace exactly once among the
desired members, if it was there at most once before. -/
theorem installServiceMeshMemberRoll_ok_once (ks : KnativeServing) (w w1 : World)
    (hpre : ∀ o, storeGet smmrKey (memberRollKey ks) w.cluster.smmrs = some o →
      o.Spec.Members.count ks.Namespace ≤ 1)
    (hrun : installServiceMeshMemberRoll ks w = (.ok (), w1)) :
    ∃ o, storeGet smmrKey (memberRollKey ks) w1.cluster.smmrs = some o ∧
      o.Spec.Members.count ks.Namespace = 1 := by
  unfold memberRollKey at hpre ⊢
  rcases hget : getSMMR { Namespace := ingressNamespace ks.Namespace, Name := smmrName } w
    with ⟨r, w0⟩
  cases r with
  | error err =>
    have hw0 := (getSMMR_error _ _ _ _ hget).2
    simp only [installServiceMeshMemberRoll, hget] at hrun
    by_cases hnf : IsNotFound err = true
    · simp only [hnf, if_true] at hrun
      obtain ⟨hnone, hc⟩ := createSMMR_ok _ _ _ hrun
      refine ⟨{ Name := smmrName
                Namespace := ingressNamespace ks.Namespace
                Labels := ownerLabels ks
                Spec := { Members := [ks.Namespace] }
                Status := { ConfiguredMembers := [] } }, ?_, ?_⟩
      · rw [hc]
        exact (storeGet_append_of_none smmrKey _ _ _ hnone).trans (by simp [smmrKey])
      · simp
    · simp [hnf] at hrun
  | ok smmr =>
    obtain ⟨hs, hw0⟩ := getSMMR_ok _ _ _ _ hget
    have hk := storeGet_key smmrKey _ _ _ hs
    rw [installServiceMeshMemberRoll_of_found ks w w0 smmr hget] at hrun
    by_cases hm : ks.Namespace ∈ smmr.Spec.Members
    · simp only [hm, if_true, Prod.mk.injEq, true_and] at hrun
      subst hrun
      subst hw0
      refine ⟨smmr, hs, ?_⟩
      have h1 := hpre smmr hs
      have h2 : 0 < smmr.Spec.Members.count ks.Namespace := List.count_pos_iff.mpr hm
      omega
    · simp only [hm, if_false] at hrun
      have hk2 : smmrKey { smmr with Spec := { Members := smmr.Spec.Members ++ [ks.Namespace] } }
          = { Namespace := ingressNamespace ks.Namespace, Name := smmrName } := hk
      obtain ⟨⟨x, hx⟩, hc⟩ := updateSMMR_ok _ _ _ hrun
      refine ⟨{ smmr with Spec := { Members := smmr.Spec.Members ++ [ks.Namespace] } }, ?_, ?_⟩
      · rw [hc]
        have := storeGet_storeReplace_self smmrKey w0.cluster.smmrs _ x hx
        rw [hk2] at this
        exact this
      · simp [List.count_append, List.count_eq_zero_of_not_mem hm]

/-- With no verdict left in the script a registration is served and succeeds. -/
theorem installServiceMeshMemberRoll_served (ks : KnativeServing) (w : World)
    (h : w.script = []) :
    (installServiceMeshMemberRoll ks w).1 = .ok () ∧
    (installServiceMeshMemberRoll ks w).2.script = [] := by
  cases hs : storeGet smmrKey { Namespace := ingressNamespace ks.Namespace, Name := smmrName }
      w.cluster.smmrs with
  | none =>
    simp [installServiceMeshMemberRoll, getSMMR, createSMMR, World.call_of_nil, h, hs,
      notFound, IsNotFound, smmrKey]
  | some smmr =>
    have hk := storeGet_key smmrKey _ _ _ hs
    have hget : getSMMR { Namespace := ingressNamespace ks.Namespace, Name := smmrName } w
        = (.ok smmr, { w with trace := w.trace ++
            [.getSMMR { Namespace := ingressNamespace ks.Namespace, Name := smmrName }] }) := by
      simp [getSMMR, World.call_of_nil, h, hs]
    rw [installServiceMeshMemberRoll_of_found ks w _ smmr hget]
    by_cases hm : ks.Namespace ∈ smmr.Spec.Members
    · simp [hm, h]
    · have hk2 : smmrKey { smmr with Spec := { Members := smmr.Spec.Members ++ [ks.Namespace] } }
          = { Namespace := ingressNamespace ks.Namespace, Name := smmrName } := hk
      simp [hm, updateSMMR, World.call_of_nil, h, hk2, hs]

theorem installRepeatedly_served (ks : KnativeServing) (n : Nat) (w : World)
    (h : w.script = []) : (installRepeatedly ks n w).1 = .ok () := by
  induction n generalizing w with
  | zero => rfl
  | succ k ih =>
    obtain ⟨h1, h2⟩ := installServiceMeshMemberRoll_served ks w h
    rcases hrun : installServiceMeshMemberRoll ks w with ⟨r, w1⟩
    rw [hrun] at h1 h2
    simp only at h1 h2
    subst h1
    simp only [installRepeatedly, hrun]
    exact ih w1 h2

theorem installRepeatedly_succ_once (ks : KnativeServing) (k : Nat) (w w1 : World)
    (hpre : ∀ o, storeGet smmrKey (memberRollKey ks) w.cluster.smmrs = some o →
      o.Spec.Members.count ks.Namespace ≤ 1)
    (hrun : installRepeatedly ks (k + 1) w = (.ok (), w1)) :
    ∃ o, storeGet smmrKey (memberRollKey ks) w1.cluster.smmrs = some o ∧
      o.Spec.Members.count ks.Namespace = 1 := by
  induction k generalizing w with
  | zero =>
    rcases hstep : installServiceMeshMemberRoll ks w with ⟨r, w0⟩
    cases r with
    | error err => simp [installRepeatedly, hstep] at hrun
    | ok u =>
      simp only [installRepeatedly, hstep, Prod.mk.injEq, true_and] at hrun
      subst hrun
      exact installServiceMeshMemberRoll_ok_once ks w w0 hpre hstep
  | succ j ih =>
    rcases hstep : installServiceMeshMemberRoll ks w with ⟨r, w0⟩
    cases r with
    | error err => simp [installRepeatedly, hstep] at hrun
    | ok u =>
      rw [installRepeatedly, hstep] at hrun
      simp only at hrun
      obtain ⟨o, ho, hcount⟩ := installServiceMeshMemberRoll_ok_once ks w w0 hpre hstep
      apply ih w0 _ hrun
      intro o2 ho2
      rw [ho] at ho2
      cases ho2
      omega

/-- C1: starting from a cluster whose member roll for the tenant is absent, or holds the
tenant namespace at most once among its desired members, any `n ≥ 1` successive
successful runs of `installServiceMeshMemberRoll` leave a member roll in which the tenant
namespace occurs exactly once; `appendIfAbsent` applied to its own result returns it
unchanged with `changed = false`; and the runs do succeed when the API server serves
every call. -/
theorem installRepeatedly_member_once (ks : KnativeServing) (n : Nat) (w w1 : World)
    (hn : 1 ≤ n)
    (hpre : ∀ o, storeGet smmrKey (memberRollKey ks) w.cluster.smmrs = some o →
      o.Spec.Members.count ks.Namespace ≤ 1)
    (hrun : installRepeatedly ks n w = (.ok (), w1)) :
    (∃ o, storeGet smmrKey (memberRollKey ks) w1.cluster.smmrs = some o ∧
      o.Spec.Members.count ks.Namespace = 1) ∧
    (∀ members : List String,
      appendIfAbsent (appendIfAbsent members ks.Namespace).1 ks.Namespace
        = ((appendIfAbsent members ks.Namespace).1, false)) ∧
    (∀ v : World, v.script = [] → (installRepeatedly ks n v).1 = .ok ()) := by
  refine ⟨?_, ?_, ?_⟩
  · obtain ⟨k, rfl⟩ : ∃ k, n = k + 1 := ⟨n - 1, by omega⟩
    exact installRepeatedly_succ_once ks k w w1 hpre hrun
  · intro members
    exact appendIfAbsent_of_mem _ _ (appendIfAbsent_mem members ks.Namespace)
  · intro v hv
    exact installRepeatedly_served ks n v hv

/-- Witness of C1: three registrations of tenant-a on a cluster without a member roll
leave the member roll that the first one created. -/
theorem installRepeatedly_member_once_witness :
    ∃ o, storeGet smmrKey (memberRollKey servingTenantA)
        (installRepeatedly servingTenantA 3 worldEmpty).2.cluster.smmrs = some o ∧
      o.Spec.Members.count "tenant-a" = 1 :=
  (installRepeatedly_member_once servingTenantA 3 worldEmpty
    (installRepeatedly servingTenantA 3 worldEmpty).2 (by decide)
    (by intro o ho; exact absurd ho (by simp [worldEmpty, storeGet]))
    (by rfl)).1

/-! ## Readiness gating -/

theorem MemberRollUntouched.refl (w : World) : MemberRollUntouched w w :=
  ⟨⟨[], by simp, by simp⟩, rfl⟩

theorem MemberRollUntouched.trans {w v u : World} (h1 : MemberRollUntouched w v)
    (h2 : MemberRollUntouched v u) : MemberRollUntouched w u := by
  obtain ⟨⟨c1, ht1, hc1⟩, hs1⟩ := h1
  obtain ⟨⟨c2, ht2, hc2⟩, hs2⟩ := h2
  refine ⟨⟨c1 ++ c2, ?_, ?_⟩, hs2.trans hs1⟩
  · rw [ht2, ht1, List.append_assoc]
  · intro c hc
    rcases List.mem_append.mp hc with h | h
    · exact hc1 c h
    · exact hc2 c h

theorem MemberRollUntouched.of_call (w v : World) (c : ApiCall)
    (ht : v.trace = w.trace ++ [c]) (hc : ApiCall.onMemberRoll c = false)
    (hs : v.cluster.smmrs = w.cluster.smmrs) : MemberRollUntouched w v :=
  ⟨⟨[c], ht, by simpa using hc⟩, hs⟩

theorem getNamespace_untouched (key : ObjectKey) (w : World) :
    MemberRollUntouched w (getNamespace key w).2 := by
  simp only [getNamespace, World.call_eq]
  cases w.verdict with
  | some e => exact MemberRollUntouched.of_call _ _ _ rfl rfl rfl
  | none =>
    simp only
    cases storeGet namespaceKey key w.cluster.namespaces <;>
      exact MemberRollUntouched.of_call _ _ _ rfl rfl rfl

theorem createNamespace_untouched (obj : V1Namespace) (w : World) :
    MemberRollUntouched w (createNamespace obj w).2 := by
  simp only [createNamespace, World.call_eq]
  cases w.verdict with
  | some e => exact MemberRollUntouched.of_call _ _ _ rfl rfl rfl
  | none =>
    simp only
    cases storeGet namespaceKey (namespaceKey obj) w.cluster.namespaces <;>
      exact MemberRollUntouched.of_call _ _ _ rfl rfl rfl

theorem getSMCP_untouched (key : ObjectKey) (w : World) :
    MemberRollUntouched w (getSMCP key w).2 := by
  simp only [getSMCP, World.call_eq]
  cases w.verdict with
  | some e => exact MemberRollUntouched.of_call _ _ _ rfl rfl rfl
  | none =>
    simp only
    cases storeGet smcpKey key w.cluster.smcps <;>
      exact MemberRollUntouched.of_call _ _ _ rfl rfl rfl

theorem createSMCP_untouched (obj : ServiceMeshControlPlane) (w : World) :
    MemberRollUntouched w (createSMCP obj w).2 := by
  simp only [createSMCP, World.call_eq]
  cases w.verdict with
  | some e => exact MemberRollUntouched.of_call _ _ _ rfl rfl rfl
  | none =>
    simp only
    cases storeGet smcpKey (smcpKey obj) w.cluster.smcps <;>
      exact MemberRollUntouched.of_call _ _ _ rfl rfl rfl

theorem updateSMCP_untouched (obj : ServiceMeshControlPlane) (w : World) :
    MemberRollUntouched w (updateSMCP obj w).2 := by
  simp only [updateSMCP, World.call_eq]
  cases w.verdict with
  | some e => exact MemberRollUntouched.of_call _ _ _ rfl rfl rfl
  | none =>
    simp only
    cases storeGet smcpKey (smcpKey obj) w.cluster.smcps <;>
      exact MemberRollUntouched.of_call _ _ _ rfl rfl rfl

theorem createIngressNamespace_untouched (ns : String) (w : World) :
    MemberRollUntouched w (createIngressNamespace ns w).2 := by
  have hget := getNamespace_untouched { Namespace := "", Name := ingressNamespace ns } w
  unfold createIngressNamespace
  rcases hg : getNamespace { Namespace := "", Name := ingressNamespace ns } w with ⟨r, w1⟩
  rw [hg] at hget
  simp only at hget
  cases r with
  | ok o => exact hget
  | error err =>
    simp only
    by_cases hnf : IsNotFound err = true
    · simp only [hnf, if_true]
      exact hget.trans (createNamespace_untouched _ _)
    · simp only [hnf, Bool.false_eq_true, if_false]
      exact hget

theorem manifestApplyAll_untouched (rendered : ServiceMeshControlPlane) (w : World) :
    MemberRollUntouched w (manifestApplyAll rendered w).2 := by
  have hget := getSMCP_untouched (smcpKey rendered) w
  unfold manifestApplyAll
  rcases hg : getSMCP (smcpKey rendered) w with ⟨r, w1⟩
  rw [hg] at hget
  simp only at hget
  cases r with
  | ok current =>
    simp only
    split
    · exact hget
    · exact hget.trans (updateSMCP_untouched _ _)
  | error err =>
    simp only
    by_cases hnf : IsNotFound err = true
    · simp only [hnf, if_true]
      exact hget.trans (createSMCP_untouched _ _)
    · simp only [hnf, Bool.false_eq_true, if_false]
      exact hget

theorem installServiceMeshControlPlane_untouched (ks : KnativeServing) (w : World) :
    MemberRollUntouched w (installServiceMeshControlPlane ks w).2 := by
  unfold installServiceMeshControlPlane
  cases w.manifest.newManifestErr with
  | some err => exact MemberRollUntouched.refl w
  | none =>
    cases w.manifest.transformErr with
    | some err => exact MemberRollUntouched.refl w
    | none => exact manifestApplyAll_untouched _ _

theorem isServiceMeshControlPlaneReady_untouched (ns : String) (w : World) :
    MemberRollUntouched w (isServiceMeshControlPlaneReady ns w).2 := by
  have hget := getSMCP_untouched { Namespace := ingressNamespace ns, Name := smcpName } w
  unfold isServiceMeshControlPlaneReady
  rcases hg : getSMCP { Namespace := ingressNamespace ns, Name := smcpName } w with ⟨r, w1⟩
  rw [hg] at hget
  simp only at hget
  cases r with
  | ok smcp =>
    simp only
    split <;> exact hget
  | error err => exact hget

/-- The outcome of `isServiceMeshControlPlaneReady` in terms of its lookup. -/
theorem isServiceMeshControlPlaneReady_eq (ns : String) (w : World) :
    isServiceMeshControlPlaneReady ns w =
      match getSMCP { Namespace := ingressNamespace ns, Name := smcpName } w with
      | (.error err, w1) => (.error err, w1)
      | (.ok smcp, w1) =>
        if reportsReady smcp then (.ok (), w1)
        else (.error (.errorString "SMCP not yet ready"), w1) := by
  unfold isServiceMeshControlPlaneReady reportsReady
  rcases getSMCP { Namespace := ingressNamespace ns, Name := smcpName } w with ⟨r, w1⟩
  cases r with
  | error err => rfl
  | ok smcp =>
    simp only
    cases (smcp.Status.Conditions.any fun cond =>
      cond.Type_ == ConditionTypeReady && cond.Status == ConditionStatusTrue) <;> simp

/-- C4: when the ingress namespace cannot be ensured, or the control plane cannot be
installed, or its lookup fails, or the fetched control plane has no condition
`Ready = True`, `ApplyServiceMesh` returns an error, every call it made is a call on
another kind than ServiceMeshMemberRoll, and the stored member rolls are as before. -/
theorem ApplyServiceMesh_gated_on_control_plane (ks : KnativeServing) (w : World)
    (hgate :
      (∃ err, (createIngressNamespace ks.Namespace w).1 = .error err) ∨
      (∃ err, (installServiceMeshControlPlane ks
          (createIngressNamespace ks.Namespace w).2).1 = .error err) ∨
      (∃ err, (getSMCP (controlPlaneKey ks) (installServiceMeshControlPlane ks
          (createIngressNamespace ks.Namespace w).2).2).1 = .error err) ∨
      (∃ smcp, (getSMCP (controlPlaneKey ks) (installServiceMeshControlPlane ks
          (createIngressNamespace ks.Namespace w).2).2).1 = .ok smcp ∧
        reportsReady smcp = false)) :
    (∃ err, (ApplyServiceMesh ks w).1 = .error err) ∧
    (∃ calls, (ApplyServiceMesh ks w).2.trace = w.trace ++ calls ∧
      ∀ c ∈ calls, ApiCall.onMemberRoll c = false) ∧
    (ApplyServiceMesh ks w).2.cluster.smmrs = w.cluster.smmrs := by
  have u1 := createIngressNamespace_untouched ks.Namespace w
  have u2 := installServiceMeshControlPlane_untouched ks (createIngressNamespace ks.Namespace w).2
  have u3 := isServiceMeshControlPlaneReady_untouched ks.Namespace
    (installServiceMeshControlPlane ks (createIngressNamespace ks.Namespace w).2).2
  have e3 := isServiceMeshControlPlaneReady_eq ks.Namespace
    (installServiceMeshControlPlane ks (createIngressNamespace ks.Namespace w).2).2
  unfold controlPlaneKey at hgate
  suffices hmain : (∃ err, (ApplyServiceMesh ks w).1 = .error err) ∧
      MemberRollUntouched w (ApplyServiceMesh ks w).2 from ⟨hmain.1, hmain.2.1, hmain.2.2⟩
  unfold ApplyServiceMesh
  rcases h1 : createIngressNamespace ks.Namespace w with ⟨r1, w1⟩
  rw [h1] at u1 u2 u3 e3 hgate
  simp only at u1 u2 u3 e3 hgate
  cases r1 with
  | error err => exact ⟨⟨err, rfl⟩, u1⟩
  | ok x1 =>
    simp only
    rcases h2 : installServiceMeshControlPlane ks w1 with ⟨r2, w2⟩
    rw [h2] at u2 u3 e3 hgate
    simp only at u2 u3 e3 hgate
    cases r2 with
    | error err => exact ⟨⟨err, rfl⟩, u1.trans u2⟩
    | ok x2 =>
      simp only
      rcases h3 : isServiceMeshControlPlaneReady ks.Namespace w2 with ⟨r3, w3⟩
      rw [h3] at u3 e3
      simp only at u3
      cases r3 with
      | error err => exact ⟨⟨err, rfl⟩, (u1.trans u2).trans u3⟩
      | ok x3 =>
        exfalso
        rcases hg : getSMCP { Namespace := ingressNamespace ks.Namespace, Name := smcpName } w2
          with ⟨rg, wg⟩
        rw [hg] at e3 hgate
        cases rg with
        | error err => simp at e3
        | ok smcp =>
          simp only at e3 hgate
          rcases hgate with ⟨err, h⟩ | ⟨err, h⟩ | ⟨err, h⟩ | ⟨o, h, hnr⟩
          · simp at h
          · simp at h
          · simp at h
          · simp only [Except.ok.injEq] at h
            subst h
            simp [hnr] at e3

/-- Witness of C4: the control plane of tenant-a is installed and not ready, and
`ApplyServiceMesh` stops without a call on the member roll. -/
theorem ApplyServiceMesh_gated_on_control_plane_witness :
    (∃ err, (ApplyServiceMesh servingTenantA worldControlPlaneNotReady).1 = .error err) ∧
    (∃ calls, (ApplyServiceMesh servingTenantA worldControlPlaneNotReady).2.trace
        = worldControlPlaneNotReady.trace ++ calls ∧
      ∀ c ∈ calls, ApiCall.onMemberRoll c = false) ∧
    (ApplyServiceMesh servingTenantA worldControlPlaneNotReady).2.cluster.smmrs
      = worldControlPlaneNotReady.cluster.smmrs :=
  ApplyServiceMesh_gated_on_control_plane servingTenantA worldControlPlaneNotReady
    (Or.inr (Or.inr (Or.inr ⟨controlPlaneNotReady, by rfl, by rfl⟩)))

/-! ## Conflict classification -/

theorem stringsContains_conflictMessage (ns : String) :
    stringsContains (conflictMessage ns) ns = true := by
  simp only [stringsContains, conflictMessage, String.data_append, decide_eq_true_eq]
  exact List.infix_append _ _ _

/-- A rejected creation or update of the member roll comes back from
`installServiceMeshMemberRoll` as it is. -/
theorem installServiceMeshMemberRoll_of_rejected (ks : KnativeServing) (w : World)
    (e : ApiError) (rest : List (Option ApiError))
    (hscript : w.script = none :: some e :: rest)
    (habsent : ∀ o, storeGet smmrKey (memberRollKey ks) w.cluster.smmrs = some o →
      ks.Namespace ∉ o.Spec.Members) :
    (installServiceMeshMemberRoll ks w).1 = .error (.status e) := by
  unfold memberRollKey at habsent
  cases hs : storeGet smmrKey { Namespace := ingressNamespace ks.Namespace, Name := smmrName }
      w.cluster.smmrs with
  | none =>
    simp [installServiceMeshMemberRoll, getSMMR, createSMMR, World.call, hscript, hs,
      notFound, IsNotFound]
  | some smmr =>
    have hm := habsent smmr hs
    have hget : getSMMR { Namespace := ingressNamespace ks.Namespace, Name := smmrName } w
        = (.ok smmr, { w with script := some e :: rest, trace := w.trace ++
            [.getSMMR { Namespace := ingressNamespace ks.Namespace, Name := smmrName }] }) := by
      simp [getSMMR, World.call, hscript, hs]
    rw [installServiceMeshMemberRoll_of_found ks w _ smmr hget]
    simp [hm, updateSMMR, World.call]

/-- C5 (amended): `installServiceMeshMemberRoll` returns a rejection of its create or
update unchanged, whatever the message.  It is `ApplyServiceMesh` that classifies: when
the error of `installServiceMeshMemberRoll` has a message containing the fixed substring,
it returns a new error whose message is the remediation text, which includes the tenant
namespace; any other error it returns unchanged. -/
theorem ApplyServiceMesh_classifies_conflict (ks : KnativeServing) (w w1 w2 w3 w4 : World)
    (err : GoError)
    (h1 : createIngressNamespace ks.Namespace w = (.ok (), w1))
    (h2 : installServiceMeshControlPlane ks w1 = (.ok (), w2))
    (h3 : isServiceMeshControlPlaneReady ks.Namespace w2 = (.ok (), w3))
    (h4 : installServiceMeshMemberRoll ks w3 = (.error err, w4)) :
    (stringsContains err.Error conflictSubstring = true →
      ApplyServiceMesh ks w = (.error (.errorString (conflictMessage ks.Namespace)), w4) ∧
      stringsContains (conflictMessage ks.Namespace) ks.Namespace = true) ∧
    (stringsContains err.Error conflictSubstring = false →
      ApplyServiceMesh ks w = (.error err, w4)) ∧
    (∀ (v : World) (e : ApiError) (rest : List (Option ApiError)),
      v.script = none :: some e :: rest →
      (∀ o, storeGet smmrKey (memberRollKey ks) v.cluster.smmrs = some o →
        ks.Namespace ∉ o.Spec.Members) →
      (installServiceMeshMemberRoll ks v).1 = .error (.status e)) := by
  refine ⟨?_, ?_, ?_⟩
  · intro hc
    refine ⟨?_, stringsContains_conflictMessage ks.Namespace⟩
    simp [ApplyServiceMesh, h1, h2, h3, h4, hc]
  · intro hc
    simp [ApplyServiceMesh, h1, h2, h3, h4, hc]
  · intro v e rest hv habsent
    exact installServiceMeshMemberRoll_of_rejected ks v e rest hv habsent

/-- Witness of C5: the creation of tenant-b's member roll is rejected as already a member
elsewhere, and `ApplyServiceMesh` answers with the remediation text; rejected for another
reason, the rejection is returned as it is. -/
theorem ApplyServiceMesh_classifies_conflict_witness :
    (ApplyServiceMesh servingTenantB worldApplyRejected).1
      = .error (.errorString (conflictMessage "tenant-b")) ∧
    (ApplyServiceMesh servingTenantB worldApplyForbidden).1
      = .error (.status rejectionForbidden) :=
  ⟨congrArg Prod.fst ((ApplyServiceMesh_classifies_conflict servingTenantB worldApplyRejected
      (createIngressNamespace "tenant-b" worldApplyRejected).2
      (installServiceMeshControlPlane servingTenantB
        (createIngressNamespace "tenant-b" worldApplyRejected).2).2
      (isServiceMeshControlPlaneReady "tenant-b" (installServiceMeshControlPlane servingTenantB
        (createIngressNamespace "tenant-b" worldApplyRejected).2).2).2
      (installServiceMeshMemberRoll servingTenantB
        (isServiceMeshControlPlaneReady "tenant-b" (installServiceMeshControlPlane servingTenantB
          (createIngressNamespace "tenant-b" worldApplyRejected).2).2).2).2
      (.status rejectionAlreadyMember) (by rfl) (by rfl) (by rfl) (by rfl)).1 (by decide)).1,
   congrArg Prod.fst ((ApplyServiceMesh_classifies_conflict servingTenantB worldApplyForbidden
      (createIngressNamespace "tenant-b" worldApplyForbidden).2
      (installServiceMeshControlPlane servingTenantB
        (createIngressNamespace "tenant-b" worldApplyForbidden).2).2
      (isServiceMeshControlPlaneReady "tenant-b" (installServiceMeshControlPlane servingTenantB
        (createIngressNamespace "tenant-b" worldApplyForbidden).2).2).2
      (installServiceMeshMemberRoll servingTenantB
        (isServiceMeshControlPlaneReady "tenant-b" (installServiceMeshControlPlane servingTenantB
          (createIngressNamespace "tenant-b" worldApplyForbidden).2).2).2).2
      (.status rejectionForbidden) (by rfl) (by rfl) (by rfl) (by rfl)).2.1 (by decide))⟩

/-- Counterexample to C5 as stated: the creation of tenant-b's member roll is rejected
with a message that contains the fixed substring, and `installServiceMeshMemberRoll`
returns that rejection itself, whose message does not include the tenant namespace. -/
theorem installServiceMeshMemberRoll_returns_rejection_unchanged :
    stringsContains rejectionAlreadyMember.Message conflictSubstring = true ∧
    installServiceMeshMemberRoll servingTenantB worldRegistrationRejected
      = (.error (.status rejectionAlreadyMember),
         { worldRegistrationRejected with
            script := []
            trace := [.getSMMR { Namespace := "tenant-b-ingress", Name := "default" },
                      .createSMMR memberRollOfTenantB] }) ∧
    stringsContains (GoError.status rejectionAlreadyMember).Error "tenant-b" = false := by
  refine ⟨by decide, by rfl, by decide⟩

/-! ## Merging the owner labels -/

theorem ownerName_ne_ownerNamespace : ownerName ≠ ownerNamespace := by decide

theorem mergeLabels_ownerLabels (current : GoMap String) (ks : KnativeServing) :
    mergeLabels current (ownerLabels ks)
      = mapStore (mapStore current ownerName ks.Name) ownerNamespace ks.Namespace := by
  simp [mergeLabels, ownerLabels]

theorem mergeLabels_idem (current : GoMap String) (ks : KnativeServing) :
    mergeLabels (mergeLabels current (ownerLabels ks)) (ownerLabels ks)
      = mergeLabels current (ownerLabels ks) := by
  rw [mergeLabels_ownerLabels (mergeLabels current (ownerLabels ks)), mergeLabels_ownerLabels]
  have h1 : mapLookup (mapStore (mapStore current ownerName ks.Name) ownerNamespace ks.Namespace)
      ownerName = some ks.Name := by
    rw [mapLookup_mapStore_other _ _ _ _ ownerName_ne_ownerNamespace, mapLookup_mapStore_self]
  rw [mapStore_of_mapLookup _ _ _ h1]
  exact mapStore_of_mapLookup _ _ _ (mapLookup_mapStore_self _ _ _)

theorem mergeLabels_self (ks : KnativeServing) :
    mergeLabels (ownerLabels ks) (ownerLabels ks) = ownerLabels ks := by
  rw [mergeLabels_ownerLabels]
  simp [ownerLabels, mapStore, ownerName_ne_ownerNamespace]

theorem installServiceMeshControlPlane_eq (ks : KnativeServing) (w : World) :
    installServiceMeshControlPlane ks w =
      match manifestFailure w.manifest with
      | some err => (.error err, w)
      | none => manifestApplyAll (renderedControlPlane ks) w := by
  unfold installServiceMeshControlPlane manifestFailure
  cases w.manifest.newManifestErr with
  | some err => rfl
  | none =>
    cases w.manifest.transformErr with
    | some err => rfl
    | none => rfl

/-! ## Runs against an unchanged API server -/

theorem World.call_next (w : World) (c : ApiCall) : w.call c = (w.verdict, w.next c) :=
  World.call_eq w c

theorem obeys_append (p : ApiCall → Option ApiError) (script : List (Option ApiError))
    (cs1 cs2 : List ApiCall) :
    obeys p script (cs1 ++ cs2)
      = (obeys p script cs1 && obeys p (script.drop cs1.length) cs2) := by
  induction cs1 generalizing script with
  | nil => cases script <;> simp [obeys]
  | cons c cs ih =>
    cases script with
    | nil =>
      have := ih []
      simp [obeys, this, Bool.and_assoc]
    | cons v rest => simp [obeys, ih rest, Bool.and_assoc]

theorem obeys_cons (p : ApiCall → Option ApiError) (w : World) (c : ApiCall)
    (cs : List ApiCall) :
    obeys p w.script (c :: cs) = true ↔ w.verdict = p c ∧ obeys p (w.next c).script cs = true := by
  obtain ⟨cl, script, tr, mf⟩ := w
  cases script with
  | nil =>
    simp only [obeys, World.verdict, World.next, Bool.and_eq_true, decide_eq_true_eq, List.tail_nil]
    constructor
    · rintro ⟨h1, h2⟩
      exact ⟨h1.symm, h2⟩
    · rintro ⟨h1, h2⟩
      exact ⟨h1.symm, h2⟩
  | cons v rest =>
    simp [obeys, World.verdict, World.next]

theorem callsSince_of_append (w v : World) (cs : List ApiCall)
    (h : v.trace = w.trace ++ cs) : callsSince w v = cs := by
  simp [callsSince, h]

theorem callsSince_self (w : World) : callsSince w w = [] := by
  simp [callsSince]

theorem Shaped.trace_eq {f : Step} (hf : Shaped f) (w : World) :
    (f w).2.trace = w.trace ++ callsSince w (f w).2 := by
  obtain ⟨⟨cs, ht, -⟩, -⟩ := hf w
  rw [callsSince_of_append _ _ cs ht, ht]

theorem Shaped.script_eq {f : Step} (hf : Shaped f) (w : World) :
    (f w).2.script = w.script.drop (callsSince w (f w).2).length := by
  obtain ⟨⟨cs, ht, hs⟩, -⟩ := hf w
  rw [callsSince_of_append _ _ cs ht, hs]

theorem andThen_of_error (f g : Step) (w w1 : World) (err : GoError)
    (h : f w = (.error err, w1)) : andThen f g w = (.error err, w1) := by
  simp [andThen, h]

theorem andThen_of_ok (f g : Step) (w w1 : World) (h : f w = (.ok (), w1)) :
    andThen f g w = g w1 := by
  simp [andThen, h]

theorem shaped_andThen {f g : Step} (hf : Shaped f) (hg : Shaped g) :
    Shaped (andThen f g) := by
  intro w
  rcases hfw : f w with ⟨r, w1⟩
  obtain ⟨⟨cs1, ht1, hs1⟩, hm1⟩ := hf w
  rw [hfw] at ht1 hs1 hm1
  simp only at ht1 hs1 hm1
  cases r with
  | error err =>
    rw [andThen_of_error f g w w1 err hfw]
    exact ⟨⟨cs1, ht1, hs1⟩, hm1⟩
  | ok x =>
    rw [andThen_of_ok f g w w1 hfw]
    obtain ⟨⟨cs2, ht2, hs2⟩, hm2⟩ := hg w1
    refine ⟨⟨cs1 ++ cs2, ?_, ?_⟩, hm2.trans hm1⟩
    · rw [ht2, ht1, List.append_assoc]
    · rw [hs2, hs1, List.drop_drop, List.length_append, Nat.add_comm]

/-- The calls of `f` followed by `g` are those of `f`, then those of `g` if it runs. -/
theorem callsSince_andThen {f g : Step} (hf : Shaped f) (hg : Shaped g) (w : World) :
    (∀ err w1, f w = (.error err, w1) →
      callsSince w (andThen f g w).2 = callsSince w (f w).2) ∧
    (∀ w1, f w = (.ok (), w1) →
      callsSince w (andThen f g w).2 = callsSince w (f w).2 ++ callsSince w1 (g w1).2) := by
  constructor
  · intro err w1 h
    rw [andThen_of_error f g w w1 err h, h]
  · intro w1 h
    rw [andThen_of_ok f g w w1 h]
    have h1 := hf.trace_eq w
    have h2 := hg.trace_eq w1
    rw [h] at h1 ⊢
    simp only at h1 ⊢
    apply callsSince_of_append
    rw [h2, h1, List.append_assoc]

/-- A run of `f` followed by `g` conforms to the policy exactly when both parts do. -/
theorem conforms_andThen_iff {p : ApiCall → Option ApiError} {f g : Step}
    (hf : Shaped f) (hg : Shaped g) (w : World) :
    Conforms p (andThen f g) w ↔
      Conforms p f w ∧ ∀ w1, f w = (.ok (), w1) → Conforms p g w1 := by
  obtain ⟨hce, hco⟩ := callsSince_andThen hf hg w
  rcases hfw : f w with ⟨r, w1⟩
  cases r with
  | error err =>
    unfold Conforms
    rw [hce err w1 hfw]
    constructor
    · intro h
      refine ⟨h, ?_⟩
      intro w2 h2
      simp at h2
    · intro h
      exact h.1
  | ok x =>
    unfold Conforms
    rw [hco w1 hfw, obeys_append]
    have hs := hf.script_eq w
    rw [hfw] at hs ⊢
    simp only at hs ⊢
    rw [← hs]
    simp only [Bool.and_eq_true]
    constructor
    · rintro ⟨h1, h2⟩
      refine ⟨h1, ?_⟩
      intro w2 h3
      simp only [Prod.mk.injEq, true_and] at h3
      subst h3
      exact h2
    · rintro ⟨h1, h2⟩
      exact ⟨h1, h2 w1 rfl⟩

/-- Idempotence of a pipeline `f` then `g`, from the facts about the step `f` (with `S`
the property of the cluster that a successful `f` establishes) and the idempotence of the
rest `g`. -/
theorem idem_andThen {p : ApiCall → Option ApiError} {f g : Step} (S : Cluster → Prop)
    (hf : Shaped f) (hg : Shaped g)
    (okS : ∀ w w1, f w = (.ok (), w1) → S w1.cluster)
    (settled : ∀ u, S u.cluster → (f u).2.cluster = u.cluster)
    (failed : ∀ u err u1, f u = (.error err, u1) → u1.cluster = u.cluster)
    (det : ∀ w u, Conforms p f w → Conforms p f u → u.cluster = w.cluster →
      u.manifest = w.manifest → (∃ err, (f w).1 = .error err) → ∃ err, (f u).1 = .error err)
    (writes : ∀ u, Conforms p f u → (f u).2.cluster = u.cluster →
      ∀ call ∈ callsSince u (f u).2, ApiCall.isWrite call = true → Unserved p call)
    (pres : ∀ w, S w.cluster → S (g w).2.cluster)
    (ihg : Idem p g) : Idem p (andThen f g) := by
  intro w hw
  obtain ⟨hwf, hwg⟩ := (conforms_andThen_iff hf hg w).mp hw
  rcases hfw : f w with ⟨r, w1⟩
  have hm1 : w1.manifest = w.manifest := by
    have := (hf w).2
    rw [hfw] at this
    exact this
  cases r with
  | error err =>
    rw [andThen_of_error f g w w1 err hfw]
    have hc1 : w1.cluster = w.cluster := failed w err w1 hfw
    intro u huc hum hu
    simp only at huc
    obtain ⟨huf, -⟩ := (conforms_andThen_iff hf hg u).mp hu
    obtain ⟨err2, he2⟩ := det w u hwf huf (huc.trans hc1) hum ⟨err, by rw [hfw]⟩
    rcases hfu : f u with ⟨r2, u1⟩
    rw [hfu] at he2
    simp only at he2
    subst he2
    have hcu : (f u).2.cluster = u.cluster := by
      rw [hfu]
      exact failed u err2 u1 hfu
    have hcalls := (callsSince_andThen hf hg u).1 err2 u1 hfu
    rw [hcalls]
    refine ⟨?_, writes u huf hcu⟩
    rw [andThen_of_error f g u u1 err2 hfu]
    rw [hfu] at hcu
    exact hcu
  | ok x =>
    rw [andThen_of_ok f g w w1 hfw]
    have hS1 : S w1.cluster := okS w w1 hfw
    have hS2 : S (g w1).2.cluster := pres w1 hS1
    have hg1 : InertAt p g (g w1).2.cluster w1.manifest := ihg w1 (hwg w1 hfw)
    intro u huc hum hu
    obtain ⟨huf, hug⟩ := (conforms_andThen_iff hf hg u).mp hu
    have hcu : (f u).2.cluster = u.cluster := settled u (by rw [huc]; exact hS2)
    have hwu := writes u huf hcu
    rcases hfu : f u with ⟨r2, u1⟩
    rw [hfu] at hcu
    simp only at hcu
    cases r2 with
    | error err2 =>
      rw [(callsSince_andThen hf hg u).1 err2 u1 hfu, andThen_of_error f g u u1 err2 hfu]
      exact ⟨hcu, hwu⟩
    | ok y =>
      have hmu : u1.manifest = w1.manifest := by
        have := (hf u).2
        rw [hfu] at this
        simp only at this
        rw [this, hum, hm1]
      obtain ⟨hgc, hgw⟩ := hg1 u1 (hcu.trans huc) hmu (hug u1 hfu)
      rw [(callsSince_andThen hf hg u).2 u1 hfu, andThen_of_ok f g u u1 hfu]
      refine ⟨hgc.trans hcu, ?_⟩
      intro call hcall hwrite
      rcases List.mem_append.mp hcall with h | h
      · exact hwu call h hwrite
      · exact hgw call h hwrite

/-- A step that never changes the cluster and makes lookups only is idempotent. -/
theorem idem_of_readOnly {p : ApiCall → Option ApiError} {f : Step}
    (hro : ∀ u, (f u).2.cluster = u.cluster ∧
      ∀ call ∈ callsSince u (f u).2, ApiCall.isWrite call = false) : Idem p f := by
  intro w _ u _ _ _
  refine ⟨(hro u).1, ?_⟩
  intro call hcall hwrite
  have := (hro u).2 call hcall
  rw [this] at hwrite
  exact absurd hwrite (by decide)

/-! ## The client calls in terms of the verdict -/

@[simp]
theorem World.next_cluster (w : World) (c : ApiCall) : (w.next c).cluster = w.cluster := rfl

@[simp]
theorem World.next_manifest (w : World) (c : ApiCall) : (w.next c).manifest = w.manifest := rfl

@[simp]
theorem World.next_trace (w : World) (c : ApiCall) : (w.next c).trace = w.trace ++ [c] := rfl

@[simp]
theorem World.next_script (w : World) (c : ApiCall) : (w.next c).script = w.script.tail := rfl

theorem getNamespace_eq (key : ObjectKey) (w : World) :
    getNamespace key w =
      (match w.verdict with
        | some e => .error (.status e)
        | none =>
          match storeGet namespaceKey key w.cluster.namespaces with
          | none => .error (notFound "namespaces" key.Name)
          | some o => .ok o,
       w.next (.getNamespace key)) := by
  simp only [getNamespace, World.call_next, World.next_cluster]
  cases w.verdict with
  | some e => rfl
  | none =>
    simp only [World.next_cluster]
    cases storeGet namespaceKey key w.cluster.namespaces <;> rfl

theorem getSMCP_eq (key : ObjectKey) (w : World) :
    getSMCP key w =
      (match w.verdict with
        | some e => .error (.status e)
        | none =>
          match storeGet smcpKey key w.cluster.smcps with
          | none => .error (notFound "servicemeshcontrolplanes.maistra.io" key.Name)
          | some o => .ok o,
       w.next (.getSMCP key)) := by
  simp only [getSMCP, World.call_next, World.next_cluster]
  cases w.verdict with
  | some e => rfl
  | none =>
    simp only [World.next_cluster]
    cases storeGet smcpKey key w.cluster.smcps <;> rfl

theorem getSMMR_eq (key : ObjectKey) (w : World) :
    getSMMR key w =
      (match w.verdict with
        | some e => .error (.status e)
        | none =>
          match storeGet smmrKey key w.cluster.smmrs with
          | none => .error (notFound "servicemeshmemberrolls.maistra.io" key.Name)
          | some o => .ok o,
       w.next (.getSMMR key)) := by
  simp only [getSMMR, World.call_next, World.next_cluster]
  cases w.verdict with
  | some e => rfl
  | none =>
    simp only [World.next_cluster]
    cases storeGet smmrKey key w.cluster.smmrs <;> rfl

theorem createNamespace_eq (obj : V1Namespace) (w : World) :
    createNamespace obj w =
      match w.verdict with
      | some e => (.error (.status e), w.next (.createNamespace obj))
      | none =>
        match storeGet namespaceKey (namespaceKey obj) w.cluster.namespaces with
        | some _ => (.error (alreadyExists "namespaces" obj.Name), w.next (.createNamespace obj))
        | none =>
          (.ok (), { w.next (.createNamespace obj) with
            cluster := { w.cluster with namespaces := w.cluster.namespaces ++ [obj] } }) := by
  simp only [createNamespace, World.call_next, World.next_cluster]
  cases w.verdict with
  | some e => rfl
  | none =>
    simp only [World.next_cluster]

theorem createSMCP_eq (obj : ServiceMeshControlPlane) (w : World) :
    createSMCP obj w =
      match w.verdict with
      | some e => (.error (.status e), w.next (.createSMCP obj))
      | none =>
        match storeGet smcpKey (smcpKey obj) w.cluster.smcps with
        | some _ =>
          (.error (alreadyExists "servicemeshcontrolplanes.maistra.io" obj.Name),
            w.next (.createSMCP obj))
        | none =>
          (.ok (), { w.next (.createSMCP obj) with
            cluster := { w.cluster with smcps := w.cluster.smcps ++ [obj] } }) := by
  simp only [createSMCP, World.call_next, World.next_cluster]
  cases w.verdict with
  | some e => rfl
  | none =>
    simp only [World.next_cluster]

theorem updateSMCP_eq (obj : ServiceMeshControlPlane) (w : World) :
    updateSMCP obj w =
      match w.verdict with
      | some e => (.error (.status e), w.next (.updateSMCP obj))
      | none =>
        match storeGet smcpKey (smcpKey obj) w.cluster.smcps with
        | none =>
          (.error (notFound "servicemeshcontrolplanes.maistra.io" obj.Name),
            w.next (.updateSMCP obj))
        | some _ =>
          (.ok (), { w.next (.updateSMCP obj) with
            cluster := { w.cluster with smcps := storeReplace smcpKey obj w.cluster.smcps } }) := by
  simp only [updateSMCP, World.call_next, World.next_cluster]
  cases w.verdict with
  | some e => rfl
  | none =>
    simp only [World.next_cluster]

theorem createSMMR_eq (obj : ServiceMeshMemberRoll) (w : World) :
    createSMMR obj w =
      match w.verdict with
      | some e => (.error (.status e), w.next (.createSMMR obj))
      | none =>
        match storeGet smmrKey (smmrKey obj) w.cluster.smmrs with
        | some _ =>
          (.error (alreadyExists "servicemeshmemberrolls.maistra.io" obj.Name),
            w.next (.createSMMR obj))
        | none =>
          (.ok (), { w.next (.createSMMR obj) with
            cluster := { w.cluster with smmrs := w.cluster.smmrs ++ [obj] } }) := by
  simp only [createSMMR, World.call_next, World.next_cluster]
  cases w.verdict with
  | some e => rfl
  | none =>
    simp only [World.next_cluster]

theorem updateSMMR_eq (obj : ServiceMeshMemberRoll) (w : World) :
    updateSMMR obj w =
      match w.verdict with
      | some e => (.error (.status e), w.next (.updateSMMR obj))
      | none =>
        match storeGet smmrKey (smmrKey obj) w.cluster.smmrs with
        | none =>
          (.error (notFound "servicemeshmemberrolls.maistra.io" obj.Name),
            w.next (.updateSMMR obj))
        | some _ =>
          (.ok (), { w.next (.updateSMMR obj) with
            cluster := { w.cluster with smmrs := storeReplace smmrKey obj w.cluster.smmrs } }) := by
  simp only [updateSMMR, World.call_next, World.next_cluster]
  cases w.verdict with
  | some e => rfl
  | none =>
    simp only [World.next_cluster]

theorem callsSince_next (w : World) (c : ApiCall) : callsSince w (w.next c) = [c] := by
  simp [callsSince, World.next]

theorem callsSince_next_next (w : World) (c1 c2 : ApiCall) :
    callsSince w ((w.next c1).next c2) = [c1, c2] := by
  simp [callsSince, World.next]

theorem obeys_one (p : ApiCall → Option ApiError) (w : World) (c : ApiCall) :
    obeys p w.script [c] = true ↔ w.verdict = p c := by
  rw [obeys_cons]
  simp [obeys]

theorem obeys_two (p : ApiCall → Option ApiError) (w : World) (c1 c2 : ApiCall) :
    obeys p w.script [c1, c2] = true ↔ w.verdict = p c1 ∧ (w.next c1).verdict = p c2 := by
  rw [obeys_cons, obeys_one]

theorem drop_one_eq_tail {α : Type} (l : List α) : l.drop 1 = l.tail := by
  cases l <;> rfl

theorem drop_two_eq_tail {α : Type} (l : List α) : l.drop 2 = l.tail.tail := by
  cases l with
  | nil => rfl
  | cons a t => cases t <;> rfl

theorem append_singleton_ne {α : Type} (l : List α) (a : α) : l ++ [a] ≠ l := by
  intro h
  have := congrArg List.length h
  simp at this

/-! ## Steps of the form lookup-then-write -/

section LookupThenWrite
variable (c1 : ApiCall) (plan : Option ApiError → Cluster → Plan)

theorem lookupThenWrite_of_stop (w : World) (r : Except GoError Unit)
    (h : plan w.verdict w.cluster = .stop r) :
    lookupThenWrite c1 plan w = (r, w.next c1) := by
  simp [lookupThenWrite, h]

theorem lookupThenWrite_of_rejected (w : World) (c2 : ApiCall) (s : Except GoError Cluster)
    (e : ApiError) (h : plan w.verdict w.cluster = .write c2 s)
    (hv : (w.next c1).verdict = some e) :
    lookupThenWrite c1 plan w = (.error (.status e), (w.next c1).next c2) := by
  simp [lookupThenWrite, h, hv]

theorem lookupThenWrite_of_refused (w : World) (c2 : ApiCall) (err : GoError)
    (h : plan w.verdict w.cluster = .write c2 (.error err))
    (hv : (w.next c1).verdict = none) :
    lookupThenWrite c1 plan w = (.error err, (w.next c1).next c2) := by
  simp [lookupThenWrite, h, hv]

theorem lookupThenWrite_of_written (w : World) (c2 : ApiCall) (cl : Cluster)
    (h : plan w.verdict w.cluster = .write c2 (.ok cl))
    (hv : (w.next c1).verdict = none) :
    lookupThenWrite c1 plan w = (.ok (), { (w.next c1).next c2 with cluster := cl }) := by
  simp [lookupThenWrite, h, hv]

/-- The calls and the outcome of a lookup-then-write step, case by case. -/
theorem lookupThenWrite_cases (w : World) :
    (∃ r, plan w.verdict w.cluster = .stop r ∧
      lookupThenWrite c1 plan w = (r, w.next c1)) ∨
    (∃ c2 s, plan w.verdict w.cluster = .write c2 s ∧
      ((∃ e, (w.next c1).verdict = some e ∧
          lookupThenWrite c1 plan w = (.error (.status e), (w.next c1).next c2)) ∨
       (∃ err, (w.next c1).verdict = none ∧ s = .error err ∧
          lookupThenWrite c1 plan w = (.error err, (w.next c1).next c2)) ∨
       (∃ cl, (w.next c1).verdict = none ∧ s = .ok cl ∧
          lookupThenWrite c1 plan w
            = (.ok (), { (w.next c1).next c2 with cluster := cl })))) := by
  cases hp : plan w.verdict w.cluster with
  | stop r => exact Or.inl ⟨r, rfl, lookupThenWrite_of_stop c1 plan w r hp⟩
  | write c2 s =>
    refine Or.inr ⟨c2, s, rfl, ?_⟩
    cases hv : (w.next c1).verdict with
    | some e => exact Or.inl ⟨e, rfl, lookupThenWrite_of_rejected c1 plan w c2 s e hp hv⟩
    | none =>
      cases s with
      | error err =>
        exact Or.inr (Or.inl ⟨err, rfl, rfl, lookupThenWrite_of_refused c1 plan w c2 err hp hv⟩)
      | ok cl =>
        exact Or.inr (Or.inr ⟨cl, rfl, rfl, lookupThenWrite_of_written c1 plan w c2 cl hp hv⟩)

theorem callsSince_write (w : World) (c2 : ApiCall) :
    callsSince w ((w.next c1).next c2) = [c1, c2] :=
  callsSince_next_next w c1 c2

theorem callsSince_written (w : World) (c2 : ApiCall) (cl : Cluster) :
    callsSince w { (w.next c1).next c2 with cluster := cl } = [c1, c2] := by
  simp [callsSince, World.next]

theorem lookupThenWrite_shaped : Shaped (lookupThenWrite c1 plan) := by
  intro w
  rcases lookupThenWrite_cases c1 plan w with ⟨r, -, h⟩ | ⟨c2, s, -, ⟨e, -, h⟩ | ⟨err, -, -, h⟩ | ⟨cl, -, -, h⟩⟩
  · rw [h]
    exact ⟨⟨[c1], rfl, by simp [drop_one_eq_tail]⟩, rfl⟩
  · rw [h]
    exact ⟨⟨[c1, c2], by simp, by simp [drop_two_eq_tail]⟩, rfl⟩
  · rw [h]
    exact ⟨⟨[c1, c2], by simp, by simp [drop_two_eq_tail]⟩, rfl⟩
  · rw [h]
    exact ⟨⟨[c1, c2], by simp, by simp [drop_two_eq_tail]⟩, rfl⟩

theorem lookupThenWrite_failed (u u1 : World) (err : GoError)
    (h : lookupThenWrite c1 plan u = (.error err, u1)) : u1.cluster = u.cluster := by
  rcases lookupThenWrite_cases c1 plan u with ⟨r, -, hc⟩ | ⟨c2, s, -, ⟨e, -, hc⟩ | ⟨err2, -, -, hc⟩ | ⟨cl, -, -, hc⟩⟩
  · rw [hc] at h
    simp only [Prod.mk.injEq] at h
    rw [← h.2]
    rfl
  · rw [hc] at h
    simp only [Prod.mk.injEq] at h
    rw [← h.2]
    rfl
  · rw [hc] at h
    simp only [Prod.mk.injEq] at h
    rw [← h.2]
    rfl
  · rw [hc] at h
    simp at h

/-- What conformance to a policy says about the verdicts of a lookup-then-write step. -/
theorem lookupThenWrite_conforms (p : ApiCall → Option ApiError) (w : World)
    (h : Conforms p (lookupThenWrite c1 plan) w) :
    w.verdict = p c1 ∧
    ∀ c2 s, plan w.verdict w.cluster = .write c2 s → (w.next c1).verdict = p c2 := by
  unfold Conforms at h
  rcases lookupThenWrite_cases c1 plan w with ⟨r, hp, hc⟩ | ⟨c2, s, hp, ⟨e, -, hc⟩ | ⟨err, -, -, hc⟩ | ⟨cl, -, -, hc⟩⟩
  · rw [hc] at h
    simp only at h
    rw [callsSince_next, obeys_one] at h
    refine ⟨h, ?_⟩
    intro c2 s hp2
    rw [hp] at hp2
    cases hp2
  · rw [hc] at h
    simp only at h
    rw [callsSince_next_next, obeys_two] at h
    refine ⟨h.1, ?_⟩
    intro c3 s3 hp3
    rw [hp] at hp3
    cases hp3
    exact h.2
  · rw [hc] at h
    simp only at h
    rw [callsSince_next_next, obeys_two] at h
    refine ⟨h.1, ?_⟩
    intro c3 s3 hp3
    rw [hp] at hp3
    cases hp3
    exact h.2
  · rw [hc] at h
    simp only at h
    rw [callsSince_written, obeys_two] at h
    refine ⟨h.1, ?_⟩
    intro c3 s3 hp3
    rw [hp] at hp3
    cases hp3
    exact h.2

/-- Against one policy the result of a lookup-then-write step depends on the cluster
only. -/
theorem lookupThenWrite_det (p : ApiCall → Option ApiError) (w u : World)
    (hw : Conforms p (lookupThenWrite c1 plan) w)
    (hu : Conforms p (lookupThenWrite c1 plan) u) (hc : u.cluster = w.cluster) :
    (lookupThenWrite c1 plan u).1 = (lookupThenWrite c1 plan w).1 := by
  obtain ⟨hw1, hw2⟩ := lookupThenWrite_conforms c1 plan p w hw
  obtain ⟨hu1, hu2⟩ := lookupThenWrite_conforms c1 plan p u hu
  have hplan : plan u.verdict u.cluster = plan w.verdict w.cluster := by
    rw [hu1, hw1, hc]
  cases hp : plan w.verdict w.cluster with
  | stop r =>
    rw [lookupThenWrite_of_stop c1 plan w r hp,
      lookupThenWrite_of_stop c1 plan u r (hplan.trans hp)]
  | write c2 s =>
    have hv2w := hw2 c2 s hp
    have hv2u := hu2 c2 s (hplan.trans hp)
    cases hv : p c2 with
    | some e =>
      rw [lookupThenWrite_of_rejected c1 plan w c2 s e hp (hv2w.trans hv),
        lookupThenWrite_of_rejected c1 plan u c2 s e (hplan.trans hp) (hv2u.trans hv)]
    | none =>
      cases s with
      | error err =>
        rw [lookupThenWrite_of_refused c1 plan w c2 err hp (hv2w.trans hv),
          lookupThenWrite_of_refused c1 plan u c2 err (hplan.trans hp) (hv2u.trans hv)]
      | ok cl =>
        rw [lookupThenWrite_of_written c1 plan w c2 cl hp (hv2w.trans hv),
          lookupThenWrite_of_written c1 plan u c2 cl (hplan.trans hp) (hv2u.trans hv)]

/-- A conforming lookup-then-write step that leaves the cluster as it is has issued no
write, or one that the server did not serve, or one whose lookup it did not serve. -/
theorem lookupThenWrite_writes (p : ApiCall → Option ApiError)
    (hc1 : ApiCall.isWrite c1 = false)
    (hlook : ∀ v cl c2 s, plan v cl = .write c2 s → lookupOf c2 = c1)
    (hserved : ∀ cl c2 s, plan none cl = .write c2 s → ∃ cl2, s = .ok cl2 ∧ cl2 ≠ cl)
    (u : World) (hu : Conforms p (lookupThenWrite c1 plan) u)
    (hsame : (lookupThenWrite c1 plan u).2.cluster = u.cluster) :
    ∀ call ∈ callsSince u (lookupThenWrite c1 plan u).2,
      ApiCall.isWrite call = true → Unserved p call := by
  obtain ⟨hu1, hu2⟩ := lookupThenWrite_conforms c1 plan p u hu
  have key : ∀ c2 s, plan u.verdict u.cluster = .write c2 s →
      ((u.next c1).verdict = none → ∀ cl, s = .ok cl → False) → Unserved p c2 := by
    intro c2 s hp hno
    cases hv1 : u.verdict with
    | some e =>
      right
      rw [hlook _ _ c2 s hp, ← hu1, hv1]
      simp
    | none =>
      rw [hv1] at hp
      obtain ⟨cl2, hs, hne⟩ := hserved _ c2 s hp
      left
      rw [← hu2 c2 s (by rw [hv1]; exact hp)]
      intro hv2
      exact hno hv2 cl2 hs
  intro call hcall hwrite
  rcases lookupThenWrite_cases c1 plan u with ⟨r, hp, hc⟩ | ⟨c2, s, hp, ⟨e, hv, hc⟩ | ⟨err, hv, hs, hc⟩ | ⟨cl, hv, hs, hc⟩⟩
  · rw [hc] at hcall
    simp only at hcall
    rw [callsSince_next] at hcall
    simp only [List.mem_singleton] at hcall
    subst hcall
    rw [hc1] at hwrite
    exact absurd hwrite (by decide)
  · rw [hc] at hcall
    simp only at hcall
    rw [callsSince_next_next] at hcall
    simp only [List.mem_cons, List.mem_singleton, List.not_mem_nil, or_false] at hcall
    rcases hcall with rfl | rfl
    · rw [hc1] at hwrite
      exact absurd hwrite (by decide)
    · apply key call s hp
      intro hv2
      rw [hv] at hv2
      cases hv2
  · rw [hc] at hcall
    simp only at hcall
    rw [callsSince_next_next] at hcall
    simp only [List.mem_cons, List.mem_singleton, List.not_mem_nil, or_false] at hcall
    rcases hcall with rfl | rfl
    · rw [hc1] at hwrite
      exact absurd hwrite (by decide)
    · apply key call s hp
      intro _ cl2 hs2
      rw [hs] at hs2
      cases hs2
  · rw [hc] at hcall hsame
    simp only at hcall hsame
    rw [callsSince_written] at hcall
    simp only [List.mem_cons, List.mem_singleton, List.not_mem_nil, or_false] at hcall
    rcases hcall with rfl | rfl
    · rw [hc1] at hwrite
      exact absurd hwrite (by decide)
    · cases hv1 : u.verdict with
      | some e =>
        right
        rw [hlook _ _ call s hp, ← hu1, hv1]
        simp
      | none =>
        rw [hv1] at hp
        obtain ⟨cl2, hs2, hne⟩ := hserved _ call s hp
        rw [hs] at hs2
        cases hs2
        exact absurd hsame hne

end LookupThenWrite

/-! ## The steps as lookup-then-write steps -/

theorem createIngressNamespace_eq_plan (ns : String) :
    createIngressNamespace ns
      = lookupThenWrite (.getNamespace { Namespace := "", Name := ingressNamespace ns })
          (ingressNamespacePlan ns) := by
  funext w
  unfold createIngressNamespace lookupThenWrite ingressNamespacePlan servedCreateNamespace
  rw [getNamespace_eq]
  cases hv : w.verdict with
  | some e =>
    by_cases hr : e.Reason = .NotFound
    · simp only [IsNotFound, hr, beq_self_eq_true, if_true]
      rw [createNamespace_eq]
      cases (w.next (.getNamespace { Namespace := "", Name := ingressNamespace ns })).verdict with
      | some e2 => rfl
      | none =>
        simp only [World.next_cluster]
        cases storeGet namespaceKey (namespaceKey { Name := ingressNamespace ns })
          w.cluster.namespaces <;> rfl
    · simp [IsNotFound, hr]
  | none =>
    simp only
    cases hs : storeGet namespaceKey { Namespace := "", Name := ingressNamespace ns }
        w.cluster.namespaces with
    | some o => rfl
    | none =>
      simp only [IsNotFound, notFound, beq_self_eq_true, if_true]
      rw [createNamespace_eq]
      cases (w.next (.getNamespace { Namespace := "", Name := ingressNamespace ns })).verdict with
      | some e2 => rfl
      | none =>
        simp only [World.next_cluster]
        have hk : namespaceKey { Name := ingressNamespace ns }
            = { Namespace := "", Name := ingressNamespace ns } := rfl
        rw [hk, hs]

theorem manifestApplyAll_eq_plan (rendered : ServiceMeshControlPlane) :
    manifestApplyAll rendered
      = lookupThenWrite (.getSMCP (smcpKey rendered)) (controlPlanePlan rendered) := by
  funext w
  unfold manifestApplyAll lookupThenWrite controlPlanePlan servedCreateSMCP servedUpdateSMCP
  rw [getSMCP_eq]
  cases hv : w.verdict with
  | some e =>
    by_cases hr : e.Reason = .NotFound
    · simp only [IsNotFound, hr, beq_self_eq_true, if_true]
      rw [createSMCP_eq]
      cases (w.next (.getSMCP (smcpKey rendered))).verdict with
      | some e2 => rfl
      | none =>
        simp only [World.next_cluster]
        cases storeGet smcpKey (smcpKey rendered) w.cluster.smcps <;> rfl
    · simp [IsNotFound, hr]
  | none =>
    simp only
    cases hs : storeGet smcpKey (smcpKey rendered) w.cluster.smcps with
    | none =>
      simp only [IsNotFound, notFound, beq_self_eq_true, if_true]
      rw [createSMCP_eq]
      cases (w.next (.getSMCP (smcpKey rendered))).verdict with
      | some e2 => rfl
      | none =>
        simp only [World.next_cluster]
        rw [hs]
    | some current =>
      simp only
      by_cases hm : ({ current with Labels := mergeLabels current.Labels rendered.Labels }
          : ServiceMeshControlPlane) = current
      · simp only [hm, if_true]
      · simp only [hm, if_false]
        rw [updateSMCP_eq]
        cases (w.next (.getSMCP (smcpKey rendered))).verdict with
        | some e2 => rfl
        | none =>
          simp only [World.next_cluster]
          cases storeGet smcpKey
            (smcpKey { current with Labels := mergeLabels current.Labels rendered.Labels })
            w.cluster.smcps <;> rfl

theorem installServiceMeshMemberRoll_eq_plan (ks : KnativeServing) :
    installServiceMeshMemberRoll ks
      = lookupThenWrite (.getSMMR (memberRollKey ks)) (memberRollPlan ks) := by
  funext w
  unfold installServiceMeshMemberRoll lookupThenWrite memberRollPlan servedCreateSMMR
    servedUpdateSMMR memberRollKey freshMemberRoll
  rw [getSMMR_eq]
  cases hv : w.verdict with
  | some e =>
    by_cases hr : e.Reason = .NotFound
    · simp only [IsNotFound, hr, beq_self_eq_true, if_true]
      rw [createSMMR_eq]
      cases World.verdict (w.next (.getSMMR ⟨ingressNamespace ks.Namespace, smmrName⟩)) with
      | some e2 => rfl
      | none =>
        simp only [World.next_cluster]
        split <;> rfl
    · simp [IsNotFound, hr]
  | none =>
    simp only
    cases hs : storeGet smmrKey { Namespace := ingressNamespace ks.Namespace, Name := smmrName }
        w.cluster.smmrs with
    | none =>
      simp only [IsNotFound, notFound, beq_self_eq_true, if_true]
      rw [createSMMR_eq]
      cases World.verdict (w.next (.getSMMR ⟨ingressNamespace ks.Namespace, smmrName⟩)) with
      | some e2 => rfl
      | none =>
        simp only [World.next_cluster]
        have hk : smmrKey
            { Name := smmrName
              Namespace := ingressNamespace ks.Namespace
              Labels := ownerLabels ks
              Spec := { Members := [ks.Namespace] }
              Status := { ConfiguredMembers := [] } }
            = { Namespace := ingressNamespace ks.Namespace, Name := smmrName } := rfl
        rw [hk, hs]
    | some smmr =>
      simp only
      by_cases hm : ks.Namespace ∈ smmr.Spec.Members
      · rw [appendIfAbsent_of_mem _ _ hm]
        simp only [hm, if_true]
      · rw [appendIfAbsent_of_not_mem _ _ hm]
        simp only [hm, if_false]
        rw [updateSMMR_eq]
        cases World.verdict (w.next (.getSMMR ⟨ingressNamespace ks.Namespace, smmrName⟩)) with
        | some e2 => rfl
        | none =>
          simp only [World.next_cluster]
          split <;> rfl

theorem isServiceMeshControlPlaneReady_eq_plan (ns : String) :
    isServiceMeshControlPlaneReady ns
      = lookupThenWrite (.getSMCP { Namespace := ingressNamespace ns, Name := smcpName })
          (controlPlaneReadyPlan ns) := by
  funext w
  rw [isServiceMeshControlPlaneReady_eq, getSMCP_eq]
  unfold lookupThenWrite controlPlaneReadyPlan
  cases hv : w.verdict with
  | some e => rfl
  | none =>
    simp only
    cases hs : storeGet smcpKey { Namespace := ingressNamespace ns, Name := smcpName }
        w.cluster.smcps with
    | none => rfl
    | some smcp =>
      simp only
      cases reportsReady smcp <;> rfl

theorem isServiceMeshMemberRollReady_eq_plan (ns : String) :
    isServiceMeshMemberRollReady ns
      = lookupThenWrite (.getSMMR { Namespace := ingressNamespace ns, Name := smmrName })
          (memberRollReadyPlan ns) := by
  funext w
  unfold isServiceMeshMemberRollReady lookupThenWrite memberRollReadyPlan memberRollVerdict
  rw [getSMMR_eq]
  cases hv : w.verdict with
  | some e => rfl
  | none =>
    simp only
    cases hs : storeGet smmrKey { Namespace := ingressNamespace ns, Name := smmrName }
        w.cluster.smmrs with
    | none => rfl
    | some smmr =>
      simp only
      split <;> rfl

section LookupThenWriteMore
variable (c1 : ApiCall) (plan : Option ApiError → Cluster → Plan)

/-- A lookup-then-write step that succeeds has stopped with success, or has written. -/
theorem lookupThenWrite_ok (w w1 : World) (h : lookupThenWrite c1 plan w = (.ok (), w1)) :
    (plan w.verdict w.cluster = .stop (.ok ()) ∧ w1.cluster = w.cluster) ∨
    (∃ c2, plan w.verdict w.cluster = .write c2 (.ok w1.cluster)) := by
  rcases lookupThenWrite_cases c1 plan w with ⟨r, hp, hc⟩ | ⟨c2, s, hp, ⟨e, -, hc⟩ | ⟨err, -, -, hc⟩ | ⟨cl, -, hs, hc⟩⟩
  · rw [hc] at h
    simp only [Prod.mk.injEq] at h
    obtain ⟨rfl, rfl⟩ := h
    exact Or.inl ⟨hp, rfl⟩
  · rw [hc] at h
    simp at h
  · rw [hc] at h
    simp at h
  · rw [hc] at h
    simp only [Prod.mk.injEq, true_and] at h
    subst h
    subst hs
    exact Or.inr ⟨c2, hp⟩

/-- A lookup-then-write step whose plan has no successful write leaves the cluster. -/
theorem lookupThenWrite_settled (u : World)
    (h : ∀ v c2 cl2, plan v u.cluster ≠ .write c2 (.ok cl2)) :
    (lookupThenWrite c1 plan u).2.cluster = u.cluster := by
  rcases lookupThenWrite_cases c1 plan u with ⟨r, -, hc⟩ | ⟨c2, s, hp, ⟨e, -, hc⟩ | ⟨err, -, -, hc⟩ | ⟨cl, -, hs, hc⟩⟩
  · rw [hc]
    rfl
  · rw [hc]
    rfl
  · rw [hc]
    rfl
  · subst hs
    exact absurd hp (h _ _ _)

/-- A part of the cluster that no write of the plan changes is left as it is. -/
theorem lookupThenWrite_keeps {α : Type} (part : Cluster → α)
    (h : ∀ v cl c2 cl2, plan v cl = .write c2 (.ok cl2) → part cl2 = part cl) (w : World) :
    part (lookupThenWrite c1 plan w).2.cluster = part w.cluster := by
  rcases lookupThenWrite_cases c1 plan w with ⟨r, -, hc⟩ | ⟨c2, s, hp, ⟨e, -, hc⟩ | ⟨err, -, -, hc⟩ | ⟨cl, -, hs, hc⟩⟩
  · rw [hc]
    rfl
  · rw [hc]
    rfl
  · rw [hc]
    rfl
  · subst hs
    rw [hc]
    exact h _ _ _ _ hp

/-- A lookup-then-write step whose plan always stops is a lookup: it changes nothing and
writes nothing. -/
theorem lookupThenWrite_readOnly (h : ∀ v cl, ∃ r, plan v cl = .stop r)
    (hc1 : ApiCall.isWrite c1 = false) (u : World) :
    (lookupThenWrite c1 plan u).2.cluster = u.cluster ∧
    ∀ call ∈ callsSince u (lookupThenWrite c1 plan u).2, ApiCall.isWrite call = false := by
  obtain ⟨r, hr⟩ := h u.verdict u.cluster
  rw [lookupThenWrite_of_stop c1 plan u r hr]
  refine ⟨rfl, ?_⟩
  intro call hcall
  simp only at hcall
  rw [callsSince_next] at hcall
  simp only [List.mem_singleton] at hcall
  subst hcall
  exact hc1

end LookupThenWriteMore

theorem keeps_andThen {α : Type} (part : Cluster → α) {f g : Step}
    (hf : ∀ w, part (f w).2.cluster = part w.cluster)
    (hg : ∀ w, part (g w).2.cluster = part w.cluster) (w : World) :
    part (andThen f g w).2.cluster = part w.cluster := by
  rcases hfw : f w with ⟨r, w1⟩
  have h1 := hf w
  rw [hfw] at h1
  cases r with
  | error err =>
    rw [andThen_of_error f g w w1 err hfw]
    exact h1
  | ok x =>
    rw [andThen_of_ok f g w w1 hfw]
    exact (hg w1).trans h1

/-! ## The plans of the three writing steps -/

theorem cluster_namespaces_ne (cl : Cluster) (obj : V1Namespace) :
    ({ cl with namespaces := cl.namespaces ++ [obj] } : Cluster) ≠ cl := by
  intro h
  exact append_singleton_ne _ _ (congrArg Cluster.namespaces h)

theorem cluster_smcps_ne (cl : Cluster) (obj : ServiceMeshControlPlane) :
    ({ cl with smcps := cl.smcps ++ [obj] } : Cluster) ≠ cl := by
  intro h
  exact append_singleton_ne _ _ (congrArg Cluster.smcps h)

theorem cluster_smmrs_ne (cl : Cluster) (obj : ServiceMeshMemberRoll) :
    ({ cl with smmrs := cl.smmrs ++ [obj] } : Cluster) ≠ cl := by
  intro h
  exact append_singleton_ne _ _ (congrArg Cluster.smmrs h)

/-- Replacing a stored object by a different one changes the store. -/
theorem storeReplace_ne {α : Type} (keyOf : α → ObjectKey) (s : List α) (obj current : α)
    (hget : storeGet keyOf (keyOf obj) s = some current) (hne : obj ≠ current) :
    storeReplace keyOf obj s ≠ s := by
  intro h
  have h1 := storeGet_storeReplace_self keyOf s obj current hget
  rw [h, hget] at h1
  exact hne (Option.some.inj h1).symm

theorem ingressNamespacePlan_write (ns : String) (v : Option ApiError) (cl : Cluster)
    (c2 : ApiCall) (s : Except GoError Cluster)
    (h : ingressNamespacePlan ns v cl = .write c2 s) :
    c2 = .createNamespace { Name := ingressNamespace ns } ∧
    s = servedCreateNamespace { Name := ingressNamespace ns } cl ∧
    (v = none → storeGet namespaceKey { Namespace := "", Name := ingressNamespace ns }
      cl.namespaces = none) := by
  unfold ingressNamespacePlan at h
  cases v with
  | some e =>
    simp only at h
    split at h
    · cases h
      exact ⟨rfl, rfl, fun hv => by cases hv⟩
    · cases h
  | none =>
    simp only at h
    split at h
    · cases h
    · rename_i hs
      cases h
      exact ⟨rfl, rfl, fun _ => hs⟩

theorem ingressNamespacePlan_lookup (ns : String) (v : Option ApiError) (cl : Cluster)
    (c2 : ApiCall) (s : Except GoError Cluster)
    (h : ingressNamespacePlan ns v cl = .write c2 s) :
    lookupOf c2 = .getNamespace { Namespace := "", Name := ingressNamespace ns } := by
  obtain ⟨rfl, -, -⟩ := ingressNamespacePlan_write ns v cl c2 s h
  rfl

theorem ingressNamespacePlan_served (ns : String) (cl : Cluster)
    (c2 : ApiCall) (s : Except GoError Cluster)
    (h : ingressNamespacePlan ns none cl = .write c2 s) :
    ∃ cl2, s = .ok cl2 ∧ cl2 ≠ cl := by
  obtain ⟨-, rfl, hnone⟩ := ingressNamespacePlan_write ns none cl c2 s h
  have hk : namespaceKey { Name := ingressNamespace ns }
      = { Namespace := "", Name := ingressNamespace ns } := rfl
  refine ⟨{ cl with namespaces := cl.namespaces ++ [{ Name := ingressNamespace ns }] }, ?_,
    cluster_namespaces_ne _ _⟩
  simp [servedCreateNamespace, hk, hnone rfl]

/-- The writes in the plan of `manifestApplyAll`. -/
theorem controlPlanePlan_write (rendered : ServiceMeshControlPlane) (v : Option ApiError)
    (cl : Cluster) (c2 : ApiCall) (s : Except GoError Cluster)
    (h : controlPlanePlan rendered v cl = .write c2 s) :
    (c2 = .createSMCP rendered ∧ s = servedCreateSMCP rendered cl ∧
      (v = none → storeGet smcpKey (smcpKey rendered) cl.smcps = none)) ∨
    (∃ current, v = none ∧ storeGet smcpKey (smcpKey rendered) cl.smcps = some current ∧
      ({ current with Labels := mergeLabels current.Labels rendered.Labels }
        : ServiceMeshControlPlane) ≠ current ∧
      c2 = .updateSMCP { current with Labels := mergeLabels current.Labels rendered.Labels } ∧
      s = servedUpdateSMCP
        { current with Labels := mergeLabels current.Labels rendered.Labels } cl) := by
  unfold controlPlanePlan at h
  cases v with
  | some e =>
    simp only at h
    split at h
    · cases h
      exact Or.inl ⟨rfl, rfl, fun hv => by cases hv⟩
    · cases h
  | none =>
    simp only at h
    split at h
    · rename_i hs
      cases h
      exact Or.inl ⟨rfl, rfl, fun _ => hs⟩
    · rename_i current hs
      split at h
      · cases h
      · rename_i hm
        cases h
        exact Or.inr ⟨current, rfl, hs, hm, rfl, rfl⟩

theorem controlPlanePlan_lookup (rendered : ServiceMeshControlPlane) (v : Option ApiError)
    (cl : Cluster) (c2 : ApiCall) (s : Except GoError Cluster)
    (h : controlPlanePlan rendered v cl = .write c2 s) :
    lookupOf c2 = .getSMCP (smcpKey rendered) := by
  rcases controlPlanePlan_write rendered v cl c2 s h with ⟨rfl, -, -⟩ | ⟨current, -, hs, -, rfl, -⟩
  · rfl
  · have hk := storeGet_key smcpKey _ _ _ hs
    show ApiCall.getSMCP (smcpKey current) = _
    rw [hk]

theorem controlPlanePlan_served (rendered : ServiceMeshControlPlane) (cl : Cluster)
    (c2 : ApiCall) (s : Except GoError Cluster)
    (h : controlPlanePlan rendered none cl = .write c2 s) :
    ∃ cl2, s = .ok cl2 ∧ cl2 ≠ cl := by
  rcases controlPlanePlan_write rendered none cl c2 s h with
    ⟨-, rfl, hnone⟩ | ⟨current, -, hs, hm, -, rfl⟩
  · refine ⟨{ cl with smcps := cl.smcps ++ [rendered] }, ?_, cluster_smcps_ne _ _⟩
    simp [servedCreateSMCP, hnone rfl]
  · have hk0 : smcpKey current = smcpKey rendered := storeGet_key smcpKey _ _ _ hs
    have hk : smcpKey { current with Labels := mergeLabels current.Labels rendered.Labels }
        = smcpKey rendered := hk0
    refine ⟨{ cl with smcps := (storeReplace smcpKey
      { current with Labels := mergeLabels current.Labels rendered.Labels } cl.smcps) }, ?_, ?_⟩
    · simp [servedUpdateSMCP, hk, hs]
    · intro heq
      exact storeReplace_ne smcpKey cl.smcps _ current (by rw [hk]; exact hs) hm
        (congrArg Cluster.smcps heq)

/-- The writes in the plan of `installServiceMeshMemberRoll`. -/
theorem memberRollPlan_write (ks : KnativeServing) (v : Option ApiError)
    (cl : Cluster) (c2 : ApiCall) (s : Except GoError Cluster)
    (h : memberRollPlan ks v cl = .write c2 s) :
    (c2 = .createSMMR (freshMemberRoll ks) ∧ s = servedCreateSMMR (freshMemberRoll ks) cl ∧
      (v = none → storeGet smmrKey (memberRollKey ks) cl.smmrs = none)) ∨
    (∃ smmr, v = none ∧ storeGet smmrKey (memberRollKey ks) cl.smmrs = some smmr ∧
      ks.Namespace ∉ smmr.Spec.Members ∧
      c2 = .updateSMMR { smmr with Spec := { Members := smmr.Spec.Members ++ [ks.Namespace] } } ∧
      s = servedUpdateSMMR
        { smmr with Spec := { Members := smmr.Spec.Members ++ [ks.Namespace] } } cl) := by
  unfold memberRollPlan at h
  cases v with
  | some e =>
    simp only at h
    split at h
    · cases h
      exact Or.inl ⟨rfl, rfl, fun hv => by cases hv⟩
    · cases h
  | none =>
    simp only at h
    split at h
    · rename_i hs
      cases h
      exact Or.inl ⟨rfl, rfl, fun _ => hs⟩
    · rename_i smmr hs
      split at h
      · cases h
      · rename_i hm
        cases h
        exact Or.inr ⟨smmr, rfl, hs, hm, rfl, rfl⟩

theorem memberRollPlan_lookup (ks : KnativeServing) (v : Option ApiError)
    (cl : Cluster) (c2 : ApiCall) (s : Except GoError Cluster)
    (h : memberRollPlan ks v cl = .write c2 s) :
    lookupOf c2 = .getSMMR (memberRollKey ks) := by
  rcases memberRollPlan_write ks v cl c2 s h with ⟨rfl, -, -⟩ | ⟨smmr, -, hs, -, rfl, -⟩
  · rfl
  · have hk := storeGet_key smmrKey _ _ _ hs
    show ApiCall.getSMMR (smmrKey smmr) = _
    rw [hk]

theorem memberRollPlan_served (ks : KnativeServing) (cl : Cluster)
    (c2 : ApiCall) (s : Except GoError Cluster)
    (h : memberRollPlan ks none cl = .write c2 s) :
    ∃ cl2, s = .ok cl2 ∧ cl2 ≠ cl := by
  rcases memberRollPlan_write ks none cl c2 s h with
    ⟨-, rfl, hnone⟩ | ⟨smmr, -, hs, hm, -, rfl⟩
  · refine ⟨{ cl with smmrs := cl.smmrs ++ [freshMemberRoll ks] }, ?_, cluster_smmrs_ne _ _⟩
    have hk : smmrKey (freshMemberRoll ks) = memberRollKey ks := rfl
    simp [servedCreateSMMR, hk, hnone rfl]
  · have hk0 : smmrKey smmr = memberRollKey ks := storeGet_key smmrKey _ _ _ hs
    have hk : smmrKey { smmr with Spec := { Members := smmr.Spec.Members ++ [ks.Namespace] } }
        = memberRollKey ks := hk0
    refine ⟨{ cl with smmrs := (storeReplace smmrKey
      { smmr with Spec := { Members := smmr.Spec.Members ++ [ks.Namespace] } } cl.smmrs) }, ?_, ?_⟩
    · simp [servedUpdateSMMR, hk, hs]
    · intro heq
      refine storeReplace_ne smmrKey cl.smmrs _ smmr (by rw [hk]; exact hs) ?_
        (congrArg Cluster.smmrs heq)
      intro hsame
      have := congrArg (fun o => o.Spec.Members) hsame
      simp only at this
      exact append_singleton_ne _ _ this

/-! ## Guarded steps -/

section Guarded
variable (guard : ManifestEnv → Option GoError) (post : GoError → GoError) (f : Step)

theorem guarded_of_stopped (w : World) (err : GoError) (h : guard w.manifest = some err) :
    guarded guard post f w = (.error err, w) := by
  simp [guarded, h]

theorem guarded_of_error (w w1 : World) (err : GoError) (h : guard w.manifest = none)
    (hf : f w = (.error err, w1)) : guarded guard post f w = (.error (post err), w1) := by
  simp [guarded, h, hf]

theorem guarded_of_ok (w w1 : World) (h : guard w.manifest = none)
    (hf : f w = (.ok (), w1)) : guarded guard post f w = (.ok (), w1) := by
  simp [guarded, h, hf]

theorem guarded_world (w : World) (h : guard w.manifest = none) :
    (guarded guard post f w).2 = (f w).2 := by
  rcases hf : f w with ⟨r, w1⟩
  cases r with
  | error err => rw [guarded_of_error guard post f w w1 err h hf]
  | ok x => rw [guarded_of_ok guard post f w w1 h hf]

theorem guarded_fails_iff (w : World) (h : guard w.manifest = none) :
    (∃ err, (guarded guard post f w).1 = .error err) ↔ ∃ err, (f w).1 = .error err := by
  rcases hf : f w with ⟨r, w1⟩
  cases r with
  | error err =>
    rw [guarded_of_error guard post f w w1 err h hf]
    exact ⟨fun _ => ⟨err, rfl⟩, fun _ => ⟨post err, rfl⟩⟩
  | ok x =>
    rw [guarded_of_ok guard post f w w1 h hf]

theorem guarded_shaped (hf : Shaped f) : Shaped (guarded guard post f) := by
  intro w
  cases h : guard w.manifest with
  | some err =>
    rw [guarded_of_stopped guard post f w err h]
    exact ⟨⟨[], by simp, by simp⟩, rfl⟩
  | none =>
    rw [guarded_world guard post f w h]
    exact hf w

theorem guarded_conforms (p : ApiCall → Option ApiError) (w : World)
    (h : guard w.manifest = none) :
    Conforms p (guarded guard post f) w ↔ Conforms p f w := by
  unfold Conforms
  rw [guarded_world guard post f w h]

end Guarded

/-- Idempotence of a pipeline whose first step is a guarded lookup-then-write step, from
the facts about its plan. -/
theorem idem_andThen_plan {p : ApiCall → Option ApiError}
    (guard : ManifestEnv → Option GoError) (post : GoError → GoError)
    (c1 : ApiCall) (plan : Option ApiError → Cluster → Plan) {g : Step}
    (S : Cluster → Prop) (hg : Shaped g)
    (hc1 : ApiCall.isWrite c1 = false)
    (hlook : ∀ v cl c2 s, plan v cl = .write c2 s → lookupOf c2 = c1)
    (hserved : ∀ cl c2 s, plan none cl = .write c2 s → ∃ cl2, s = .ok cl2 ∧ cl2 ≠ cl)
    (hstop : ∀ v cl, plan v cl = .stop (.ok ()) → S cl)
    (hwrite : ∀ v cl c2 cl2, plan v cl = .write c2 (.ok cl2) → S cl2)
    (hsettled : ∀ v cl c2 cl2, S cl → plan v cl ≠ .write c2 (.ok cl2))
    (pres : ∀ w, S w.cluster → S (g w).2.cluster)
    (ihg : Idem p g) :
    Idem p (andThen (guarded guard post (lookupThenWrite c1 plan)) g) := by
  have hL : Shaped (lookupThenWrite c1 plan) := lookupThenWrite_shaped c1 plan
  apply idem_andThen S (guarded_shaped guard post _ hL) hg
  · intro w w1 h
    cases hgd : guard w.manifest with
    | some err =>
      rw [guarded_of_stopped guard post _ w err hgd] at h
      simp at h
    | none =>
      rcases hf : lookupThenWrite c1 plan w with ⟨r, w2⟩
      cases r with
      | error err =>
        rw [guarded_of_error guard post _ w w2 err hgd hf] at h
        simp at h
      | ok x =>
        rw [guarded_of_ok guard post _ w w2 hgd hf] at h
        simp only [Prod.mk.injEq, true_and] at h
        subst h
        rcases lookupThenWrite_ok c1 plan w w2 hf with ⟨hp, hc⟩ | ⟨c2, hp⟩
        · rw [hc]
          exact hstop _ _ hp
        · exact hwrite _ _ _ _ hp
  · intro u hS
    cases hgd : guard u.manifest with
    | some err =>
      rw [guarded_of_stopped guard post _ u err hgd]
    | none =>
      rw [guarded_world guard post _ u hgd]
      exact lookupThenWrite_settled c1 plan u (fun v c2 cl2 => hsettled v _ c2 cl2 hS)
  · intro u err u1 h
    cases hgd : guard u.manifest with
    | some err2 =>
      rw [guarded_of_stopped guard post _ u err2 hgd] at h
      simp only [Prod.mk.injEq] at h
      rw [← h.2]
    | none =>
      have hw := guarded_world guard post (lookupThenWrite c1 plan) u hgd
      rw [h] at hw
      simp only at hw
      rcases hf : lookupThenWrite c1 plan u with ⟨r, u2⟩
      rw [hf] at hw
      simp only at hw
      subst hw
      cases r with
      | error err3 => exact lookupThenWrite_failed c1 plan u u1 err3 hf
      | ok x =>
        rw [guarded_of_ok guard post _ u u1 hgd hf] at h
        simp at h
  · intro w u hw hu hc hm hfail
    cases hgd : guard w.manifest with
    | some err =>
      have hgu : guard u.manifest = some err := by rw [hm, hgd]
      rw [guarded_of_stopped guard post _ u err hgu]
      exact ⟨err, rfl⟩
    | none =>
      have hgu : guard u.manifest = none := by rw [hm, hgd]
      rw [guarded_fails_iff guard post _ w hgd] at hfail
      rw [guarded_fails_iff guard post _ u hgu]
      rw [guarded_conforms guard post _ p w hgd] at hw
      rw [guarded_conforms guard post _ p u hgu] at hu
      rw [lookupThenWrite_det c1 plan p w u hw hu hc]
      exact hfail
  · intro u hu hsame
    cases hgd : guard u.manifest with
    | some err =>
      rw [guarded_of_stopped guard post _ u err hgd]
      simp [callsSince_self]
    | none =>
      rw [guarded_conforms guard post _ p u hgd] at hu
      rw [guarded_world guard post _ u hgd] at hsame ⊢
      exact lookupThenWrite_writes c1 plan p hc1 hlook hserved u hu hsame
  · exact pres
  · exact ihg

/-! ## Served writes -/

theorem servedCreateNamespace_ok (obj : V1Namespace) (cl cl2 : Cluster)
    (h : servedCreateNamespace obj cl = .ok cl2) :
    storeGet namespaceKey (namespaceKey obj) cl.namespaces = none ∧
    cl2 = { cl with namespaces := cl.namespaces ++ [obj] } := by
  unfold servedCreateNamespace at h
  split at h
  · cases h
  · rename_i hs
    cases h
    exact ⟨hs, rfl⟩

theorem servedCreateSMCP_ok (obj : ServiceMeshControlPlane) (cl cl2 : Cluster)
    (h : servedCreateSMCP obj cl = .ok cl2) :
    storeGet smcpKey (smcpKey obj) cl.smcps = none ∧
    cl2 = { cl with smcps := cl.smcps ++ [obj] } := by
  unfold servedCreateSMCP at h
  split at h
  · cases h
  · rename_i hs
    cases h
    exact ⟨hs, rfl⟩

theorem servedUpdateSMCP_ok (obj : ServiceMeshControlPlane) (cl cl2 : Cluster)
    (h : servedUpdateSMCP obj cl = .ok cl2) :
    (∃ x, storeGet smcpKey (smcpKey obj) cl.smcps = some x) ∧
    cl2 = { cl with smcps := storeReplace smcpKey obj cl.smcps } := by
  unfold servedUpdateSMCP at h
  split at h
  · cases h
  · rename_i x hs
    cases h
    exact ⟨⟨x, hs⟩, rfl⟩

theorem servedCreateSMMR_ok (obj : ServiceMeshMemberRoll) (cl cl2 : Cluster)
    (h : servedCreateSMMR obj cl = .ok cl2) :
    storeGet smmrKey (smmrKey obj) cl.smmrs = none ∧
    cl2 = { cl with smmrs := cl.smmrs ++ [obj] } := by
  unfold servedCreateSMMR at h
  split at h
  · cases h
  · rename_i hs
    cases h
    exact ⟨hs, rfl⟩

theorem servedUpdateSMMR_ok (obj : ServiceMeshMemberRoll) (cl cl2 : Cluster)
    (h : servedUpdateSMMR obj cl = .ok cl2) :
    (∃ x, storeGet smmrKey (smmrKey obj) cl.smmrs = some x) ∧
    cl2 = { cl with smmrs := storeReplace smmrKey obj cl.smmrs } := by
  unfold servedUpdateSMMR at h
  split at h
  · cases h
  · rename_i x hs
    cases h
    exact ⟨⟨x, hs⟩, rfl⟩

/-! ## What a successful step establishes -/

/-- The ingress namespace of the tenant exists. -/
theorem ingressNamespacePlan_facts (ns : String) :
    (∀ v cl, ingressNamespacePlan ns v cl = .stop (.ok ()) →
      ∃ o, storeGet namespaceKey { Namespace := "", Name := ingressNamespace ns }
        cl.namespaces = some o) ∧
    (∀ v cl c2 cl2, ingressNamespacePlan ns v cl = .write c2 (.ok cl2) →
      ∃ o, storeGet namespaceKey { Namespace := "", Name := ingressNamespace ns }
        cl2.namespaces = some o) ∧
    (∀ v cl c2 cl2,
      (∃ o, storeGet namespaceKey { Namespace := "", Name := ingressNamespace ns }
        cl.namespaces = some o) →
      ingressNamespacePlan ns v cl ≠ .write c2 (.ok cl2)) := by
  have hk : namespaceKey { Name := ingressNamespace ns }
      = { Namespace := "", Name := ingressNamespace ns } := rfl
  refine ⟨?_, ?_, ?_⟩
  · intro v cl h
    unfold ingressNamespacePlan at h
    cases v with
    | some e =>
      simp only at h
      split at h <;> cases h
    | none =>
      simp only at h
      split at h
      · rename_i o hs
        exact ⟨o, hs⟩
      · cases h
  · intro v cl c2 cl2 h
    obtain ⟨-, hs, -⟩ := ingressNamespacePlan_write ns v cl c2 _ h
    obtain ⟨hnone, rfl⟩ := servedCreateNamespace_ok _ _ _ hs.symm
    exact ⟨{ Name := ingressNamespace ns },
      (storeGet_append_of_none namespaceKey _ _ _ hnone).trans (by simp [namespaceKey])⟩
  · intro v cl c2 cl2 hS h
    obtain ⟨o, ho⟩ := hS
    obtain ⟨-, hs, -⟩ := ingressNamespacePlan_write ns v cl c2 _ h
    obtain ⟨hnone, -⟩ := servedCreateNamespace_ok _ _ _ hs.symm
    rw [hk, ho] at hnone
    cases hnone

/-- The control plane of the tenant exists and carries the owner labels. -/
theorem controlPlanePlan_facts (ks : KnativeServing) :
    (∀ v cl, controlPlanePlan (renderedControlPlane ks) v cl = .stop (.ok ()) →
      ∃ o, storeGet smcpKey (controlPlaneKey ks) cl.smcps = some o ∧
        mergeLabels o.Labels (ownerLabels ks) = o.Labels) ∧
    (∀ v cl c2 cl2, controlPlanePlan (renderedControlPlane ks) v cl = .write c2 (.ok cl2) →
      ∃ o, storeGet smcpKey (controlPlaneKey ks) cl2.smcps = some o ∧
        mergeLabels o.Labels (ownerLabels ks) = o.Labels) ∧
    (∀ v cl c2 cl2,
      (∃ o, storeGet smcpKey (controlPlaneKey ks) cl.smcps = some o ∧
        mergeLabels o.Labels (ownerLabels ks) = o.Labels) →
      controlPlanePlan (renderedControlPlane ks) v cl ≠ .write c2 (.ok cl2)) := by
  have hk : smcpKey (renderedControlPlane ks) = controlPlaneKey ks := rfl
  have hl : (renderedControlPlane ks).Labels = ownerLabels ks := rfl
  refine ⟨?_, ?_, ?_⟩
  · intro v cl h
    unfold controlPlanePlan at h
    cases v with
    | some e =>
      simp only at h
      split at h <;> cases h
    | none =>
      simp only at h
      split at h
      · cases h
      · rename_i current hs
        split at h
        · rename_i hm
          rw [hk] at hs
          refine ⟨current, hs, ?_⟩
          have := congrArg ServiceMeshControlPlane.Labels hm
          simp only [hl] at this
          exact this
        · cases h
  · intro v cl c2 cl2 h
    rcases controlPlanePlan_write _ v cl c2 _ h with ⟨-, hs, -⟩ | ⟨current, -, hget, -, -, hs⟩
    · obtain ⟨hnone, rfl⟩ := servedCreateSMCP_ok _ _ _ hs.symm
      refine ⟨renderedControlPlane ks, ?_, mergeLabels_self ks⟩
      rw [hk] at hnone
      exact (storeGet_append_of_none smcpKey _ _ _ hnone).trans (by simp [hk])
    · obtain ⟨⟨x, hx⟩, rfl⟩ := servedUpdateSMCP_ok _ _ _ hs.symm
      have hk0 : smcpKey current = controlPlaneKey ks := storeGet_key smcpKey _ _ _ hget
      have hk2 : smcpKey { current with
          Labels := mergeLabels current.Labels (renderedControlPlane ks).Labels }
          = controlPlaneKey ks := hk0
      refine ⟨{ current with
        Labels := mergeLabels current.Labels (renderedControlPlane ks).Labels }, ?_, ?_⟩
      · have := storeGet_storeReplace_self smcpKey cl.smcps _ x hx
        rw [hk2] at this
        exact this
      · simp only [hl]
        exact mergeLabels_idem current.Labels ks
  · intro v cl c2 cl2 hS h
    obtain ⟨o, ho, hmerged⟩ := hS
    rcases controlPlanePlan_write _ v cl c2 _ h with ⟨-, hs, -⟩ | ⟨current, -, hget, hm, -, hs⟩
    · obtain ⟨hnone, -⟩ := servedCreateSMCP_ok _ _ _ hs.symm
      rw [hk, ho] at hnone
      cases hnone
    · rw [hk, ho] at hget
      cases hget
      apply hm
      simp only [hl, hmerged]

/-- The member roll of the tenant exists and has the tenant among its members. -/
theorem memberRollPlan_facts (ks : KnativeServing) :
    (∀ v cl, memberRollPlan ks v cl = .stop (.ok ()) →
      ∃ o, storeGet smmrKey (memberRollKey ks) cl.smmrs = some o ∧
        ks.Namespace ∈ o.Spec.Members) ∧
    (∀ v cl c2 cl2, memberRollPlan ks v cl = .write c2 (.ok cl2) →
      ∃ o, storeGet smmrKey (memberRollKey ks) cl2.smmrs = some o ∧
        ks.Namespace ∈ o.Spec.Members) ∧
    (∀ v cl c2 cl2,
      (∃ o, storeGet smmrKey (memberRollKey ks) cl.smmrs = some o ∧
        ks.Namespace ∈ o.Spec.Members) →
      memberRollPlan ks v cl ≠ .write c2 (.ok cl2)) := by
  have hk : smmrKey (freshMemberRoll ks) = memberRollKey ks := rfl
  refine ⟨?_, ?_, ?_⟩
  · intro v cl h
    unfold memberRollPlan at h
    cases v with
    | some e =>
      simp only at h
      split at h <;> cases h
    | none =>
      simp only at h
      split at h
      · cases h
      · rename_i smmr hs
        split at h
        · rename_i hm
          exact ⟨smmr, hs, hm⟩
        · cases h
  · intro v cl c2 cl2 h
    rcases memberRollPlan_write _ v cl c2 _ h with ⟨-, hs, -⟩ | ⟨smmr, -, hget, -, -, hs⟩
    · obtain ⟨hnone, rfl⟩ := servedCreateSMMR_ok _ _ _ hs.symm
      refine ⟨freshMemberRoll ks, ?_, by simp [freshMemberRoll]⟩
      rw [hk] at hnone
      exact (storeGet_append_of_none smmrKey _ _ _ hnone).trans (by simp [hk])
    · obtain ⟨⟨x, hx⟩, rfl⟩ := servedUpdateSMMR_ok _ _ _ hs.symm
      have hk0 : smmrKey smmr = memberRollKey ks := storeGet_key smmrKey _ _ _ hget
      have hk2 : smmrKey { smmr with Spec := { Members := smmr.Spec.Members ++ [ks.Namespace] } }
          = memberRollKey ks := hk0
      refine ⟨{ smmr with Spec := { Members := smmr.Spec.Members ++ [ks.Namespace] } }, ?_,
        by simp⟩
      have := storeGet_storeReplace_self smmrKey cl.smmrs _ x hx
      rw [hk2] at this
      exact this
  · intro v cl c2 cl2 hS h
    obtain ⟨o, ho, hmem⟩ := hS
    rcases memberRollPlan_write _ v cl c2 _ h with ⟨-, hs, -⟩ | ⟨smmr, -, hget, hm, -, hs⟩
    · obtain ⟨hnone, -⟩ := servedCreateSMMR_ok _ _ _ hs.symm
      rw [hk, ho] at hnone
      cases hnone
    · rw [ho] at hget
      cases hget
      exact hm hmem

/-! ## `ApplyServiceMesh` as a pipeline of guarded steps -/

theorem ApplyServiceMesh_eq_steps (ks : KnativeServing) :
    ApplyServiceMesh ks =
      andThen (guarded (fun _ => none) id (createIngressNamespace ks.Namespace))
        (andThen (guarded manifestFailure id (manifestApplyAll (renderedControlPlane ks)))
          (andThen (guarded (fun _ => none) id (isServiceMeshControlPlaneReady ks.Namespace))
            (andThen
              (guarded (fun _ => none) (classifyConflict ks) (installServiceMeshMemberRoll ks))
              (isServiceMeshMemberRollReady ks.Namespace)))) := by
  funext w
  unfold ApplyServiceMesh
  simp only [andThen, guarded, installServiceMeshControlPlane_eq, classifyConflict, id]
  rcases h1 : createIngressNamespace ks.Namespace w with ⟨r1, w1⟩
  cases r1 with
  | error err => rfl
  | ok x1 =>
    simp only
    cases hmf : manifestFailure w1.manifest with
    | some err => rfl
    | none =>
      simp only
      rcases h2 : manifestApplyAll (renderedControlPlane ks) w1 with ⟨r2, w2⟩
      cases r2 with
      | error err => rfl
      | ok x2 =>
        simp only
        rcases h3 : isServiceMeshControlPlaneReady ks.Namespace w2 with ⟨r3, w3⟩
        cases r3 with
        | error err => rfl
        | ok x3 =>
          simp only
          rcases h4 : installServiceMeshMemberRoll ks w3 with ⟨r4, w4⟩
          cases r4 with
          | error err =>
            simp only
            split <;> rfl
          | ok x4 =>
            simp only
            rcases h5 : isServiceMeshMemberRollReady ks.Namespace w4 with ⟨r5, w5⟩
            cases r5 <;> rfl

/-! ## Idempotence of `ApplyServiceMesh` against an unchanged API server -/

theorem guarded_keeps {α : Type} (part : Cluster → α) (guard : ManifestEnv → Option GoError)
    (post : GoError → GoError) (f : Step)
    (hf : ∀ w, part (f w).2.cluster = part w.cluster) (w : World) :
    part (guarded guard post f w).2.cluster = part w.cluster := by
  cases h : guard w.manifest with
  | some err => rw [guarded_of_stopped guard post f w err h]
  | none =>
    rw [guarded_world guard post f w h]
    exact hf w

theorem isServiceMeshMemberRollReady_readOnly (ns : String) (u : World) :
    (isServiceMeshMemberRollReady ns u).2.cluster = u.cluster ∧
    ∀ call ∈ callsSince u (isServiceMeshMemberRollReady ns u).2,
      ApiCall.isWrite call = false := by
  rw [isServiceMeshMemberRollReady_eq_plan]
  exact lookupThenWrite_readOnly (.getSMMR { Namespace := ingressNamespace ns, Name := smmrName })
    (memberRollReadyPlan ns) (fun v cl => ⟨_, rfl⟩) rfl u

theorem isServiceMeshControlPlaneReady_readOnly (ns : String) (u : World) :
    (isServiceMeshControlPlaneReady ns u).2.cluster = u.cluster := by
  rw [isServiceMeshControlPlaneReady_eq_plan]
  exact (lookupThenWrite_readOnly
    (.getSMCP { Namespace := ingressNamespace ns, Name := smcpName })
    (controlPlaneReadyPlan ns) (fun v cl => ⟨_, rfl⟩) rfl u).1

theorem isServiceMeshMemberRollReady_shaped (ns : String) :
    Shaped (isServiceMeshMemberRollReady ns) := by
  rw [isServiceMeshMemberRollReady_eq_plan]
  exact lookupThenWrite_shaped _ _

theorem isServiceMeshControlPlaneReady_shaped (ns : String) :
    Shaped (isServiceMeshControlPlaneReady ns) := by
  rw [isServiceMeshControlPlaneReady_eq_plan]
  exact lookupThenWrite_shaped _ _

theorem installServiceMeshMemberRoll_shaped (ks : KnativeServing) :
    Shaped (installServiceMeshMemberRoll ks) := by
  rw [installServiceMeshMemberRoll_eq_plan]
  exact lookupThenWrite_shaped _ _

theorem createIngressNamespace_shaped (ns : String) : Shaped (createIngressNamespace ns) := by
  rw [createIngressNamespace_eq_plan]
  exact lookupThenWrite_shaped _ _

theorem manifestApplyAll_shaped (rendered : ServiceMeshControlPlane) :
    Shaped (manifestApplyAll rendered) := by
  rw [manifestApplyAll_eq_plan]
  exact lookupThenWrite_shaped _ _

theorem installServiceMeshMemberRoll_keeps (ks : KnativeServing) (w : World) :
    (installServiceMeshMemberRoll ks w).2.cluster.namespaces = w.cluster.namespaces ∧
    (installServiceMeshMemberRoll ks w).2.cluster.smcps = w.cluster.smcps := by
  rw [installServiceMeshMemberRoll_eq_plan]
  constructor
  · apply lookupThenWrite_keeps _ _ Cluster.namespaces
    intro v cl c2 cl2 h
    rcases memberRollPlan_write _ v cl c2 _ h with ⟨-, hs, -⟩ | ⟨smmr, -, -, -, -, hs⟩
    · rw [(servedCreateSMMR_ok _ _ _ hs.symm).2]
    · rw [(servedUpdateSMMR_ok _ _ _ hs.symm).2]
  · apply lookupThenWrite_keeps _ _ Cluster.smcps
    intro v cl c2 cl2 h
    rcases memberRollPlan_write _ v cl c2 _ h with ⟨-, hs, -⟩ | ⟨smmr, -, -, -, -, hs⟩
    · rw [(servedCreateSMMR_ok _ _ _ hs.symm).2]
    · rw [(servedUpdateSMMR_ok _ _ _ hs.symm).2]

theorem manifestApplyAll_keeps (rendered : ServiceMeshControlPlane) (w : World) :
    (manifestApplyAll rendered w).2.cluster.namespaces = w.cluster.namespaces := by
  rw [manifestApplyAll_eq_plan]
  apply lookupThenWrite_keeps _ _ Cluster.namespaces
  intro v cl c2 cl2 h
  rcases controlPlanePlan_write _ v cl c2 _ h with ⟨-, hs, -⟩ | ⟨current, -, -, -, -, hs⟩
  · rw [(servedCreateSMCP_ok _ _ _ hs.symm).2]
  · rw [(servedUpdateSMCP_ok _ _ _ hs.symm).2]

/-- Steps 4 and 5 are idempotent against an unchanged server. -/
theorem memberRoll_steps_idem (p : ApiCall → Option ApiError) (ks : KnativeServing) :
    Idem p (andThen
      (guarded (fun _ => none) (classifyConflict ks) (installServiceMeshMemberRoll ks))
      (isServiceMeshMemberRollReady ks.Namespace)) := by
  rw [installServiceMeshMemberRoll_eq_plan]
  obtain ⟨hstop, hwrite, hsettled⟩ := memberRollPlan_facts ks
  exact idem_andThen_plan _ _ _ _
    (fun cl => ∃ o, storeGet smmrKey (memberRollKey ks) cl.smmrs = some o ∧
      ks.Namespace ∈ o.Spec.Members)
    (isServiceMeshMemberRollReady_shaped _) rfl
    (memberRollPlan_lookup ks) (memberRollPlan_served ks) hstop hwrite hsettled
    (fun w hS => by rw [(isServiceMeshMemberRollReady_readOnly _ w).1]; exact hS)
    (idem_of_readOnly (isServiceMeshMemberRollReady_readOnly _))

theorem memberRoll_steps_shaped (ks : KnativeServing) :
    Shaped (andThen
      (guarded (fun _ => none) (classifyConflict ks) (installServiceMeshMemberRoll ks))
      (isServiceMeshMemberRollReady ks.Namespace)) :=
  shaped_andThen (guarded_shaped _ _ _ (installServiceMeshMemberRoll_shaped ks))
    (isServiceMeshMemberRollReady_shaped _)

theorem memberRoll_steps_keeps (ks : KnativeServing) (w : World) :
    (andThen
      (guarded (fun _ => none) (classifyConflict ks) (installServiceMeshMemberRoll ks))
      (isServiceMeshMemberRollReady ks.Namespace) w).2.cluster.namespaces
        = w.cluster.namespaces ∧
    (andThen
      (guarded (fun _ => none) (classifyConflict ks) (installServiceMeshMemberRoll ks))
      (isServiceMeshMemberRollReady ks.Namespace) w).2.cluster.smcps = w.cluster.smcps := by
  constructor
  · exact keeps_andThen Cluster.namespaces
      (guarded_keeps Cluster.namespaces _ _ _
        (fun w => (installServiceMeshMemberRoll_keeps ks w).1))
      (fun w => by rw [(isServiceMeshMemberRollReady_readOnly _ w).1]) w
  · exact keeps_andThen Cluster.smcps
      (guarded_keeps Cluster.smcps _ _ _
        (fun w => (installServiceMeshMemberRoll_keeps ks w).2))
      (fun w => by rw [(isServiceMeshMemberRollReady_readOnly _ w).1]) w

/-- Steps 3 to 5 are idempotent against an unchanged server. -/
theorem ready_steps_idem (p : ApiCall → Option ApiError) (ks : KnativeServing) :
    Idem p (andThen (guarded (fun _ => none) id (isServiceMeshControlPlaneReady ks.Namespace))
      (andThen
        (guarded (fun _ => none) (classifyConflict ks) (installServiceMeshMemberRoll ks))
        (isServiceMeshMemberRollReady ks.Namespace))) := by
  rw [isServiceMeshControlPlaneReady_eq_plan]
  exact idem_andThen_plan _ _ _ _ (fun _ => True) (memberRoll_steps_shaped ks) rfl
    (fun v cl c2 s h => by cases h) (fun cl c2 s h => by cases h)
    (fun _ _ _ => trivial) (fun _ _ _ _ _ => trivial)
    (fun v cl c2 cl2 _ h => by cases h)
    (fun _ _ => trivial) (memberRoll_steps_idem p ks)

theorem ready_steps_shaped (ks : KnativeServing) :
    Shaped (andThen (guarded (fun _ => none) id (isServiceMeshControlPlaneReady ks.Namespace))
      (andThen
        (guarded (fun _ => none) (classifyConflict ks) (installServiceMeshMemberRoll ks))
        (isServiceMeshMemberRollReady ks.Namespace))) :=
  shaped_andThen (guarded_shaped _ _ _ (isServiceMeshControlPlaneReady_shaped _))
    (memberRoll_steps_shaped ks)

theorem ready_steps_keeps (ks : KnativeServing) (w : World) :
    (andThen (guarded (fun _ => none) id (isServiceMeshControlPlaneReady ks.Namespace))
      (andThen
        (guarded (fun _ => none) (classifyConflict ks) (installServiceMeshMemberRoll ks))
        (isServiceMeshMemberRollReady ks.Namespace)) w).2.cluster.namespaces
        = w.cluster.namespaces ∧
    (andThen (guarded (fun _ => none) id (isServiceMeshControlPlaneReady ks.Namespace))
      (andThen
        (guarded (fun _ => none) (classifyConflict ks) (installServiceMeshMemberRoll ks))
        (isServiceMeshMemberRollReady ks.Namespace)) w).2.cluster.smcps = w.cluster.smcps := by
  constructor
  · exact keeps_andThen Cluster.namespaces
      (guarded_keeps Cluster.namespaces _ _ _
        (fun w => by rw [isServiceMeshControlPlaneReady_readOnly]))
      (fun w => (memberRoll_steps_keeps ks w).1) w
  · exact keeps_andThen Cluster.smcps
      (guarded_keeps Cluster.smcps _ _ _
        (fun w => by rw [isServiceMeshControlPlaneReady_readOnly]))
      (fun w => (memberRoll_steps_keeps ks w).2) w

/-- Steps 2 to 5 are idempotent against an unchanged server. -/
theorem controlPlane_steps_idem (p : ApiCall → Option ApiError) (ks : KnativeServing) :
    Idem p (andThen (guarded manifestFailure id (manifestApplyAll (renderedControlPlane ks)))
      (andThen (guarded (fun _ => none) id (isServiceMeshControlPlaneReady ks.Namespace))
        (andThen
          (guarded (fun _ => none) (classifyConflict ks) (installServiceMeshMemberRoll ks))
          (isServiceMeshMemberRollReady ks.Namespace)))) := by
  rw [manifestApplyAll_eq_plan]
  obtain ⟨hstop, hwrite, hsettled⟩ := controlPlanePlan_facts ks
  exact idem_andThen_plan _ _ _ _
    (fun cl => ∃ o, storeGet smcpKey (controlPlaneKey ks) cl.smcps = some o ∧
      mergeLabels o.Labels (ownerLabels ks) = o.Labels)
    (ready_steps_shaped ks) rfl
    (controlPlanePlan_lookup _) (controlPlanePlan_served _) hstop hwrite hsettled
    (fun w hS => by simp only [(ready_steps_keeps ks w).2]; exact hS)
    (ready_steps_idem p ks)

theorem controlPlane_steps_shaped (ks : KnativeServing) :
    Shaped (andThen (guarded manifestFailure id (manifestApplyAll (renderedControlPlane ks)))
      (andThen (guarded (fun _ => none) id (isServiceMeshControlPlaneReady ks.Namespace))
        (andThen
          (guarded (fun _ => none) (classifyConflict ks) (installServiceMeshMemberRoll ks))
          (isServiceMeshMemberRollReady ks.Namespace)))) :=
  shaped_andThen (guarded_shaped _ _ _ (manifestApplyAll_shaped _)) (ready_steps_shaped ks)

theorem controlPlane_steps_keeps (ks : KnativeServing) (w : World) :
    (andThen (guarded manifestFailure id (manifestApplyAll (renderedControlPlane ks)))
      (andThen (guarded (fun _ => none) id (isServiceMeshControlPlaneReady ks.Namespace))
        (andThen
          (guarded (fun _ => none) (classifyConflict ks) (installServiceMeshMemberRoll ks))
          (isServiceMeshMemberRollReady ks.Namespace))) w).2.cluster.namespaces
        = w.cluster.namespaces :=
  keeps_andThen Cluster.namespaces
    (guarded_keeps Cluster.namespaces _ _ _ (manifestApplyAll_keeps _))
    (fun w => (ready_steps_keeps ks w).1) w

/-- The whole of `ApplyServiceMesh` is idempotent against an unchanged server. -/
theorem ApplyServiceMesh_idem (p : ApiCall → Option ApiError) (ks : KnativeServing) :
    Idem p (ApplyServiceMesh ks) := by
  rw [ApplyServiceMesh_eq_steps, createIngressNamespace_eq_plan]
  obtain ⟨hstop, hwrite, hsettled⟩ := ingressNamespacePlan_facts ks.Namespace
  exact idem_andThen_plan _ _ _ _
    (fun cl => ∃ o, storeGet namespaceKey
      { Namespace := "", Name := ingressNamespace ks.Namespace } cl.namespaces = some o)
    (controlPlane_steps_shaped ks) rfl
    (ingressNamespacePlan_lookup _) (ingressNamespacePlan_served _) hstop hwrite hsettled
    (fun w hS => by simp only [controlPlane_steps_keeps ks w]; exact hS)
    (controlPlane_steps_idem p ks)

theorem ApplyServiceMesh_shaped (ks : KnativeServing) : Shaped (ApplyServiceMesh ks) := by
  rw [ApplyServiceMesh_eq_steps]
  exact shaped_andThen (guarded_shaped _ _ _ (createIngressNamespace_shaped _))
    (controlPlane_steps_shaped ks)

/-- C8 (amended): take an API server whose verdict on a call depends on the call only,
so that nothing outside changes between two successive runs of `ApplyServiceMesh`.  The
second run leaves the cluster exactly as the first one left it.  Every creation or update
that the second run issues is a call that this server does not serve, or a call for an
object whose lookup it does not serve; so when the server serves every call the second
run makes lookups only: no namespace creation, no creation and no update of the member
roll. -/
theorem ApplyServiceMesh_idempotent (p : ApiCall → Option ApiError) (ks : KnativeServing)
    (w : World) (script : List (Option ApiError))
    (h1 : obeys p w.script (callsSince w (ApplyServiceMesh ks w).2) = true)
    (h2 : obeys p script (callsSince (ApplyServiceMesh ks w).2
      (ApplyServiceMesh ks { (ApplyServiceMesh ks w).2 with script := script }).2) = true) :
    (ApplyServiceMesh ks { (ApplyServiceMesh ks w).2 with script := script }).2.cluster
      = (ApplyServiceMesh ks w).2.cluster ∧
    (ApplyServiceMesh ks { (ApplyServiceMesh ks w).2 with script := script }).2.trace
      = (ApplyServiceMesh ks w).2.trace ++ callsSince (ApplyServiceMesh ks w).2
          (ApplyServiceMesh ks { (ApplyServiceMesh ks w).2 with script := script }).2 ∧
    (∀ call ∈ callsSince (ApplyServiceMesh ks w).2
        (ApplyServiceMesh ks { (ApplyServiceMesh ks w).2 with script := script }).2,
      ApiCall.isWrite call = true → p call ≠ none ∨ p (lookupOf call) ≠ none) ∧
    ((∀ call, p call = none) →
      ∀ call ∈ callsSince (ApplyServiceMesh ks w).2
        (ApplyServiceMesh ks { (ApplyServiceMesh ks w).2 with script := script }).2,
      ApiCall.isWrite call = false) := by
  have hm : (ApplyServiceMesh ks w).2.manifest = w.manifest := (ApplyServiceMesh_shaped ks w).2
  obtain ⟨hc, hw⟩ := ApplyServiceMesh_idem p ks w h1
    { (ApplyServiceMesh ks w).2 with script := script } rfl hm h2
  refine ⟨hc, ?_, hw, ?_⟩
  · exact (ApplyServiceMesh_shaped ks).trace_eq
      { (ApplyServiceMesh ks w).2 with script := script }
  · intro hall call hcall
    cases hwr : ApiCall.isWrite call with
    | false => rfl
    | true =>
      rcases hw call hcall hwr with h | h
      · exact absurd (hall call) h
      · exact absurd (hall (lookupOf call)) h

/-- Witness of C8: tenant-b is a member of another member roll and the server rejects
the creation of its member roll, in both runs; the second run leaves the cluster as the
first one left it, and the one write it issues is the rejected creation.  Against a server
that serves every call, the second run for tenant-a makes lookups only. -/
theorem ApplyServiceMesh_idempotent_witness :
    (ApplyServiceMesh servingTenantB { (ApplyServiceMesh servingTenantB worldApplyRejected).2 with
        script := worldApplyRejected.script }).2.cluster
      = (ApplyServiceMesh servingTenantB worldApplyRejected).2.cluster ∧
    (∀ call ∈ callsSince (ApplyServiceMesh servingTenantB worldApplyRejected).2
        (ApplyServiceMesh servingTenantB
          { (ApplyServiceMesh servingTenantB worldApplyRejected).2 with
            script := worldApplyRejected.script }).2,
      ApiCall.isWrite call = true →
        policyRejectMemberRoll call ≠ none ∨ policyRejectMemberRoll (lookupOf call) ≠ none) ∧
    (∀ call ∈ callsSince (ApplyServiceMesh servingTenantA worldOthersOnly).2
        (ApplyServiceMesh servingTenantA
          { (ApplyServiceMesh servingTenantA worldOthersOnly).2 with script := [] }).2,
      ApiCall.isWrite call = false) :=
  ⟨(ApplyServiceMesh_idempotent policyRejectMemberRoll servingTenantB worldApplyRejected
      worldApplyRejected.script (by rfl) (by rfl)).1,
   (ApplyServiceMesh_idempotent policyRejectMemberRoll servingTenantB worldApplyRejected
      worldApplyRejected.script (by rfl) (by rfl)).2.2.1,
   (ApplyServiceMesh_idempotent (fun _ => none) servingTenantA worldOthersOnly []
      (by rfl) (by rfl)).2.2.2 (fun _ => rfl)⟩

/-- Counterexample to C8 as stated: tenant-b is a member of another member roll, so the
API server rejects the creation of its member roll; the first run returns the conflict
error and leaves the cluster as it was; nothing changes, the server rejects again, and
the second run issues the creation of the member roll once more. -/
theorem ApplyServiceMesh_retries_rejected_creation :
    (ApplyServiceMesh servingTenantB worldApplyRejected).2.cluster = clusterOfTenantB ∧
    (ApplyServiceMesh servingTenantB worldApplyRejected).2.script = [] ∧
    (ApplyServiceMesh servingTenantB
        { (ApplyServiceMesh servingTenantB worldApplyRejected).2 with
            script := worldApplyRejected.script }).2.trace
      = (ApplyServiceMesh servingTenantB worldApplyRejected).2.trace ++
        [.getNamespace { Namespace := "", Name := "tenant-b-ingress" },
         .getSMCP { Namespace := "tenant-b-ingress", Name := "basic-install" },
         .getSMCP { Namespace := "tenant-b-ingress", Name := "basic-install" },
         .getSMMR { Namespace := "tenant-b-ingress", Name := "default" },
         .createSMMR memberRollOfTenantB] := by
  refine ⟨by rfl, by rfl, by rfl⟩

end ServiceMesh
